import Mathlib

/-!
The instruction interpreter of go_chip8 and its call stack.

A shallow embedding of `stack.go` and `instruction.go`.

* Machine integers are natural numbers; every place where the Go code relies on
  `uint8` / `uint16` wrap-around carries an explicit `% 256` / `% 65536`.
* Go methods mutate their receiver and return an `error`; here every operation
  returns the pair of its result and the state it leaves behind.  A run-time
  panic (index out of range, nil timer) is the result `Res.fault`, paired with
  the state reached at the moment of the panic, so that writes made before the
  panic stay visible.
* `stack.go` writes `index` and `capacity` for `stack.index` and
  `stack.capacity`; the embedding reads them as the fields of the receiver.
* The terminal library (termbox) and the random source are outside the
  repository: what they return is supplied by `Env`.
-/

namespace Chip8

/-! ## Results -/

/-- The error values the two files construct. -/
inductive Err where
  /-- The value `errors.New("Stack is full")`. -/
  | stackFull
  /-- The value `errors.New("Stack is empty")`. -/
  | stackEmpty
  /-- The value `fmt.Errorf("Invalid operation ...", op)`, which carries the opcode word. -/
  | invalidOperation (op : Nat)
  /-- the error returned by `termbox.Flush()` -/
  | flush
  deriving DecidableEq, Repr

/-- The run-time panics the two files can raise. -/
inductive Fault where
  /-- Indexing `sys.memory[i]` with `i` outside the memory. -/
  | memoryIndex
  /-- Indexing `sys.keys[i]` with `i` outside the key table. -/
  | keyIndex
  /-- Indexing `stack.memory[i]` with `i` outside the slice. -/
  | stackIndex
  /-- Calling `Stop()` on a nil key timer. -/
  | nilTimer
  /-- Indexing `cells[i]` with `i` outside the terminal cell buffer. -/
  | cellIndex
  deriving DecidableEq, Repr

/-- How a call ends: it returns a value, returns an error, panics, or never returns. -/
inductive Res (α : Type) where
  | ok (a : α)
  | error (e : Err)
  | fault (f : Fault)
  | hang
  deriving DecidableEq, Repr

/-! ## stack.go -/

/-- The struct `Stack` of stack.go: `memory []uint16`, `index uint`, `capacity uint`.  The
method `capacity()` returns the field of the same name. -/
structure Stack where
  memory : List Nat
  index : Nat
  capacity : Nat
  deriving DecidableEq, Repr

/-- The constructor `newStack`: allocates `size` zeroed slots; `index` and `capacity` keep the zero value
of a fresh struct, the function assigns neither. -/
def newStack (size : Nat) : Stack :=
  { memory := List.replicate size 0, index := 0, capacity := 0 }

/-- The method `push`: refuse when `index == capacity`, else store the item at `index` and
increment `index`. -/
def Stack.push (stack : Stack) (item : Nat) : Res Unit × Stack :=
  if stack.index = stack.capacity then
    (Res.error Err.stackFull, stack)
  else if stack.index < stack.memory.length then
    (Res.ok (), { stack with memory := stack.memory.set stack.index item,
                             index := stack.index + 1 })
  else
    (Res.fault Fault.stackIndex, stack)

/-- The method `pop`: refuse when `index == 0`; else decrement `index`, read the slot at the
new index and clear it.  The parameter the source declares is never read (the body
redeclares `item`), so the embedding has none. -/
def Stack.pop (stack : Stack) : Res Nat × Stack :=
  if stack.index = 0 then
    (Res.error Err.stackEmpty, stack)
  else
    let stack1 : Stack := { stack with index := stack.index - 1 }
    if stack1.index < stack1.memory.length then
      let item := stack1.memory.getD stack1.index 0
      (Res.ok item, { stack1 with memory := stack1.memory.set stack1.index 0 })
    else
      (Res.fault Fault.stackIndex, stack1)

/-- The method `peek`: refuse when `index == 0`, else read the slot below `index`. -/
def Stack.peek (stack : Stack) : Res Nat × Stack :=
  if stack.index = 0 then
    (Res.error Err.stackEmpty, stack)
  else if stack.index - 1 < stack.memory.length then
    (Res.ok (stack.memory.getD (stack.index - 1) 0), stack)
  else
    (Res.fault Fault.stackIndex, stack)

/-- The method `size`: the length of the backing slice. -/
def Stack.size (stack : Stack) : Nat := stack.memory.length

/-- Successive `push` calls, stopping at the first one that does not succeed. -/
def Stack.pushAll : Stack → List Nat → Res Unit × Stack
  | stack, [] => (Res.ok (), stack)
  | stack, item :: rest =>
    match stack.push item with
    | (Res.ok _, stack1) => Stack.pushAll stack1 rest
    | r => r

/-- Successive `pop` calls, `k` of them, collecting the popped addresses in order and
stopping at the first call that does not succeed. -/
def Stack.popN : Stack → Nat → Res (List Nat) × Stack
  | stack, 0 => (Res.ok [], stack)
  | stack, k + 1 =>
    match stack.pop with
    | (Res.ok item, stack1) =>
      match Stack.popN stack1 k with
      | (Res.ok items, stack2) => (Res.ok (item :: items), stack2)
      | r => r
    | (Res.error e, stack1) => (Res.error e, stack1)
    | (Res.fault f, stack1) => (Res.fault f, stack1)
    | (Res.hang, stack1) => (Res.hang, stack1)

/-! ## instruction.go -/

/-- The struct `Instruction` of instruction.go (declared there, not used by
`parseInstruction`). -/
structure Instruction where
  opcode : Nat
  x : Nat
  y : Nat
  address : Nat
  n : Nat
  k : Nat
  deriving DecidableEq, Repr

/-! ## The machine -/

/-- Modelled from the spec: the `System` struct is declared outside the two files.  Its
fields are the ones `parseInstruction` uses; sizes follow the spec's data model (16
registers, 4096 bytes of memory, a 32x64 display, 16 keys).  `keyTimers` records for each
key whether a timer object is held (`false` is the nil pointer); `halt` records the values
sent on the halt channel. -/
structure System where
  opcode : Nat
  registers : List Nat
  memory : List Nat
  iregister : Nat
  programCounter : Nat
  stack : Stack
  display : List (List Bool)
  keys : List Bool
  keyTimers : List Bool
  delayTimer : Nat
  soundTimer : Nat
  halt : List Bool
  deriving DecidableEq, Repr

/-- Modelled from the spec: the constant `DISPLAY_HEIGHT` (declared outside the two files). -/
def DISPLAY_HEIGHT : Nat := 32

/-- Modelled from the spec: the constant `DISPLAY_WIDTH` (declared outside the two files). -/
def DISPLAY_WIDTH : Nat := 64

/-- The ranges the Go types of the fields enforce. -/
def System.wf (sys : System) : Prop :=
  sys.opcode < 65536 ∧
  sys.registers.length = 16 ∧ (∀ r ∈ sys.registers, r < 256) ∧
  sys.memory.length = 4096 ∧ (∀ b ∈ sys.memory, b < 256) ∧
  sys.iregister < 65536 ∧ sys.programCounter < 65536 ∧
  (∀ a ∈ sys.stack.memory, a < 65536) ∧
  sys.display.length = DISPLAY_HEIGHT ∧ (∀ row ∈ sys.display, row.length = DISPLAY_WIDTH) ∧
  sys.keys.length = 16 ∧ sys.keyTimers.length = 16 ∧
  sys.delayTimer < 256 ∧ sys.soundTimer < 256

/-- An input event as `parseInstruction` inspects it: whether its type is `EventKey`, and
its character. -/
structure Event where
  isKey : Bool
  ch : Nat
  deriving DecidableEq, Repr

/-- What the collaborators outside the repository hand to one call of `parseInstruction`. -/
structure Env where
  /-- whether `termbox.Flush()` returns an error -/
  flushFails : Bool
  /-- the value of `rand.Intn(256)` -/
  rand : Nat
  /-- the events `termbox.PollEvent()` delivers, in order -/
  events : List Event
  /-- the table `INPUT_MAP` (declared outside the two files) -/
  INPUT_MAP : Nat → Option Nat
  /-- the width reported by `termbox.Size()` -/
  termWidth : Nat
  /-- the length of `termbox.CellBuffer()` -/
  cellCount : Nat

/-- Modelled from the spec: `incrementPC` (declared outside the two files) is the shared
advance operation, +4 for a skip and +2 otherwise, on the 16-bit program counter. -/
def System.incrementPC (sys : System) (skip : Bool) : System :=
  { sys with programCounter := (sys.programCounter + (if skip then 4 else 2)) % 65536 }

/-- Modelled from the spec: `clearDisplay` (declared outside the two files) sets every
pixel off. -/
def System.clearDisplay (sys : System) : System :=
  { sys with display := sys.display.map (fun row => row.map (fun _ => false)) }

/-- Modelled from the spec: `bits` (declared outside the two files) yields the 8 bits of a
sprite byte, most significant first.  The source also receives an error from `bits`; the
spec names none for an 8-bit input, so the embedding takes `bits` to succeed always. -/
def bits (b : Nat) : List Bool :=
  (List.range 8).map (fun i => b.testBit (7 - i))

/-- Register read `sys.registers[i]`. -/
def System.reg (sys : System) (i : Nat) : Nat := sys.registers.getD i 0

/-- Register write `sys.registers[i] = v`. -/
def System.setReg (sys : System) (i v : Nat) : System :=
  { sys with registers := sys.registers.set i v }

/-- Pixel read `sys.display[row][col]`. -/
def System.pixel (sys : System) (row col : Nat) : Bool :=
  (sys.display.getD row []).getD col false

/-- Pixel write `sys.display[row][col] = v`. -/
def System.setPixel (sys : System) (row col : Nat) (v : Bool) : System :=
  { sys with display := sys.display.set row ((sys.display.getD row []).set col v) }

/-- The body of the inner loop of DRW, for one `xOffset`. -/
def drawPixel (env : Env) (x yAdjusted : Nat) (toDrawBits : List Bool) (xOffset : Nat)
    (sys : System) : Res Unit × System :=
  let xSum := (sys.reg x + xOffset) % 65536
  let xAdjusted := if xSum ≥ DISPLAY_WIDTH then xSum % DISPLAY_WIDTH else xSum
  let sys1 :=
    if toDrawBits.getD xOffset false && sys.pixel yAdjusted xAdjusted then sys.setReg 0xF 1
    else sys
  let sys2 := sys1.setPixel yAdjusted xAdjusted
    (sys1.pixel yAdjusted xAdjusted != toDrawBits.getD xOffset false)
  let cell := ((env.termWidth % 65536) * yAdjusted + xAdjusted) % 65536
  if cell < env.cellCount then (Res.ok (), sys2) else (Res.fault Fault.cellIndex, sys2)

/-- The inner loop of DRW over the remaining values of `xOffset`. -/
def drawRow (env : Env) (x yAdjusted : Nat) (toDrawBits : List Bool) :
    List Nat → System → Res Unit × System
  | [], sys => (Res.ok (), sys)
  | xOffset :: rest, sys =>
    match drawPixel env x yAdjusted toDrawBits xOffset sys with
    | (Res.ok _, sys1) => drawRow env x yAdjusted toDrawBits rest sys1
    | r => r

/-- The outer loop of DRW over the remaining values of `yOffset`. -/
def drawRows (env : Env) (x y : Nat) : List Nat → System → Res Unit × System
  | [], sys => (Res.ok (), sys)
  | yOffset :: rest, sys =>
    let ySum := (sys.reg y + yOffset) % 65536
    let yAdjusted := if ySum ≥ DISPLAY_HEIGHT then ySum % DISPLAY_HEIGHT else ySum
    let addr := (sys.iregister + yOffset) % 65536
    if addr < sys.memory.length then
      let toDrawBits := bits (sys.memory.getD addr 0)
      match drawRow env x yAdjusted toDrawBits (List.range toDrawBits.length) sys with
      | (Res.ok _, sys1) => drawRows env x y rest sys1
      | r => r
    else
      (Res.fault Fault.memoryIndex, sys)

/-- The loop of Fx55 over the remaining values of `i`. -/
def storeRegisters : List Nat → System → Res Unit × System
  | [], sys => (Res.ok (), sys)
  | i :: rest, sys =>
    let addr := (sys.iregister + i) % 65536
    if addr < sys.memory.length then
      storeRegisters rest { sys with memory := sys.memory.set addr (sys.reg i) }
    else
      (Res.fault Fault.memoryIndex, sys)

/-- The loop of Fx65 over the remaining values of `i`. -/
def loadRegisters : List Nat → System → Res Unit × System
  | [], sys => (Res.ok (), sys)
  | i :: rest, sys =>
    let addr := (sys.iregister + i) % 65536
    if addr < sys.memory.length then
      loadRegisters rest (sys.setReg i (sys.memory.getD addr 0))
    else
      (Res.fault Fault.memoryIndex, sys)

/-- The three stores of Fx33, in source order. -/
def storeBCD (x : Nat) (sys : System) : Res Unit × System :=
  if sys.iregister < sys.memory.length then
    let sys1 := { sys with memory := sys.memory.set sys.iregister (sys.reg x / 100) }
    let addr1 := (sys1.iregister + 1) % 65536
    if addr1 < sys1.memory.length then
      let sys2 := { sys1 with memory := sys1.memory.set addr1 ((sys1.reg x / 10) % 10) }
      let addr2 := (sys2.iregister + 2) % 65536
      if addr2 < sys2.memory.length then
        (Res.ok (), { sys2 with memory := sys2.memory.set addr2 ((sys2.reg x % 100) % 10) })
      else (Res.fault Fault.memoryIndex, sys2)
    else (Res.fault Fault.memoryIndex, sys1)
  else (Res.fault Fault.memoryIndex, sys)

/-- The tail shared by DRW, Fx33, Fx55 and Fx65: when the handler's stores and loops have
completed, `sys.incrementPC(false)` runs; a panic raised before that point ends the call. -/
def thenAdvance (r : Res Unit × System) : Res Unit × System :=
  match r with
  | (Res.ok _, sys1) => (Res.ok (), sys1.incrementPC false)
  | r => r

/-- The branch shared by SKP and SKNP when the key is pressed: advance, clear the key,
stop and drop its timer. -/
def consumeKey (x : Nat) (skip : Bool) (sys : System) : Res Unit × System :=
  let sys1 := sys.incrementPC skip
  let sys2 := { sys1 with keys := sys1.keys.set (sys1.reg x) false }
  let k := sys2.reg x
  if sys2.keyTimers.getD k false then
    (Res.ok (), { sys2 with keyTimers := sys2.keyTimers.set k false })
  else
    (Res.fault Fault.nilTimer, sys2)

/-- The nested `switch op` under `case 0x0000`: CLS, RET, the two exit words, and the
default. -/
def switch0 (env : Env) (op : Nat) (sys : System) : Res Unit × System :=
  if op = 0x00E0 then
    let sys1 := sys.clearDisplay
    if env.flushFails then (Res.error Err.flush, sys1)
    else (Res.ok (), sys1.incrementPC false)
  else if op = 0x00EE then
    match sys.stack.pop with
    | (Res.ok addr, stack1) =>
      (Res.ok (), ({ sys with stack := stack1, programCounter := addr }).incrementPC false)
    | (Res.error e, stack1) => (Res.error e, { sys with stack := stack1 })
    | (Res.fault f, stack1) => (Res.fault f, { sys with stack := stack1 })
    | (Res.hang, stack1) => (Res.hang, { sys with stack := stack1 })
  else if op = 0x0A00 ∨ op = 0x0000 then
    (Res.ok (), ({ sys with halt := sys.halt ++ [true] }).incrementPC false)
  else
    (Res.error (Err.invalidOperation op), sys)

/-- The body of `case 0x2000` (CALL). -/
def call (nnn : Nat) (sys : System) : Res Unit × System :=
  match sys.stack.push sys.programCounter with
  | (Res.ok _, stack1) => (Res.ok (), { sys with stack := stack1, programCounter := nnn })
  | (Res.error e, stack1) => (Res.error e, { sys with stack := stack1 })
  | (Res.fault f, stack1) => (Res.fault f, { sys with stack := stack1 })
  | (Res.hang, stack1) => (Res.hang, { sys with stack := stack1 })

/-- The nested `switch op & 0x000F` under `case 0x8000`. -/
def switch8 (op x y : Nat) (sys : System) : Res Unit × System :=
  if op &&& 0x000F = 0x0 then
    (Res.ok (), (sys.setReg x (sys.reg y)).incrementPC false)
  else if op &&& 0x000F = 0x1 then
    (Res.ok (), (sys.setReg x (sys.reg x ||| sys.reg y)).incrementPC false)
  else if op &&& 0x000F = 0x2 then
    (Res.ok (), (sys.setReg x (sys.reg x &&& sys.reg y)).incrementPC false)
  else if op &&& 0x000F = 0x3 then
    (Res.ok (), (sys.setReg x (sys.reg x ^^^ sys.reg y)).incrementPC false)
  else if op &&& 0x000F = 0x4 then
    let sum := (sys.reg x + sys.reg y) % 256
    let sys1 :=
      if (decide (sum > sys.reg x) == decide (sys.reg y > 0)) then sys.setReg 0xF 0
      else sys.setReg 0xF 1
    (Res.ok (), (sys1.setReg x sum).incrementPC false)
  else if op &&& 0x000F = 0x5 then
    let sys1 := if sys.reg x > sys.reg y then sys.setReg 0xF 1 else sys.setReg 0xF 0
    (Res.ok (), (sys1.setReg x ((sys1.reg x + 256 - sys1.reg y) % 256)).incrementPC false)
  else if op &&& 0x000F = 0x6 then
    let sys1 := sys.setReg 0xF (sys.reg x &&& 0x1)
    (Res.ok (), (sys1.setReg x (sys1.reg x >>> 1)).incrementPC false)
  else if op &&& 0x000F = 0x7 then
    let sys1 := if sys.reg y > sys.reg x then sys.setReg 0xF 1 else sys.setReg 0xF 0
    (Res.ok (), (sys1.setReg x ((sys1.reg y + 256 - sys1.reg x) % 256)).incrementPC false)
  else if op &&& 0x000F = 0xE then
    let sys1 := sys.setReg 0xF ((sys.reg x >>> 7) &&& 0x1)
    (Res.ok (), (sys1.setReg x ((sys1.reg x <<< 1) % 256)).incrementPC false)
  else
    (Res.error (Err.invalidOperation op), sys)

/-- The nested `switch op & 0x00FF` under `case 0xE000`. -/
def switchE (op x : Nat) (sys : System) : Res Unit × System :=
  if op &&& 0x00FF = 0x009E then
    if sys.reg x < sys.keys.length then
      if sys.keys.getD (sys.reg x) false then consumeKey x true sys
      else (Res.ok (), sys.incrementPC false)
    else (Res.fault Fault.keyIndex, sys)
  else if op &&& 0x00FF = 0x00A1 then
    if sys.reg x < sys.keys.length then
      if sys.keys.getD (sys.reg x) false then consumeKey x false sys
      else (Res.ok (), sys.incrementPC true)
    else (Res.fault Fault.keyIndex, sys)
  else
    (Res.error (Err.invalidOperation op), sys)

/-- The body of `case 0x000A` (LD Vx,K): one event is polled before the loop; the loop
leaves only when that event is a key event found in `INPUT_MAP`, and polls no other. -/
def waitKey (env : Env) (x : Nat) (sys : System) : Res Unit × System :=
  match env.events with
  | [] => (Res.hang, sys)
  | ev :: _ =>
    if ev.isKey then
      match env.INPUT_MAP ev.ch with
      | some val => (Res.ok (), (sys.setReg x val).incrementPC false)
      | none => (Res.hang, sys)
    else (Res.hang, sys)

/-- The nested `switch op & 0x00FF` under `case 0xF000`. -/
def switchF (env : Env) (op x : Nat) (sys : System) : Res Unit × System :=
  if op &&& 0x00FF = 0x0007 then
    (Res.ok (), (sys.setReg x sys.delayTimer).incrementPC false)
  else if op &&& 0x00FF = 0x000A then
    waitKey env x sys
  else if op &&& 0x00FF = 0x0015 then
    (Res.ok (), ({ sys with delayTimer := sys.reg x }).incrementPC false)
  else if op &&& 0x00FF = 0x0018 then
    (Res.ok (), ({ sys with soundTimer := sys.reg x }).incrementPC false)
  else if op &&& 0x00FF = 0x001E then
    (Res.ok (), ({ sys with iregister := (sys.iregister + sys.reg x) % 65536 }).incrementPC false)
  else if op &&& 0x00FF = 0x0029 then
    (Res.ok (), ({ sys with iregister := (sys.reg x * 5) % 65536 }).incrementPC false)
  else if op &&& 0x00FF = 0x0033 then
    thenAdvance (storeBCD x sys)
  else if op &&& 0x00FF = 0x0055 then
    thenAdvance (storeRegisters (List.range (x + 1)) sys)
  else if op &&& 0x00FF = 0x0065 then
    thenAdvance (loadRegisters (List.range (x + 1)) sys)
  else
    (Res.error (Err.invalidOperation op), sys)

/-- The method `parseInstruction`: decode `sys.opcode` and execute it.  The outer `switch op & 0xF000`
is the chain of tests below; the nested switches are `switch0`, `switch8`, `switchE` and
`switchF`. -/
def parseInstruction (env : Env) (sys : System) : Res Unit × System :=
  let op := sys.opcode
  let x := (op &&& 0x0F00) >>> 8
  let y := (op &&& 0x00F0) >>> 4
  let n := op &&& 0x000F
  let nnn := op &&& 0x0FFF
  let kk := (op &&& 0x00FF) % 256
  if op &&& 0xF000 = 0x0000 then
    switch0 env op sys
  else if op &&& 0xF000 = 0x1000 then
    (Res.ok (), { sys with programCounter := nnn })
  else if op &&& 0xF000 = 0x2000 then
    call nnn sys
  else if op &&& 0xF000 = 0x3000 then
    if sys.reg x = kk then (Res.ok (), sys.incrementPC true)
    else (Res.ok (), sys.incrementPC false)
  else if op &&& 0xF000 = 0x4000 then
    if sys.reg x = kk then (Res.ok (), sys.incrementPC false)
    else (Res.ok (), sys.incrementPC true)
  else if op &&& 0xF000 = 0x5000 then
    if sys.reg x = sys.reg y then (Res.ok (), sys.incrementPC true)
    else (Res.ok (), sys.incrementPC false)
  else if op &&& 0xF000 = 0x6000 then
    (Res.ok (), (sys.setReg x kk).incrementPC false)
  else if op &&& 0xF000 = 0x7000 then
    (Res.ok (), (sys.setReg x ((sys.reg x + kk) % 256)).incrementPC false)
  else if op &&& 0xF000 = 0x8000 then
    switch8 op x y sys
  else if op &&& 0xF000 = 0x9000 then
    if sys.reg x ≠ sys.reg y then (Res.ok (), sys.incrementPC true)
    else (Res.ok (), sys.incrementPC false)
  else if op &&& 0xF000 = 0xA000 then
    (Res.ok (), ({ sys with iregister := nnn }).incrementPC false)
  else if op &&& 0xF000 = 0xB000 then
    (Res.ok (), { sys with programCounter := (nnn + sys.reg 0x0) % 65536 })
  else if op &&& 0xF000 = 0xC000 then
    (Res.ok (), (sys.setReg x (kk &&& (env.rand % 256))).incrementPC false)
  else if op &&& 0xF000 = 0xD000 then
    thenAdvance (drawRows env x y (List.range n) (sys.setReg 0xF 0))
  else if op &&& 0xF000 = 0xE000 then
    switchE op x sys
  else if op &&& 0xF000 = 0xF000 then
    switchF env op x sys
  else
    (Res.error (Err.invalidOperation op), sys)

/-- Executing the opcode word `op`: the fetch (outside the two files) has placed the word in
`sys.opcode`, and `parseInstruction` runs on it. -/
def execOpcode (env : Env) (sys : System) (op : Nat) : Res Unit × System :=
  parseInstruction env { sys with opcode := op }

/-! ## Predicates on results, used to state what a failed call leaves behind -/

/-- What the draw loops can return: success, or a panic on a memory or cell index. -/
def DrawRes (r : Res Unit) : Prop :=
  r = Res.ok () ∨ r = Res.fault Fault.memoryIndex ∨ r = Res.fault Fault.cellIndex

/-- What the memory-indexed handlers of class F can return: success, or a panic on a
memory index. -/
def MemRes (r : Res Unit) : Prop :=
  r = Res.ok () ∨ r = Res.fault Fault.memoryIndex

/-- The failures of a call started in `sys` that leave the whole machine state as it was:
a returned error other than the flush error of CLS; a panic on a key index; a panic on a
stack index, when the stack index of `sys` lies within the stack's slice; and a panic on
a memory index in class F when already the I-register of `sys` lies outside the memory. -/
def FailsCleanly (sys : System) (r : Res Unit × System) : Prop :=
  (∀ e, r.1 = Res.error e → e ≠ Err.flush → r.2 = sys) ∧
  (r.1 = Res.fault Fault.keyIndex → r.2 = sys) ∧
  (sys.stack.index ≤ sys.stack.memory.length → r.1 = Res.fault Fault.stackIndex → r.2 = sys) ∧
  (sys.memory.length ≤ sys.iregister → sys.iregister < 65536 →
    sys.opcode &&& 0xF000 = 0xF000 → r.1 = Res.fault Fault.memoryIndex → r.2 = sys)

/-! ## Concrete machines and stacks, used to evaluate the code on explicit inputs -/

/-- A terminal of 80x40 cells whose flush succeeds, with no pending event. -/
def quietEnv : Env :=
  { flushFails := false, rand := 0, events := [], INPUT_MAP := fun _ => none,
    termWidth := 80, cellCount := 3200 }

/-- A machine with the given register file and I-register, zeroed memory, a blank display,
no key pressed and the program counter at 0x200. -/
def machineWith (registers : List Nat) (iregister : Nat) : System :=
  { opcode := 0, registers := registers, memory := List.replicate 4096 0,
    iregister := iregister, programCounter := 0x200, stack := newStack 16,
    display := List.replicate 32 (List.replicate 64 false),
    keys := List.replicate 16 false, keyTimers := List.replicate 16 false,
    delayTimer := 0, soundTimer := 0, halt := [] }

/-- Registers V0 = 200, V1 = 100, all others 0. -/
def regsCarry : List Nat := [200, 100, 0, 0, 0, 0, 0, 0, 0, 0, 0, 0, 0, 0, 0, 0]

/-- Registers V0 = 7, V1 = 7, all others 0. -/
def regsEqual : List Nat := [7, 7, 0, 0, 0, 0, 0, 0, 0, 0, 0, 0, 0, 0, 0, 0]

/-- Registers V0 = 3, V1 = 9, all others 0. -/
def regsBorrow : List Nat := [3, 9, 0, 0, 0, 0, 0, 0, 0, 0, 0, 0, 0, 0, 0, 0]

/-- Registers V0 = 0x81, V1 = 5, all others 0. -/
def regsHighBit : List Nat := [0x81, 5, 0, 0, 0, 0, 0, 0, 0, 0, 0, 0, 0, 0, 0, 0]

/-- Registers V1 = 4, VF = 3, all others 0. -/
def regsFlagOperand : List Nat := [0, 4, 0, 0, 0, 0, 0, 0, 0, 0, 0, 0, 0, 0, 0, 3]

/-- A stack of capacity 3 over three zeroed slots, holding no address. -/
def emptyStack3 : Stack := { memory := [0, 0, 0], index := 0, capacity := 3 }

/-- A stack of capacity 3 holding the addresses 0x200 and 0x300 (0x300 on top). -/
def stackHolding : Stack := { memory := [0x200, 0x300, 0], index := 2, capacity := 3 }


/-- Memory read `sys.memory[a]`. -/
def System.mem (sys : System) (a : Nat) : Nat := sys.memory.getD a 0

/-- A machine whose stack holds 0x200 and 0x300 (0x300 on top), PC = 0x200. -/
def machineReturning : System := { machineWith regsCarry 0 with stack := stackHolding }

/-- A machine whose stack has capacity 3 and holds nothing, PC = 0x200. -/
def machineCalling : System := { machineWith regsCarry 0 with stack := emptyStack3 }

/-- The words the spec calls unrecognised, in its own terms: 0nnn other than 00E0, 00EE,
0000 and 0A00; 8xyN with N in {8,9,A,B,C,D,F}; Exkk with kk not in {9E, A1}; Fxkk with kk
not in {07, 0A, 15, 18, 1E, 29, 33, 55, 65}. -/
def UnrecognisedWord (op : Nat) : Prop :=
  (op / 0x1000 = 0x0 ∧ op ≠ 0x00E0 ∧ op ≠ 0x00EE ∧ op ≠ 0x0000 ∧ op ≠ 0x0A00) ∨
  (op / 0x1000 = 0x8 ∧ op % 0x10 ∈ [0x8, 0x9, 0xA, 0xB, 0xC, 0xD, 0xF]) ∨
  (op / 0x1000 = 0xE ∧ op % 0x100 ∉ [0x9E, 0xA1]) ∨
  (op / 0x1000 = 0xF ∧ op % 0x100 ∉ [0x07, 0x0A, 0x15, 0x18, 0x1E, 0x29, 0x33, 0x55, 0x65])

/-- The result is not an Invalid-operation error. -/
def NotInvalid (r : Res Unit) : Prop := ∀ w, r ≠ Res.error (Err.invalidOperation w)

/-- The statement of the decode contract for a call started in `sys`: the result is an
Invalid-operation error exactly when the opcode word is unrecognised, and then the call
returns that error for the word itself and the machine state as it was. -/
def DecodeContract (sys : System) (r : Res Unit × System) : Prop :=
  ((∃ w, r.1 = Res.error (Err.invalidOperation w)) ↔ UnrecognisedWord sys.opcode) ∧
  (UnrecognisedWord sys.opcode → r = (Res.error (Err.invalidOperation sys.opcode), sys))

/-- The loop of `case 0x000A`, run for at most `fuel` iterations on the event `ev` polled
before it: the machine with the key value stored when the loop is left, nothing when the
fuel runs out.  The body polls no event, so every iteration tests the same `ev`. -/
def waitKeyIter (env : Env) (x : Nat) (ev : Event) : Nat → System → Option System
  | 0, _ => none
  | fuel + 1, sys =>
    if ev.isKey then
      match env.INPUT_MAP ev.ch with
      | some val => some (sys.setReg x val)
      | none => waitKeyIter env x ev fuel sys
    else waitKeyIter env x ev fuel sys

/-- An input source that delivers a non-key event and then the key 'a' (97), which the
input map sends to the key value 0xA. -/
def noisyEnv : Env :=
  { flushFails := false, rand := 0,
    events := [{ isKey := false, ch := 0 }, { isKey := true, ch := 97 }],
    INPUT_MAP := fun ch => if ch = 97 then some 0xA else none,
    termWidth := 80, cellCount := 3200 }

/-! ## Predicates used to state what DRW does -/

/-- The terminal's cell buffer holds the cell of every pixel of the display, at the index
DRW computes for it (`uint16(width) * row + col`, in 16-bit arithmetic). -/
def TerminalCovers (env : Env) : Prop :=
  ∀ row col, row < DISPLAY_HEIGHT → col < DISPLAY_WIDTH →
    ((env.termWidth % 65536) * row + col) % 65536 < env.cellCount

/-- Bit `b` of the sprite byte `memory[I + row]`, counting from the most significant bit
(`b = 0`) as the spec does. -/
def spriteBit (sys : System) (row b : Nat) : Bool :=
  (sys.mem (sys.iregister + row)).testBit (7 - b)

/-- The display has its 32 rows of 64 pixels. -/
def DispOK (s : System) : Prop :=
  s.display.length = DISPLAY_HEIGHT ∧
  ∀ r, r < DISPLAY_HEIGHT → (s.display.getD r []).length = DISPLAY_WIDTH

/-- What the draw loops leave alone between two of their states: memory, I, the number of
registers, every register but VF (which keeps its value or becomes 1), and the shape of the
display. -/
def DrawStep (s t : System) : Prop :=
  t.memory = s.memory ∧ t.iregister = s.iregister ∧
  t.registers.length = s.registers.length ∧
  (∀ j, j ≠ 0xF → t.reg j = s.reg j) ∧
  (t.reg 0xF = s.reg 0xF ∨ t.reg 0xF = 1) ∧
  DispOK t

/-- The sprite bit as DRW reads it: entry `b` of `bits(memory[I + row])`. -/
def drawnBit (s : System) (row b : Nat) : Bool :=
  (bits (s.mem (s.iregister + row))).getD b false

/-- A set sprite bit of `Dxyn` lands on the pixel in row `r`, column `c`: some row offset
below `n` and bit index below 8 give these coordinates, and the bit read there is 1. -/
def LitAt (s : System) (x y n r c : Nat) : Prop :=
  ∃ row, row < n ∧ ∃ b, b < 8 ∧ r = (s.reg y + row) % 32 ∧ c = (s.reg x + b) % 64 ∧
    drawnBit s row b = true

/-- Registers V0 = 60, V1 = 30, all others 0. -/
def regsWrap : List Nat := [60, 30, 0, 0, 0, 0, 0, 0, 0, 0, 0, 0, 0, 0, 0, 0]


/-- A terminal of 80x24 cells whose flush succeeds, with no pending event. -/
def smallTerminal : Env :=
  { flushFails := false, rand := 0, events := [], INPUT_MAP := fun _ => none,
    termWidth := 80, cellCount := 1920 }

/-- The machine with V0 = 60, V1 = 30, I = 0x300, a blank display, and the two-row sprite
0xFF, 0x81 stored at `memory[0x300]` and `memory[0x301]`. -/
def machineSprite : System :=
  { machineWith regsWrap 0x300 with
    memory := ((List.replicate 4096 0).set 0x300 0xFF).set 0x301 0x81 }

/-! ## Register file lemmas -/

theorem reg_setReg_self (sys : System) (i v : Nat) (h : i < sys.registers.length) :
    (sys.setReg i v).reg i = v := by
  simp [System.setReg, System.reg, List.getD_eq_getElem?_getD, List.getElem?_set, h]

theorem reg_setReg_ne (sys : System) (i j v : Nat) (h : i ≠ j) :
    (sys.setReg i v).reg j = sys.reg j := by
  simp [System.setReg, System.reg, List.getD_eq_getElem?_getD, List.getElem?_set, h]

theorem length_setReg (sys : System) (i v : Nat) :
    (sys.setReg i v).registers.length = sys.registers.length := by
  simp [System.setReg]

theorem reg_lt_of_bytes (t : System) (hbytes : ∀ r ∈ t.registers, r < 256) (i : Nat) :
    t.reg i < 256 := by
  unfold System.reg
  rw [List.getD_eq_getElem?_getD]
  cases h : t.registers[i]? with
  | none => simp
  | some v =>
    simp only [Option.getD_some]
    exact hbytes v (List.getElem?_mem h)

theorem machineWith_wf (registers : List Nat) (iregister : Nat)
    (hlen : registers.length = 16) (hbytes : ∀ r ∈ registers, r < 256)
    (hi : iregister < 65536) : (machineWith registers iregister).wf := by
  refine ⟨?_, hlen, hbytes, List.length_replicate _ _, ?_, hi, ?_, ?_,
    List.length_replicate _ _, ?_, List.length_replicate _ _, List.length_replicate _ _,
    ?_, ?_⟩
  · show (0 : Nat) < 65536
    decide
  · intro b hb
    rw [List.eq_of_mem_replicate hb]
    decide
  · show (0x200 : Nat) < 65536
    decide
  · intro a ha
    rw [List.eq_of_mem_replicate ha]
    decide
  · intro row hrow
    rw [List.eq_of_mem_replicate hrow]
    exact List.length_replicate _ _
  · show (0 : Nat) < 256
    decide
  · show (0 : Nat) < 256
    decide

/-! ## Decoding and the five flag-setting handlers of class 8 -/

theorem decode_8xyN : ∀ x < 16, ∀ y < 16, ∀ n < 16,
    ((0x8000 + 0x100 * x + 0x10 * y + n) &&& 0xF000 = 0x8000) ∧
    (((0x8000 + 0x100 * x + 0x10 * y + n) &&& 0x0F00) >>> 8 = x) ∧
    (((0x8000 + 0x100 * x + 0x10 * y + n) &&& 0x00F0) >>> 4 = y) ∧
    ((0x8000 + 0x100 * x + 0x10 * y + n) &&& 0x000F = n) := by
  decide

theorem parse_add (env : Env) (sys : System) (x y : Nat) (hx : x < 16) (hy : y < 16)
    (hop : sys.opcode = 0x8000 + 0x100 * x + 0x10 * y + 4) :
    parseInstruction env sys =
      (Res.ok (), (((if (decide ((sys.reg x + sys.reg y) % 256 > sys.reg x)
          == decide (sys.reg y > 0))
        then sys.setReg 0xF 0 else sys.setReg 0xF 1).setReg x
          ((sys.reg x + sys.reg y) % 256)).incrementPC false)) := by
  obtain ⟨h1, h2, h3, h4⟩ := decode_8xyN x hx y hy 4 (by decide)
  unfold parseInstruction
  simp only [hop, h1, h2, h3, h4]
  simp [switch8, h4]

theorem parse_sub (env : Env) (sys : System) (x y : Nat) (hx : x < 16) (hy : y < 16)
    (hop : sys.opcode = 0x8000 + 0x100 * x + 0x10 * y + 5) :
    parseInstruction env sys =
      (Res.ok (), (((if sys.reg x > sys.reg y then sys.setReg 0xF 1 else sys.setReg 0xF 0).setReg x
        (((if sys.reg x > sys.reg y then sys.setReg 0xF 1 else sys.setReg 0xF 0).reg x + 256
          - (if sys.reg x > sys.reg y then sys.setReg 0xF 1 else sys.setReg 0xF 0).reg y)
          % 256)).incrementPC false)) := by
  obtain ⟨h1, h2, h3, h4⟩ := decode_8xyN x hx y hy 5 (by decide)
  unfold parseInstruction
  simp only [hop, h1, h2, h3, h4]
  simp [switch8, h4]

theorem parse_shr (env : Env) (sys : System) (x y : Nat) (hx : x < 16) (hy : y < 16)
    (hop : sys.opcode = 0x8000 + 0x100 * x + 0x10 * y + 6) :
    parseInstruction env sys =
      (Res.ok (), (((sys.setReg 0xF (sys.reg x &&& 0x1)).setReg x
        ((sys.setReg 0xF (sys.reg x &&& 0x1)).reg x >>> 1)).incrementPC false)) := by
  obtain ⟨h1, h2, h3, h4⟩ := decode_8xyN x hx y hy 6 (by decide)
  unfold parseInstruction
  simp only [hop, h1, h2, h3, h4]
  simp [switch8, h4]

theorem parse_subn (env : Env) (sys : System) (x y : Nat) (hx : x < 16) (hy : y < 16)
    (hop : sys.opcode = 0x8000 + 0x100 * x + 0x10 * y + 7) :
    parseInstruction env sys =
      (Res.ok (), (((if sys.reg y > sys.reg x then sys.setReg 0xF 1 else sys.setReg 0xF 0).setReg x
        (((if sys.reg y > sys.reg x then sys.setReg 0xF 1 else sys.setReg 0xF 0).reg y + 256
          - (if sys.reg y > sys.reg x then sys.setReg 0xF 1 else sys.setReg 0xF 0).reg x)
          % 256)).incrementPC false)) := by
  obtain ⟨h1, h2, h3, h4⟩ := decode_8xyN x hx y hy 7 (by decide)
  unfold parseInstruction
  simp only [hop, h1, h2, h3, h4]
  simp [switch8, h4]

theorem parse_shl (env : Env) (sys : System) (x y : Nat) (hx : x < 16) (hy : y < 16)
    (hop : sys.opcode = 0x8000 + 0x100 * x + 0x10 * y + 0xE) :
    parseInstruction env sys =
      (Res.ok (), (((sys.setReg 0xF ((sys.reg x >>> 7) &&& 0x1)).setReg x
        (((sys.setReg 0xF ((sys.reg x >>> 7) &&& 0x1)).reg x <<< 1) % 256)).incrementPC false)) := by
  obtain ⟨h1, h2, h3, h4⟩ := decode_8xyN x hx y hy 0xE (by decide)
  unfold parseInstruction
  simp only [hop, h1, h2, h3, h4]
  simp [switch8, h4]

/-! ## What the flag-then-result write order leaves in the register file -/

theorem reg_flag_after (t : System) (f r x : Nat) (skip : Bool)
    (hlen : t.registers.length = 16) (hxF : x ≠ 0xF) :
    (((t.setReg 0xF f).setReg x r).incrementPC skip).reg 0xF = f := by
  show ((t.setReg 0xF f).setReg x r).reg 0xF = f
  rw [reg_setReg_ne _ _ _ _ hxF, reg_setReg_self _ _ _ (by omega)]

theorem reg_result_after (t : System) (f r x : Nat) (skip : Bool)
    (hlen : t.registers.length = 16) (hx : x < 16) :
    (((t.setReg 0xF f).setReg x r).incrementPC skip).reg x = r := by
  show ((t.setReg 0xF f).setReg x r).reg x = r
  rw [reg_setReg_self _ _ _ (by rw [length_setReg]; omega)]

theorem setReg_ite (t : System) (c : Prop) [Decidable c] (i a b : Nat) :
    (if c then t.setReg i a else t.setReg i b) = t.setReg i (if c then a else b) := by
  split <;> rfl

theorem add_core (env : Env) (t : System) (x y : Nat)
    (hlen : t.registers.length = 16) (hbytes : ∀ r ∈ t.registers, r < 256)
    (hx : x < 16) (hy : y < 16) (hxF : x ≠ 0xF)
    (hop : t.opcode = 0x8000 + 0x100 * x + 0x10 * y + 4) :
    (parseInstruction env t).1 = Res.ok () ∧
    (parseInstruction env t).2.reg 0xF = (if t.reg x + t.reg y > 255 then 1 else 0) ∧
    (parseInstruction env t).2.reg x = (t.reg x + t.reg y) % 256 := by
  have ha := reg_lt_of_bytes t hbytes x
  have hb := reg_lt_of_bytes t hbytes y
  rw [parse_add env t x y hx hy hop, setReg_ite]
  refine ⟨rfl, ?_, ?_⟩
  · show (((t.setReg 0xF _).setReg x _).incrementPC false).reg 0xF = _
    rw [reg_flag_after _ _ _ _ _ hlen hxF]
    by_cases hc : t.reg x + t.reg y > 255
    · have h1 : ¬ ((t.reg x + t.reg y) % 256 > t.reg x) := by omega
      have h2 : t.reg y > 0 := by omega
      simp [h1, h2, hc]
    · by_cases h0 : t.reg y = 0
      · have h1 : ¬ ((t.reg x + t.reg y) % 256 > t.reg x) := by omega
        have h2 : ¬ (t.reg y > 0) := by omega
        simp [h1, h2, hc]
      · have h1 : (t.reg x + t.reg y) % 256 > t.reg x := by omega
        have h2 : t.reg y > 0 := by omega
        simp [h1, h2, hc]
  · show (((t.setReg 0xF _).setReg x _).incrementPC false).reg x = _
    rw [reg_result_after _ _ _ _ _ hlen hx]

/-- C1: for every machine state, every register index x other than 0xF and every y,
executing 8xy4 (ADD Vx,Vy) through `parseInstruction` succeeds and leaves VF = 1 exactly
when Vx + Vy (the values before the step) exceeds 255, VF = 0 otherwise, and
Vx = (Vx + Vy) mod 256. -/
theorem add_sets_carry_and_truncated_sum (env : Env) (sys : System) (x y : Nat)
    (hwf : sys.wf) (hx : x < 16) (hy : y < 16) (hxF : x ≠ 0xF) :
    (execOpcode env sys (0x8000 + 0x100 * x + 0x10 * y + 4)).1 = Res.ok () ∧
    (execOpcode env sys (0x8000 + 0x100 * x + 0x10 * y + 4)).2.reg 0xF
      = (if sys.reg x + sys.reg y > 255 then 1 else 0) ∧
    (execOpcode env sys (0x8000 + 0x100 * x + 0x10 * y + 4)).2.reg x
      = (sys.reg x + sys.reg y) % 256 :=
  add_core env { sys with opcode := 0x8000 + 0x100 * x + 0x10 * y + 4 } x y
    hwf.2.1 hwf.2.2.1 hx hy hxF rfl

/-- Witness for C1: V0 = 200, V1 = 100, opcode 0x8014. -/
theorem add_sets_carry_and_truncated_sum_witness :
    (execOpcode quietEnv (machineWith regsCarry 0) (0x8000 + 0x100 * 0 + 0x10 * 1 + 4)).1
      = Res.ok () ∧
    (execOpcode quietEnv (machineWith regsCarry 0) (0x8000 + 0x100 * 0 + 0x10 * 1 + 4)).2.reg 0xF
      = (if (machineWith regsCarry 0).reg 0 + (machineWith regsCarry 0).reg 1 > 255
          then 1 else 0) ∧
    (execOpcode quietEnv (machineWith regsCarry 0) (0x8000 + 0x100 * 0 + 0x10 * 1 + 4)).2.reg 0
      = ((machineWith regsCarry 0).reg 0 + (machineWith regsCarry 0).reg 1) % 256 :=
  add_sets_carry_and_truncated_sum quietEnv (machineWith regsCarry 0) 0 1
    (machineWith_wf _ _ (by decide) (by decide) (by decide)) (by decide) (by decide) (by decide)

theorem sub_core (env : Env) (t : System) (x y : Nat)
    (hlen : t.registers.length = 16) (hbytes : ∀ r ∈ t.registers, r < 256)
    (hx : x < 16) (hy : y < 16) (hxF : x ≠ 0xF)
    (hop : t.opcode = 0x8000 + 0x100 * x + 0x10 * y + 5) :
    (parseInstruction env t).1 = Res.ok () ∧
    (parseInstruction env t).2.reg 0xF = (if t.reg x > t.reg y then 1 else 0) ∧
    (y ≠ 0xF →
      ((parseInstruction env t).2.reg x : Int) = ((t.reg x : Int) - (t.reg y : Int)) % 256) := by
  have ha := reg_lt_of_bytes t hbytes x
  have hb := reg_lt_of_bytes t hbytes y
  rw [parse_sub env t x y hx hy hop, setReg_ite]
  refine ⟨rfl, ?_, ?_⟩
  · show (((t.setReg 0xF _).setReg x _).incrementPC false).reg 0xF = _
    rw [reg_flag_after _ _ _ _ _ hlen hxF]
  · intro hyF
    show ((((t.setReg 0xF _).setReg x _).incrementPC false).reg x : Int) = _
    rw [reg_result_after _ _ _ _ _ hlen hx, reg_setReg_ne _ _ _ _ (Ne.symm hxF),
      reg_setReg_ne _ _ _ _ (Ne.symm hyF)]
    omega

theorem subn_core (env : Env) (t : System) (x y : Nat)
    (hlen : t.registers.length = 16) (hbytes : ∀ r ∈ t.registers, r < 256)
    (hx : x < 16) (hy : y < 16) (hxF : x ≠ 0xF)
    (hop : t.opcode = 0x8000 + 0x100 * x + 0x10 * y + 7) :
    (parseInstruction env t).1 = Res.ok () ∧
    (parseInstruction env t).2.reg 0xF = (if t.reg y > t.reg x then 1 else 0) ∧
    (y ≠ 0xF →
      ((parseInstruction env t).2.reg x : Int) = ((t.reg y : Int) - (t.reg x : Int)) % 256) := by
  have ha := reg_lt_of_bytes t hbytes x
  have hb := reg_lt_of_bytes t hbytes y
  rw [parse_subn env t x y hx hy hop, setReg_ite]
  refine ⟨rfl, ?_, ?_⟩
  · show (((t.setReg 0xF _).setReg x _).incrementPC false).reg 0xF = _
    rw [reg_flag_after _ _ _ _ _ hlen hxF]
  · intro hyF
    show ((((t.setReg 0xF _).setReg x _).incrementPC false).reg x : Int) = _
    rw [reg_result_after _ _ _ _ _ hlen hx, reg_setReg_ne _ _ _ _ (Ne.symm hxF),
      reg_setReg_ne _ _ _ _ (Ne.symm hyF)]
    omega

theorem shr_core (env : Env) (t : System) (x y : Nat)
    (hx : x < 16) (hy : y < 16) (hxF : x ≠ 0xF)
    (hop : t.opcode = 0x8000 + 0x100 * x + 0x10 * y + 6) :
    (parseInstruction env t).1 = Res.ok () ∧
    (parseInstruction env t).2.registers
      = (t.registers.set 0xF (t.reg x % 2)).set x (t.reg x / 2) := by
  rw [parse_shr env t x y hx hy hop]
  refine ⟨rfl, ?_⟩
  show ((t.setReg 0xF _).setReg x _).registers = _
  rw [reg_setReg_ne _ _ _ _ (Ne.symm hxF), Nat.and_one_is_mod, Nat.shiftRight_eq_div_pow]
  rfl

theorem shl_core (env : Env) (t : System) (x y : Nat)
    (hv : t.reg x < 256)
    (hx : x < 16) (hy : y < 16) (hxF : x ≠ 0xF)
    (hop : t.opcode = 0x8000 + 0x100 * x + 0x10 * y + 0xE) :
    (parseInstruction env t).1 = Res.ok () ∧
    (parseInstruction env t).2.registers
      = (t.registers.set 0xF (t.reg x / 128)).set x ((2 * t.reg x) % 256) := by
  rw [parse_shl env t x y hx hy hop]
  refine ⟨rfl, ?_⟩
  show ((t.setReg 0xF _).setReg x _).registers = _
  rw [reg_setReg_ne _ _ _ _ (Ne.symm hxF), Nat.and_one_is_mod, Nat.shiftRight_eq_div_pow,
    Nat.shiftLeft_eq]
  have e1 : t.reg x / 2 ^ 7 % 2 = t.reg x / 128 := by omega
  have e2 : t.reg x * 2 ^ 1 % 256 = 2 * t.reg x % 256 := by omega
  rw [e1, e2]
  rfl

theorem getD_flag_slot (l : List Nat) (f r x : Nat) (hlen : l.length = 16) (hxF : x ≠ 0xF) :
    ((l.set 0xF f).set x r).getD 0xF 0 = f := by
  simp [List.getD_eq_getElem?_getD, List.getElem?_set, hxF, hlen]

theorem getD_result_slot (l : List Nat) (f r x : Nat) (hlen : l.length = 16) (hx : x < 16) :
    ((l.set 0xF f).set x r).getD x 0 = r := by
  simp [List.getD_eq_getElem?_getD, List.getElem?_set, hx, hlen]

theorem getD_other_slot (l : List Nat) (f r x j : Nat) (hjx : x ≠ j) (hjF : 0xF ≠ j) :
    ((l.set 0xF f).set x r).getD j 0 = l.getD j 0 := by
  simp [List.getD_eq_getElem?_getD, List.getElem?_set, hjx, hjF]

/-- C2 (as amended): for every machine state and every x other than 0xF, executing 8xy5
(SUB Vx,Vy) succeeds and leaves VF = 1 exactly when Vx > Vy strictly (VF = 0 otherwise, also
when Vx = Vy); when moreover y is not 0xF it leaves Vx = (Vx - Vy) mod 256. -/
theorem sub_sets_strict_flag_and_difference (env : Env) (sys : System) (x y : Nat)
    (hwf : sys.wf) (hx : x < 16) (hy : y < 16) (hxF : x ≠ 0xF) :
    (execOpcode env sys (0x8000 + 0x100 * x + 0x10 * y + 5)).1 = Res.ok () ∧
    (execOpcode env sys (0x8000 + 0x100 * x + 0x10 * y + 5)).2.reg 0xF
      = (if sys.reg x > sys.reg y then 1 else 0) ∧
    (y ≠ 0xF →
      ((execOpcode env sys (0x8000 + 0x100 * x + 0x10 * y + 5)).2.reg x : Int)
        = ((sys.reg x : Int) - (sys.reg y : Int)) % 256) :=
  sub_core env { sys with opcode := 0x8000 + 0x100 * x + 0x10 * y + 5 } x y
    hwf.2.1 hwf.2.2.1 hx hy hxF rfl

/-- Witness for C2 (as amended): V0 = 3, V1 = 9, opcode 0x8015. -/
theorem sub_sets_strict_flag_and_difference_witness :
    (execOpcode quietEnv (machineWith regsBorrow 0) (0x8000 + 0x100 * 0 + 0x10 * 1 + 5)).1
      = Res.ok () ∧
    (execOpcode quietEnv (machineWith regsBorrow 0) (0x8000 + 0x100 * 0 + 0x10 * 1 + 5)).2.reg 0xF
      = (if (machineWith regsBorrow 0).reg 0 > (machineWith regsBorrow 0).reg 1 then 1 else 0) ∧
    ((execOpcode quietEnv (machineWith regsBorrow 0)
        (0x8000 + 0x100 * 0 + 0x10 * 1 + 5)).2.reg 0 : Int)
      = (((machineWith regsBorrow 0).reg 0 : Int) - ((machineWith regsBorrow 0).reg 1 : Int))
          % 256 :=
  have h := sub_sets_strict_flag_and_difference quietEnv (machineWith regsBorrow 0) 0 1
    (machineWith_wf _ _ (by decide) (by decide) (by decide)) (by decide) (by decide) (by decide)
  ⟨h.1, h.2.1, h.2.2 (by decide)⟩

/-- C2 fails as stated: with V0 = V1 = 7 (so Vx >= Vy), SUB V0,V1 (opcode 0x8015) succeeds
and leaves VF = 0, not 1. -/
theorem sub_equal_operands_clear_flag :
    (machineWith regsEqual 0).wf ∧
    (machineWith regsEqual 0).reg 0 ≥ (machineWith regsEqual 0).reg 1 ∧
    (execOpcode quietEnv (machineWith regsEqual 0) 0x8015).1 = Res.ok () ∧
    (execOpcode quietEnv (machineWith regsEqual 0) 0x8015).2.reg 0xF = 0 ∧
    ¬ ((execOpcode quietEnv (machineWith regsEqual 0) 0x8015).2.reg 0xF = 1 ↔
        (machineWith regsEqual 0).reg 0 ≥ (machineWith regsEqual 0).reg 1) :=
  ⟨machineWith_wf _ _ (by decide) (by decide) (by decide), by decide, by decide, by decide,
    by decide⟩

/-- C3 (as amended): for every machine state and every x other than 0xF, executing 8xy7
(SUBN Vx,Vy) succeeds and leaves VF = 1 exactly when Vy > Vx strictly (VF = 0 otherwise,
also when Vx = Vy); when moreover y is not 0xF it leaves Vx = (Vy - Vx) mod 256. -/
theorem subn_sets_strict_flag_and_difference (env : Env) (sys : System) (x y : Nat)
    (hwf : sys.wf) (hx : x < 16) (hy : y < 16) (hxF : x ≠ 0xF) :
    (execOpcode env sys (0x8000 + 0x100 * x + 0x10 * y + 7)).1 = Res.ok () ∧
    (execOpcode env sys (0x8000 + 0x100 * x + 0x10 * y + 7)).2.reg 0xF
      = (if sys.reg y > sys.reg x then 1 else 0) ∧
    (y ≠ 0xF →
      ((execOpcode env sys (0x8000 + 0x100 * x + 0x10 * y + 7)).2.reg x : Int)
        = ((sys.reg y : Int) - (sys.reg x : Int)) % 256) :=
  subn_core env { sys with opcode := 0x8000 + 0x100 * x + 0x10 * y + 7 } x y
    hwf.2.1 hwf.2.2.1 hx hy hxF rfl

/-- Witness for C3 (as amended): V0 = 200, V1 = 100, opcode 0x8017. -/
theorem subn_sets_strict_flag_and_difference_witness :
    (execOpcode quietEnv (machineWith regsCarry 0) (0x8000 + 0x100 * 0 + 0x10 * 1 + 7)).1
      = Res.ok () ∧
    (execOpcode quietEnv (machineWith regsCarry 0) (0x8000 + 0x100 * 0 + 0x10 * 1 + 7)).2.reg 0xF
      = (if (machineWith regsCarry 0).reg 1 > (machineWith regsCarry 0).reg 0 then 1 else 0) ∧
    ((execOpcode quietEnv (machineWith regsCarry 0)
        (0x8000 + 0x100 * 0 + 0x10 * 1 + 7)).2.reg 0 : Int)
      = (((machineWith regsCarry 0).reg 1 : Int) - ((machineWith regsCarry 0).reg 0 : Int))
          % 256 :=
  have h := subn_sets_strict_flag_and_difference quietEnv (machineWith regsCarry 0) 0 1
    (machineWith_wf _ _ (by decide) (by decide) (by decide)) (by decide) (by decide) (by decide)
  ⟨h.1, h.2.1, h.2.2 (by decide)⟩

/-- C3 fails as stated: with V0 = V1 = 7 (so Vy >= Vx), SUBN V0,V1 (opcode 0x8017) succeeds
and leaves VF = 0, not 1. -/
theorem subn_equal_operands_clear_flag :
    (machineWith regsEqual 0).wf ∧
    (machineWith regsEqual 0).reg 1 ≥ (machineWith regsEqual 0).reg 0 ∧
    (execOpcode quietEnv (machineWith regsEqual 0) 0x8017).1 = Res.ok () ∧
    (execOpcode quietEnv (machineWith regsEqual 0) 0x8017).2.reg 0xF = 0 ∧
    ¬ ((execOpcode quietEnv (machineWith regsEqual 0) 0x8017).2.reg 0xF = 1 ↔
        (machineWith regsEqual 0).reg 1 ≥ (machineWith regsEqual 0).reg 0) :=
  ⟨machineWith_wf _ _ (by decide) (by decide) (by decide), by decide, by decide, by decide,
    by decide⟩

theorem set_flag_result_comm (l : List Nat) (f r w x y : Nat) (hyx : y ≠ x) (hyF : y ≠ 0xF) :
    (((l.set y w).set 0xF f).set x r) = (((l.set 0xF f).set x r).set y w) := by
  rw [List.set_comm w f l hyF, List.set_comm w r _ hyx]

/-- C4: for every machine state, every x other than 0xF and every y, with v the value of Vx
before the step: 8xy6 (SHR) leaves VF = v mod 2 and Vx = v div 2, and 8xyE (SHL) leaves
VF = v div 128 and Vx = (2*v) mod 256; when y differs from x and from 0xF, Vy keeps its
value, and putting any other value w in Vy before the step changes nothing in the resulting
register file except Vy itself (Vy is not read). -/
theorem shifts_operate_on_vx_only (env : Env) (sys : System) (x y : Nat)
    (hwf : sys.wf) (hx : x < 16) (hy : y < 16) (hxF : x ≠ 0xF) :
    (execOpcode env sys (0x8000 + 0x100 * x + 0x10 * y + 6)).1 = Res.ok () ∧
    (execOpcode env sys (0x8000 + 0x100 * x + 0x10 * y + 6)).2.reg 0xF = sys.reg x % 2 ∧
    (execOpcode env sys (0x8000 + 0x100 * x + 0x10 * y + 6)).2.reg x = sys.reg x / 2 ∧
    (execOpcode env sys (0x8000 + 0x100 * x + 0x10 * y + 0xE)).1 = Res.ok () ∧
    (execOpcode env sys (0x8000 + 0x100 * x + 0x10 * y + 0xE)).2.reg 0xF = sys.reg x / 128 ∧
    (execOpcode env sys (0x8000 + 0x100 * x + 0x10 * y + 0xE)).2.reg x
      = (2 * sys.reg x) % 256 ∧
    (y ≠ x → y ≠ 0xF →
      (execOpcode env sys (0x8000 + 0x100 * x + 0x10 * y + 6)).2.reg y = sys.reg y ∧
      (execOpcode env sys (0x8000 + 0x100 * x + 0x10 * y + 0xE)).2.reg y = sys.reg y ∧
      ∀ w : Nat,
        (execOpcode env (sys.setReg y w) (0x8000 + 0x100 * x + 0x10 * y + 6)).2.registers
          = (execOpcode env sys (0x8000 + 0x100 * x + 0x10 * y + 6)).2.registers.set y w ∧
        (execOpcode env (sys.setReg y w) (0x8000 + 0x100 * x + 0x10 * y + 0xE)).2.registers
          = (execOpcode env sys (0x8000 + 0x100 * x + 0x10 * y + 0xE)).2.registers.set y w) := by
  have hlen : sys.registers.length = 16 := hwf.2.1
  have hv : sys.reg x < 256 := reg_lt_of_bytes sys hwf.2.2.1 x
  obtain ⟨r1, r2⟩ :=
    shr_core env { sys with opcode := 0x8000 + 0x100 * x + 0x10 * y + 6 } x y hx hy hxF rfl
  obtain ⟨l1, l2⟩ :=
    shl_core env { sys with opcode := 0x8000 + 0x100 * x + 0x10 * y + 0xE } x y hv hx hy hxF rfl
  have r2' : (execOpcode env sys (0x8000 + 0x100 * x + 0x10 * y + 6)).2.registers
      = (sys.registers.set 0xF (sys.reg x % 2)).set x (sys.reg x / 2) := r2
  have l2' : (execOpcode env sys (0x8000 + 0x100 * x + 0x10 * y + 0xE)).2.registers
      = (sys.registers.set 0xF (sys.reg x / 128)).set x ((2 * sys.reg x) % 256) := l2
  refine ⟨r1, ?_, ?_, l1, ?_, ?_, ?_⟩
  · unfold System.reg
    rw [r2']
    exact getD_flag_slot _ _ _ _ hlen hxF
  · unfold System.reg
    rw [r2']
    exact getD_result_slot _ _ _ _ hlen hx
  · unfold System.reg
    rw [l2']
    exact getD_flag_slot _ _ _ _ hlen hxF
  · unfold System.reg
    rw [l2']
    exact getD_result_slot _ _ _ _ hlen hx
  · intro hyx hyF
    refine ⟨?_, ?_, ?_⟩
    · unfold System.reg
      rw [r2']
      exact getD_other_slot _ _ _ _ _ (Ne.symm hyx) (Ne.symm hyF)
    · unfold System.reg
      rw [l2']
      exact getD_other_slot _ _ _ _ _ (Ne.symm hyx) (Ne.symm hyF)
    · intro w
      have hsame : (sys.setReg y w).reg x = sys.reg x := reg_setReg_ne _ _ _ _ hyx
      obtain ⟨-, rw2⟩ :=
        shr_core env { sys.setReg y w with opcode := 0x8000 + 0x100 * x + 0x10 * y + 6 }
          x y hx hy hxF rfl
      obtain ⟨-, lw2⟩ :=
        shl_core env { sys.setReg y w with opcode := 0x8000 + 0x100 * x + 0x10 * y + 0xE }
          x y (by show (sys.setReg y w).reg x < 256; rw [hsame]; exact hv) hx hy hxF rfl
      have rw2' : (execOpcode env (sys.setReg y w)
          (0x8000 + 0x100 * x + 0x10 * y + 6)).2.registers
          = ((sys.registers.set y w).set 0xF ((sys.setReg y w).reg x % 2)).set x
              ((sys.setReg y w).reg x / 2) := rw2
      have lw2' : (execOpcode env (sys.setReg y w)
          (0x8000 + 0x100 * x + 0x10 * y + 0xE)).2.registers
          = ((sys.registers.set y w).set 0xF ((sys.setReg y w).reg x / 128)).set x
              ((2 * (sys.setReg y w).reg x) % 256) := lw2
      rw [rw2', lw2', r2', l2', hsame]
      exact ⟨set_flag_result_comm _ _ _ _ _ _ hyx hyF, set_flag_result_comm _ _ _ _ _ _ hyx hyF⟩

/-- Witness for C4: V0 = 0x81, V1 = 5, opcodes 0x8016 and 0x801E. -/
theorem shifts_operate_on_vx_only_witness :
    (execOpcode quietEnv (machineWith regsHighBit 0) (0x8000 + 0x100 * 0 + 0x10 * 1 + 6)).2.reg 0xF
      = (machineWith regsHighBit 0).reg 0 % 2 ∧
    (execOpcode quietEnv (machineWith regsHighBit 0) (0x8000 + 0x100 * 0 + 0x10 * 1 + 0xE)).2.reg 0
      = (2 * (machineWith regsHighBit 0).reg 0) % 256 ∧
    (execOpcode quietEnv (machineWith regsHighBit 0) (0x8000 + 0x100 * 0 + 0x10 * 1 + 6)).2.reg 1
      = (machineWith regsHighBit 0).reg 1 :=
  have h := shifts_operate_on_vx_only quietEnv (machineWith regsHighBit 0) 0 1
    (machineWith_wf _ _ (by decide) (by decide) (by decide)) (by decide) (by decide) (by decide)
  ⟨h.2.1, h.2.2.2.2.2.1, (h.2.2.2.2.2.2 (by decide) (by decide)).1⟩

/-- C5 (as amended): for every 8-bit value v held in Vx (x other than 0xF), executing SHL Vx
(8xyE) and then SHR Vx (8xy6) leaves Vx = v mod 128, which is the original v exactly when
v < 128 (the bit shifted out by SHL is lost); VF is v div 128 after the SHL and 0 after the
SHR, in each case the bit shifted out by that step. -/
theorem shl_then_shr_keeps_low_seven_bits (env : Env) (sys : System) (x y y2 : Nat)
    (hwf : sys.wf) (hx : x < 16) (hy : y < 16) (hy2 : y2 < 16) (hxF : x ≠ 0xF) :
    (execOpcode env sys (0x8000 + 0x100 * x + 0x10 * y + 0xE)).1 = Res.ok () ∧
    (execOpcode env sys (0x8000 + 0x100 * x + 0x10 * y + 0xE)).2.reg 0xF = sys.reg x / 128 ∧
    (execOpcode env (execOpcode env sys (0x8000 + 0x100 * x + 0x10 * y + 0xE)).2
      (0x8000 + 0x100 * x + 0x10 * y2 + 6)).1 = Res.ok () ∧
    (execOpcode env (execOpcode env sys (0x8000 + 0x100 * x + 0x10 * y + 0xE)).2
      (0x8000 + 0x100 * x + 0x10 * y2 + 6)).2.reg 0xF
        = (execOpcode env sys (0x8000 + 0x100 * x + 0x10 * y + 0xE)).2.reg x % 2 ∧
    (execOpcode env (execOpcode env sys (0x8000 + 0x100 * x + 0x10 * y + 0xE)).2
      (0x8000 + 0x100 * x + 0x10 * y2 + 6)).2.reg 0xF = 0 ∧
    (execOpcode env (execOpcode env sys (0x8000 + 0x100 * x + 0x10 * y + 0xE)).2
      (0x8000 + 0x100 * x + 0x10 * y2 + 6)).2.reg x = sys.reg x % 128 ∧
    (sys.reg x < 128 →
      (execOpcode env (execOpcode env sys (0x8000 + 0x100 * x + 0x10 * y + 0xE)).2
        (0x8000 + 0x100 * x + 0x10 * y2 + 6)).2.reg x = sys.reg x) := by
  have hlen : sys.registers.length = 16 := hwf.2.1
  have hv : sys.reg x < 256 := reg_lt_of_bytes sys hwf.2.2.1 x
  obtain ⟨l1, l2⟩ :=
    shl_core env { sys with opcode := 0x8000 + 0x100 * x + 0x10 * y + 0xE } x y hv hx hy hxF rfl
  have l2' : (execOpcode env sys (0x8000 + 0x100 * x + 0x10 * y + 0xE)).2.registers
      = (sys.registers.set 0xF (sys.reg x / 128)).set x ((2 * sys.reg x) % 256) := l2
  have hlen1 : (execOpcode env sys (0x8000 + 0x100 * x + 0x10 * y + 0xE)).2.registers.length
      = 16 := by
    rw [l2', List.length_set, List.length_set, hlen]
  have hf1 : (execOpcode env sys (0x8000 + 0x100 * x + 0x10 * y + 0xE)).2.reg 0xF
      = sys.reg x / 128 := by
    unfold System.reg
    rw [l2']
    exact getD_flag_slot _ _ _ _ hlen hxF
  have hx1 : (execOpcode env sys (0x8000 + 0x100 * x + 0x10 * y + 0xE)).2.reg x
      = (2 * sys.reg x) % 256 := by
    unfold System.reg
    rw [l2']
    exact getD_result_slot _ _ _ _ hlen hx
  obtain ⟨r1, r2⟩ :=
    shr_core env
      { (execOpcode env sys (0x8000 + 0x100 * x + 0x10 * y + 0xE)).2 with
        opcode := 0x8000 + 0x100 * x + 0x10 * y2 + 6 } x y2 hx hy2 hxF rfl
  have r2' : (execOpcode env (execOpcode env sys (0x8000 + 0x100 * x + 0x10 * y + 0xE)).2
      (0x8000 + 0x100 * x + 0x10 * y2 + 6)).2.registers
      = ((execOpcode env sys (0x8000 + 0x100 * x + 0x10 * y + 0xE)).2.registers.set 0xF
          ((execOpcode env sys (0x8000 + 0x100 * x + 0x10 * y + 0xE)).2.reg x % 2)).set x
          ((execOpcode env sys (0x8000 + 0x100 * x + 0x10 * y + 0xE)).2.reg x / 2) := r2
  have hf2 : (execOpcode env (execOpcode env sys (0x8000 + 0x100 * x + 0x10 * y + 0xE)).2
      (0x8000 + 0x100 * x + 0x10 * y2 + 6)).2.reg 0xF
      = (execOpcode env sys (0x8000 + 0x100 * x + 0x10 * y + 0xE)).2.reg x % 2 := by
    unfold System.reg
    rw [r2']
    exact getD_flag_slot _ _ _ _ hlen1 hxF
  have hx2 : (execOpcode env (execOpcode env sys (0x8000 + 0x100 * x + 0x10 * y + 0xE)).2
      (0x8000 + 0x100 * x + 0x10 * y2 + 6)).2.reg x
      = (execOpcode env sys (0x8000 + 0x100 * x + 0x10 * y + 0xE)).2.reg x / 2 := by
    unfold System.reg
    rw [r2']
    exact getD_result_slot _ _ _ _ hlen1 hx
  refine ⟨l1, hf1, r1, hf2, ?_, ?_, ?_⟩
  · rw [hf2, hx1]
    omega
  · rw [hx2, hx1]
    omega
  · intro hsmall
    rw [hx2, hx1]
    omega

/-- Witness for C5 (as amended): V0 = 7, opcodes 0x801E then 0x8016. -/
theorem shl_then_shr_keeps_low_seven_bits_witness :
    (machineWith regsEqual 0).reg 0 < 128 ∧
    (execOpcode quietEnv (execOpcode quietEnv (machineWith regsEqual 0)
        (0x8000 + 0x100 * 0 + 0x10 * 1 + 0xE)).2
      (0x8000 + 0x100 * 0 + 0x10 * 1 + 6)).2.reg 0 = (machineWith regsEqual 0).reg 0 :=
  ⟨by decide,
    (shl_then_shr_keeps_low_seven_bits quietEnv (machineWith regsEqual 0) 0 1 1
      (machineWith_wf _ _ (by decide) (by decide) (by decide)) (by decide) (by decide)
      (by decide) (by decide)).2.2.2.2.2.2 (by decide)⟩

/-- C5 fails as stated: with V0 = 0x81, SHL V0 (0x801E) then SHR V0 (0x8016) both succeed
and leave V0 = 0x01, not 0x81. -/
theorem shl_then_shr_loses_high_bit :
    (machineWith regsHighBit 0).wf ∧
    (machineWith regsHighBit 0).reg 0 = 0x81 ∧
    (execOpcode quietEnv (machineWith regsHighBit 0) 0x801E).1 = Res.ok () ∧
    (execOpcode quietEnv (execOpcode quietEnv (machineWith regsHighBit 0) 0x801E).2 0x8016).1
      = Res.ok () ∧
    (execOpcode quietEnv (execOpcode quietEnv (machineWith regsHighBit 0) 0x801E).2 0x8016).2.reg 0
      = 0x01 ∧
    (execOpcode quietEnv (execOpcode quietEnv (machineWith regsHighBit 0) 0x801E).2 0x8016).2.reg 0
      ≠ (machineWith regsHighBit 0).reg 0 :=
  ⟨machineWith_wf _ _ (by decide) (by decide) (by decide), by decide, by decide, by decide,
    by decide, by decide⟩

/-- C6 (as amended): for every machine state, every x other than 0xF and every y, each of
8xy4, 8xy5, 8xy6, 8xy7 and 8xyE succeeds and leaves in VF the flag its handler computes
from the values before the step (carry; Vx > Vy; low bit of Vx; Vy > Vx; high bit of Vx),
so VF is 0 or 1 after the step. -/
theorem flag_opcodes_leave_flag_in_vf (env : Env) (sys : System) (x y : Nat)
    (hwf : sys.wf) (hx : x < 16) (hy : y < 16) (hxF : x ≠ 0xF) :
    ((execOpcode env sys (0x8000 + 0x100 * x + 0x10 * y + 4)).1 = Res.ok () ∧
      (execOpcode env sys (0x8000 + 0x100 * x + 0x10 * y + 4)).2.reg 0xF
        = (if sys.reg x + sys.reg y > 255 then 1 else 0) ∧
      (execOpcode env sys (0x8000 + 0x100 * x + 0x10 * y + 4)).2.reg 0xF ≤ 1) ∧
    ((execOpcode env sys (0x8000 + 0x100 * x + 0x10 * y + 5)).1 = Res.ok () ∧
      (execOpcode env sys (0x8000 + 0x100 * x + 0x10 * y + 5)).2.reg 0xF
        = (if sys.reg x > sys.reg y then 1 else 0) ∧
      (execOpcode env sys (0x8000 + 0x100 * x + 0x10 * y + 5)).2.reg 0xF ≤ 1) ∧
    ((execOpcode env sys (0x8000 + 0x100 * x + 0x10 * y + 6)).1 = Res.ok () ∧
      (execOpcode env sys (0x8000 + 0x100 * x + 0x10 * y + 6)).2.reg 0xF = sys.reg x % 2 ∧
      (execOpcode env sys (0x8000 + 0x100 * x + 0x10 * y + 6)).2.reg 0xF ≤ 1) ∧
    ((execOpcode env sys (0x8000 + 0x100 * x + 0x10 * y + 7)).1 = Res.ok () ∧
      (execOpcode env sys (0x8000 + 0x100 * x + 0x10 * y + 7)).2.reg 0xF
        = (if sys.reg y > sys.reg x then 1 else 0) ∧
      (execOpcode env sys (0x8000 + 0x100 * x + 0x10 * y + 7)).2.reg 0xF ≤ 1) ∧
    ((execOpcode env sys (0x8000 + 0x100 * x + 0x10 * y + 0xE)).1 = Res.ok () ∧
      (execOpcode env sys (0x8000 + 0x100 * x + 0x10 * y + 0xE)).2.reg 0xF = sys.reg x / 128 ∧
      (execOpcode env sys (0x8000 + 0x100 * x + 0x10 * y + 0xE)).2.reg 0xF ≤ 1) := by
  have hlen : sys.registers.length = 16 := hwf.2.1
  have hv : sys.reg x < 256 := reg_lt_of_bytes sys hwf.2.2.1 x
  obtain ⟨a1, a2, -⟩ :=
    add_core env { sys with opcode := 0x8000 + 0x100 * x + 0x10 * y + 4 } x y
      hwf.2.1 hwf.2.2.1 hx hy hxF rfl
  obtain ⟨s1, s2, -⟩ :=
    sub_core env { sys with opcode := 0x8000 + 0x100 * x + 0x10 * y + 5 } x y
      hwf.2.1 hwf.2.2.1 hx hy hxF rfl
  obtain ⟨n1, n2, -⟩ :=
    subn_core env { sys with opcode := 0x8000 + 0x100 * x + 0x10 * y + 7 } x y
      hwf.2.1 hwf.2.2.1 hx hy hxF rfl
  obtain ⟨r1, r2⟩ :=
    shr_core env { sys with opcode := 0x8000 + 0x100 * x + 0x10 * y + 6 } x y hx hy hxF rfl
  obtain ⟨l1, l2⟩ :=
    shl_core env { sys with opcode := 0x8000 + 0x100 * x + 0x10 * y + 0xE } x y hv hx hy hxF rfl
  have r3 : (execOpcode env sys (0x8000 + 0x100 * x + 0x10 * y + 6)).2.reg 0xF
      = sys.reg x % 2 := by
    have r2' : (execOpcode env sys (0x8000 + 0x100 * x + 0x10 * y + 6)).2.registers
        = (sys.registers.set 0xF (sys.reg x % 2)).set x (sys.reg x / 2) := r2
    unfold System.reg
    rw [r2']
    exact getD_flag_slot _ _ _ _ hlen hxF
  have l3 : (execOpcode env sys (0x8000 + 0x100 * x + 0x10 * y + 0xE)).2.reg 0xF
      = sys.reg x / 128 := by
    have l2' : (execOpcode env sys (0x8000 + 0x100 * x + 0x10 * y + 0xE)).2.registers
        = (sys.registers.set 0xF (sys.reg x / 128)).set x ((2 * sys.reg x) % 256) := l2
    unfold System.reg
    rw [l2']
    exact getD_flag_slot _ _ _ _ hlen hxF
  have a2' : (execOpcode env sys (0x8000 + 0x100 * x + 0x10 * y + 4)).2.reg 0xF
      = (if sys.reg x + sys.reg y > 255 then 1 else 0) := a2
  have s2' : (execOpcode env sys (0x8000 + 0x100 * x + 0x10 * y + 5)).2.reg 0xF
      = (if sys.reg x > sys.reg y then 1 else 0) := s2
  have n2' : (execOpcode env sys (0x8000 + 0x100 * x + 0x10 * y + 7)).2.reg 0xF
      = (if sys.reg y > sys.reg x then 1 else 0) := n2
  refine ⟨⟨a1, a2', ?_⟩, ⟨s1, s2', ?_⟩, ⟨r1, r3, ?_⟩, ⟨n1, n2', ?_⟩, ⟨l1, l3, ?_⟩⟩
  · rw [a2']
    split <;> omega
  · rw [s2']
    split <;> omega
  · rw [r3]
    omega
  · rw [n2']
    split <;> omega
  · rw [l3]
    omega

/-- Witness for C6 (as amended): V0 = 200, V1 = 100, x = 0, y = 1. -/
theorem flag_opcodes_leave_flag_in_vf_witness :
    (execOpcode quietEnv (machineWith regsCarry 0) (0x8000 + 0x100 * 0 + 0x10 * 1 + 4)).2.reg 0xF
      ≤ 1 ∧
    (execOpcode quietEnv (machineWith regsCarry 0) (0x8000 + 0x100 * 0 + 0x10 * 1 + 0xE)).2.reg 0xF
      = (machineWith regsCarry 0).reg 0 / 128 :=
  have h := flag_opcodes_leave_flag_in_vf quietEnv (machineWith regsCarry 0) 0 1
    (machineWith_wf _ _ (by decide) (by decide) (by decide)) (by decide) (by decide) (by decide)
  ⟨h.1.2.2, h.2.2.2.2.2.1⟩

/-- C6 fails as stated: with x = 0xF, VF = 3 and V1 = 4, ADD VF,V1 (opcode 0x8F14) succeeds
and leaves VF = 7, the sum, which is neither 0 nor 1. -/
theorem add_into_vf_overwrites_flag :
    (machineWith regsFlagOperand 0).wf ∧
    (execOpcode quietEnv (machineWith regsFlagOperand 0) 0x8F14).1 = Res.ok () ∧
    (execOpcode quietEnv (machineWith regsFlagOperand 0) 0x8F14).2.reg 0xF = 7 ∧
    ¬ ((execOpcode quietEnv (machineWith regsFlagOperand 0) 0x8F14).2.reg 0xF = 0 ∨
       (execOpcode quietEnv (machineWith regsFlagOperand 0) 0x8F14).2.reg 0xF = 1) :=
  ⟨machineWith_wf _ _ (by decide) (by decide) (by decide), by decide, by decide, by decide⟩

/-! ## The stack -/

/-- C7, evaluated on the code: `newStack 16` leaves `capacity` at 0, so the very first push
on the fresh stack finds `index == capacity` and returns the stack-full error, storing
nothing. -/
theorem newStack_first_push_reports_full :
    (newStack 16).capacity = 0 ∧
    (newStack 16).push 0x200 = (Res.error Err.stackFull, newStack 16) ∧
    (newStack 16).pushAll [0x200, 0x202, 0x204] = (Res.error Err.stackFull, newStack 16) := by
  decide

theorem set_zero_of_getD_zero (l : List Nat) (i : Nat) (hz : l.getD i 0 = 0) :
    l.set i 0 = l := by
  apply List.ext_getElem?
  intro n
  rw [List.getElem?_set]
  rw [List.getD_eq_getElem?_getD] at hz
  by_cases hin : i = n
  · subst hin
    by_cases hlt : i < l.length
    · simp only [hlt, if_true]
      rw [List.getElem?_eq_getElem hlt] at hz ⊢
      simp only [Option.getD_some] at hz
      rw [hz]
    · simp only [hlt, if_false, if_true]
      rw [List.getElem?_eq_none (by omega)]
  · simp [hin]

theorem push_ok (stack : Stack) (item : Nat) (h1 : stack.index ≠ stack.capacity)
    (h2 : stack.index < stack.memory.length) :
    stack.push item = (Res.ok (), { stack with memory := stack.memory.set stack.index item,
                                               index := stack.index + 1 }) := by
  simp [Stack.push, h1, h2]

theorem pop_after_push (stack : Stack) (item : Nat)
    (h2 : stack.index < stack.memory.length) (hz : stack.memory.getD stack.index 0 = 0) :
    Stack.pop { stack with memory := stack.memory.set stack.index item,
                           index := stack.index + 1 } = (Res.ok item, stack) := by
  cases stack with
  | mk memory index capacity =>
    simp only at h2 hz
    simp [Stack.pop, h2, List.getD_eq_getElem?_getD, List.getElem?_set,
      set_zero_of_getD_zero memory index hz]

theorem popN_snoc (k : Nat) : ∀ (s s1 s2 : Stack) (l : List Nat) (a : Nat),
    Stack.popN s k = (Res.ok l, s1) → s1.pop = (Res.ok a, s2) →
    Stack.popN s (k + 1) = (Res.ok (l ++ [a]), s2) := by
  induction k with
  | zero =>
    intro s s1 s2 l a h hp
    simp only [Stack.popN, Prod.mk.injEq, Res.ok.injEq] at h
    obtain ⟨hl, hs⟩ := h
    subst hl hs
    simp [Stack.popN, hp]
  | succ k ih =>
    intro s s1 s2 l a h hp
    rw [Stack.popN] at h
    rw [Stack.popN]
    cases hq : s.pop with
    | mk r t =>
      rw [hq] at h
      cases r with
      | ok item =>
        simp only at h ⊢
        cases hrec : Stack.popN t k with
        | mk r2 t2 =>
          rw [hrec] at h
          cases r2 with
          | ok items =>
            simp only [Prod.mk.injEq, Res.ok.injEq] at h
            obtain ⟨hl, hs⟩ := h
            subst hl hs
            rw [ih t t2 s2 items a hrec hp]
            simp
          | error e => simp at h
          | fault f => simp at h
          | hang => simp at h
      | error e => simp at h
      | fault f => simp at h
      | hang => simp at h

/-- C8: for every stack with index <= capacity <= len(memory) whose slots at positions
>= index are all zero, and every list of addresses whose successive pushes all succeed:
as many successive pops all succeed, return the addresses in reverse order of pushing, and
leave the stack (index, memory and capacity) exactly as it was before the pushes. -/
theorem pushes_then_pops_restore_stack (items : List Nat) : ∀ (stack : Stack),
    stack.index ≤ stack.capacity → stack.capacity ≤ stack.memory.length →
    (∀ i, stack.index ≤ i → i < stack.memory.length → stack.memory.getD i 0 = 0) →
    (stack.pushAll items).1 = Res.ok () →
    Stack.popN (stack.pushAll items).2 items.length = (Res.ok items.reverse, stack) := by
  induction items with
  | nil =>
    intro stack _ _ _ _
    rfl
  | cons a rest ih =>
    intro stack hidx hcap hzero hpush
    by_cases hfull : stack.index = stack.capacity
    · simp [Stack.pushAll, Stack.push, hfull] at hpush
    · have hlt : stack.index < stack.memory.length := by omega
      have hp := push_ok stack a hfull hlt
      have hstep : stack.pushAll (a :: rest)
          = Stack.pushAll { stack with memory := stack.memory.set stack.index a,
                                       index := stack.index + 1 } rest := by
        rw [Stack.pushAll, hp]
      rw [hstep] at hpush ⊢
      have hrec := ih { stack with memory := stack.memory.set stack.index a,
                                   index := stack.index + 1 }
        (by show stack.index + 1 ≤ stack.capacity; omega)
        (by show stack.capacity ≤ (stack.memory.set stack.index a).length
            rw [List.length_set]; exact hcap)
        (by
          intro i hi hil
          show (stack.memory.set stack.index a).getD i 0 = 0
          have hi2 : stack.index + 1 ≤ i := hi
          have hil2 : i < (stack.memory.set stack.index a).length := hil
          rw [List.length_set] at hil2
          have hne : stack.index ≠ i := by omega
          rw [List.getD_eq_getElem?_getD, List.getElem?_set_ne hne,
            ← List.getD_eq_getElem?_getD]
          exact hzero i (by omega) hil2)
        hpush
      rw [List.length_cons, List.reverse_cons]
      exact popN_snoc rest.length _ _ _ _ _ hrec
        (pop_after_push stack a hlt (hzero stack.index (Nat.le_refl _) hlt))

/-- Witness for C8: pushing 0x200 then 0x300 on an empty stack of capacity 3. -/
theorem pushes_then_pops_restore_stack_witness :
    (emptyStack3.pushAll [0x200, 0x300]).1 = Res.ok () ∧
    Stack.popN (emptyStack3.pushAll [0x200, 0x300]).2 [0x200, 0x300].length
      = (Res.ok [0x200, 0x300].reverse, emptyStack3) :=
  ⟨by decide,
    pushes_then_pops_restore_stack [0x200, 0x300] emptyStack3 (by decide) (by decide)
      (by decide) (by decide)⟩

/-- C9: for every stack state: with index = 0, pop and peek both return the stack-empty
error and leave the stack unchanged, and that error differs from the stack-full error,
the only error push returns; with an address stored (0 < index <= len(memory)), peek
returns without error the address pop returns and leaves the stack unchanged. -/
theorem pop_peek_on_empty_and_nonempty (stack : Stack) :
    (stack.index = 0 →
      stack.pop = (Res.error Err.stackEmpty, stack) ∧
      stack.peek = (Res.error Err.stackEmpty, stack)) ∧
    Err.stackEmpty ≠ Err.stackFull ∧
    (∀ item e, (stack.push item).1 = Res.error e → e = Err.stackFull) ∧
    (0 < stack.index → stack.index ≤ stack.memory.length →
      stack.peek = (Res.ok (stack.memory.getD (stack.index - 1) 0), stack) ∧
      stack.pop.1 = Res.ok (stack.memory.getD (stack.index - 1) 0)) := by
  refine ⟨?_, by decide, ?_, ?_⟩
  · intro h0
    simp [Stack.pop, Stack.peek, h0]
  · intro item e he
    by_cases hfull : stack.index = stack.capacity
    · simp only [Stack.push, hfull, if_true, Res.error.injEq] at he
      exact he.symm
    · by_cases hlt : stack.index < stack.memory.length
      · simp [Stack.push, hfull, hlt] at he
      · simp [Stack.push, hfull, hlt] at he
  · intro hpos hle
    have h0 : stack.index ≠ 0 := by omega
    have hlt : stack.index - 1 < stack.memory.length := by omega
    simp [Stack.pop, Stack.peek, h0, hlt]

/-- Witness for C9: a stack holding 0x200 and 0x300; peek and pop both give 0x300. -/
theorem pop_peek_on_empty_and_nonempty_witness :
    (0 < stackHolding.index ∧ stackHolding.index ≤ stackHolding.memory.length) ∧
    (stackHolding.peek = (Res.ok (stackHolding.memory.getD (stackHolding.index - 1) 0),
        stackHolding) ∧
      stackHolding.pop.1 = Res.ok (stackHolding.memory.getD (stackHolding.index - 1) 0)) ∧
    (emptyStack3.index = 0 ∧
      emptyStack3.pop = (Res.error Err.stackEmpty, emptyStack3) ∧
      emptyStack3.peek = (Res.error Err.stackEmpty, emptyStack3)) :=
  ⟨by decide,
    (pop_peek_on_empty_and_nonempty stackHolding).2.2.2 (by decide) (by decide),
    by decide, (pop_peek_on_empty_and_nonempty emptyStack3).1 (by decide)⟩


/-! ## Failure and the state it leaves -/

theorem thenAdvance_fst (r : Res Unit × System) : (thenAdvance r).1 = r.1 := by
  obtain ⟨res, s⟩ := r
  cases res <;> rfl

theorem thenAdvance_snd (r : Res Unit × System) (h : ∀ u, r.1 ≠ Res.ok u) :
    (thenAdvance r).2 = r.2 := by
  obtain ⟨res, s⟩ := r
  cases res with
  | ok u => exact absurd rfl (h u)
  | error e => rfl
  | fault f => rfl
  | hang => rfl

theorem drawPixel_res (env : Env) (x yAdjusted : Nat) (toDrawBits : List Bool)
    (xOffset : Nat) (sys : System) :
    DrawRes (drawPixel env x yAdjusted toDrawBits xOffset sys).1 := by
  unfold drawPixel DrawRes
  simp only
  split_ifs <;> simp

theorem drawRow_res (env : Env) (x yAdjusted : Nat) (toDrawBits : List Bool)
    (offsets : List Nat) : ∀ sys : System,
    DrawRes (drawRow env x yAdjusted toDrawBits offsets sys).1 := by
  induction offsets with
  | nil => intro sys; simp [drawRow, DrawRes]
  | cons xOffset rest ih =>
    intro sys
    rw [drawRow]
    have hp := drawPixel_res env x yAdjusted toDrawBits xOffset sys
    cases hq : drawPixel env x yAdjusted toDrawBits xOffset sys with
    | mk r s =>
      rw [hq] at hp
      cases r with
      | ok u => exact ih s
      | error e => exact hp
      | fault f => exact hp
      | hang => exact hp

theorem drawRows_res (env : Env) (x y : Nat) (offsets : List Nat) : ∀ sys : System,
    DrawRes (drawRows env x y offsets sys).1 := by
  induction offsets with
  | nil => intro sys; simp [drawRows, DrawRes]
  | cons yOffset rest ih =>
    intro sys
    rw [drawRows]
    simp only
    split
    · have hp := drawRow_res env x
        (if (sys.reg y + yOffset) % 65536 ≥ DISPLAY_HEIGHT
          then (sys.reg y + yOffset) % 65536 % DISPLAY_HEIGHT else (sys.reg y + yOffset) % 65536)
        (bits (sys.memory.getD ((sys.iregister + yOffset) % 65536) 0))
        (List.range (bits (sys.memory.getD ((sys.iregister + yOffset) % 65536) 0)).length) sys
      cases hq : drawRow env x
        (if (sys.reg y + yOffset) % 65536 ≥ DISPLAY_HEIGHT
          then (sys.reg y + yOffset) % 65536 % DISPLAY_HEIGHT else (sys.reg y + yOffset) % 65536)
        (bits (sys.memory.getD ((sys.iregister + yOffset) % 65536) 0))
        (List.range (bits (sys.memory.getD ((sys.iregister + yOffset) % 65536) 0)).length) sys with
      | mk r s =>
        rw [hq] at hp
        cases r with
        | ok u => exact ih s
        | error e => exact hp
        | fault f => exact hp
        | hang => exact hp
    · simp [DrawRes]

theorem storeBCD_res (x : Nat) (sys : System) : MemRes (storeBCD x sys).1 := by
  unfold storeBCD MemRes
  simp only
  split_ifs <;> simp

theorem storeRegisters_res (l : List Nat) : ∀ sys : System, MemRes (storeRegisters l sys).1 := by
  induction l with
  | nil => intro sys; simp [storeRegisters, MemRes]
  | cons i rest ih =>
    intro sys
    rw [storeRegisters]
    split
    · exact ih _
    · simp [MemRes]

theorem loadRegisters_res (l : List Nat) : ∀ sys : System, MemRes (loadRegisters l sys).1 := by
  induction l with
  | nil => intro sys; simp [loadRegisters, MemRes]
  | cons i rest ih =>
    intro sys
    rw [loadRegisters]
    split
    · exact ih _
    · simp [MemRes]

theorem consumeKey_res (x : Nat) (skip : Bool) (sys : System) :
    (consumeKey x skip sys).1 = Res.ok () ∨ (consumeKey x skip sys).1 = Res.fault Fault.nilTimer := by
  unfold consumeKey
  simp only
  split <;> simp

/-- Case analysis on the outer switch of `parseInstruction`: a property that holds of
every successful result, of the results of the nested switches, of CALL and of DRW under
their guards, and of the default error, holds of the result of `parseInstruction`. -/
theorem parse_cases (P : Res Unit × System → Prop) (env : Env) (sys : System)
    (hok : ∀ s, P (Res.ok (), s))
    (h0 : sys.opcode &&& 0xF000 = 0x0000 → P (switch0 env sys.opcode sys))
    (h2 : sys.opcode &&& 0xF000 = 0x2000 → P (call (sys.opcode &&& 0x0FFF) sys))
    (h8 : sys.opcode &&& 0xF000 = 0x8000 →
      P (switch8 sys.opcode ((sys.opcode &&& 0x0F00) >>> 8) ((sys.opcode &&& 0x00F0) >>> 4) sys))
    (hD : sys.opcode &&& 0xF000 = 0xD000 →
      P (thenAdvance (drawRows env ((sys.opcode &&& 0x0F00) >>> 8)
        ((sys.opcode &&& 0x00F0) >>> 4) (List.range (sys.opcode &&& 0x000F)) (sys.setReg 0xF 0))))
    (hE : sys.opcode &&& 0xF000 = 0xE000 →
      P (switchE sys.opcode ((sys.opcode &&& 0x0F00) >>> 8) sys))
    (hF : sys.opcode &&& 0xF000 = 0xF000 →
      P (switchF env sys.opcode ((sys.opcode &&& 0x0F00) >>> 8) sys))
    (hdef : (∀ c, c < 16 → sys.opcode &&& 0xF000 ≠ 0x1000 * c) →
      P (Res.error (Err.invalidOperation sys.opcode), sys)) :
    P (parseInstruction env sys) := by
  unfold parseInstruction
  simp only []
  by_cases c0 : sys.opcode &&& 0xF000 = 0x0000
  · rw [if_pos c0]; exact h0 c0
  rw [if_neg c0]
  by_cases c1 : sys.opcode &&& 0xF000 = 0x1000
  · rw [if_pos c1]; exact hok _
  rw [if_neg c1]
  by_cases c2 : sys.opcode &&& 0xF000 = 0x2000
  · rw [if_pos c2]; exact h2 c2
  rw [if_neg c2]
  by_cases c3 : sys.opcode &&& 0xF000 = 0x3000
  · rw [if_pos c3]; split <;> exact hok _
  rw [if_neg c3]
  by_cases c4 : sys.opcode &&& 0xF000 = 0x4000
  · rw [if_pos c4]; split <;> exact hok _
  rw [if_neg c4]
  by_cases c5 : sys.opcode &&& 0xF000 = 0x5000
  · rw [if_pos c5]; split <;> exact hok _
  rw [if_neg c5]
  by_cases c6 : sys.opcode &&& 0xF000 = 0x6000
  · rw [if_pos c6]; exact hok _
  rw [if_neg c6]
  by_cases c7 : sys.opcode &&& 0xF000 = 0x7000
  · rw [if_pos c7]; exact hok _
  rw [if_neg c7]
  by_cases c8 : sys.opcode &&& 0xF000 = 0x8000
  · rw [if_pos c8]; exact h8 c8
  rw [if_neg c8]
  by_cases c9 : sys.opcode &&& 0xF000 = 0x9000
  · rw [if_pos c9]; split <;> exact hok _
  rw [if_neg c9]
  by_cases cA : sys.opcode &&& 0xF000 = 0xA000
  · rw [if_pos cA]; exact hok _
  rw [if_neg cA]
  by_cases cB : sys.opcode &&& 0xF000 = 0xB000
  · rw [if_pos cB]; exact hok _
  rw [if_neg cB]
  by_cases cC : sys.opcode &&& 0xF000 = 0xC000
  · rw [if_pos cC]; exact hok _
  rw [if_neg cC]
  by_cases cD : sys.opcode &&& 0xF000 = 0xD000
  · rw [if_pos cD]; exact hD cD
  rw [if_neg cD]
  by_cases cE : sys.opcode &&& 0xF000 = 0xE000
  · rw [if_pos cE]; exact hE cE
  rw [if_neg cE]
  by_cases cF : sys.opcode &&& 0xF000 = 0xF000
  · rw [if_pos cF]; exact hF cF
  rw [if_neg cF]
  apply hdef
  intro c hc
  interval_cases c <;> assumption

theorem failsCleanly_ok (sys s : System) : FailsCleanly sys (Res.ok (), s) := by
  refine ⟨?_, ?_, ?_, ?_⟩
  · intro e he; simp at he
  · intro he; simp at he
  · intro _ he; simp at he
  · intro _ _ _ he; simp at he

theorem failsCleanly_same (sys : System) (res : Res Unit) : FailsCleanly sys (res, sys) :=
  ⟨fun _ _ _ => rfl, fun _ => rfl, fun _ _ => rfl, fun _ _ _ _ => rfl⟩

theorem failsCleanly_switch8 (op x y : Nat) (sys : System) :
    FailsCleanly sys (switch8 op x y sys) := by
  unfold switch8
  by_cases c0 : op &&& 0x000F = 0x0
  · rw [if_pos c0]; exact failsCleanly_ok _ _
  rw [if_neg c0]
  by_cases c1 : op &&& 0x000F = 0x1
  · rw [if_pos c1]; exact failsCleanly_ok _ _
  rw [if_neg c1]
  by_cases c2 : op &&& 0x000F = 0x2
  · rw [if_pos c2]; exact failsCleanly_ok _ _
  rw [if_neg c2]
  by_cases c3 : op &&& 0x000F = 0x3
  · rw [if_pos c3]; exact failsCleanly_ok _ _
  rw [if_neg c3]
  by_cases c4 : op &&& 0x000F = 0x4
  · rw [if_pos c4]; exact failsCleanly_ok _ _
  rw [if_neg c4]
  by_cases c5 : op &&& 0x000F = 0x5
  · rw [if_pos c5]; exact failsCleanly_ok _ _
  rw [if_neg c5]
  by_cases c6 : op &&& 0x000F = 0x6
  · rw [if_pos c6]; exact failsCleanly_ok _ _
  rw [if_neg c6]
  by_cases c7 : op &&& 0x000F = 0x7
  · rw [if_pos c7]; exact failsCleanly_ok _ _
  rw [if_neg c7]
  by_cases cE : op &&& 0x000F = 0xE
  · rw [if_pos cE]; exact failsCleanly_ok _ _
  rw [if_neg cE]
  exact failsCleanly_same _ _

theorem pop_cases (stack : Stack) :
    stack.pop = (Res.error Err.stackEmpty, stack) ∨
    (∃ a s, stack.pop = (Res.ok a, s)) ∨
    (stack.pop.1 = Res.fault Fault.stackIndex ∧ ¬ stack.index ≤ stack.memory.length) := by
  unfold Stack.pop
  by_cases h0 : stack.index = 0
  · left; simp [h0]
  · by_cases hlt : stack.index - 1 < stack.memory.length
    · right; left
      simp [h0, hlt]
    · right; right
      simp only [h0, hlt, if_false]
      exact ⟨trivial, by omega⟩

theorem push_cases (stack : Stack) (item : Nat) :
    (∃ s, stack.push item = (Res.ok (), s)) ∨
    stack.push item = (Res.error Err.stackFull, stack) ∨
    stack.push item = (Res.fault Fault.stackIndex, stack) := by
  unfold Stack.push
  split_ifs <;> simp

theorem failsCleanly_switch0 (env : Env) (sys : System) :
    FailsCleanly sys (switch0 env sys.opcode sys) := by
  unfold switch0
  by_cases c1 : sys.opcode = 0x00E0
  · rw [if_pos c1]
    simp only []
    by_cases hf : env.flushFails = true
    · rw [if_pos hf]
      refine ⟨?_, ?_, ?_, ?_⟩
      · intro e he hne
        simp only [Res.error.injEq] at he
        exact absurd he.symm hne
      · intro he; simp at he
      · intro _ he; simp at he
      · intro _ _ _ he; simp at he
    · rw [if_neg hf]
      exact failsCleanly_ok _ _
  rw [if_neg c1]
  by_cases c2 : sys.opcode = 0x00EE
  · rw [if_pos c2]
    rcases pop_cases sys.stack with h | ⟨a, s, h⟩ | ⟨h, hbad⟩
    · rw [h]
      exact failsCleanly_same _ _
    · rw [h]
      exact failsCleanly_ok _ _
    · cases hq : sys.stack.pop with
      | mk r s =>
        rw [hq] at h
        simp only at h
        subst h
        refine ⟨?_, ?_, ?_, ?_⟩
        · intro e he; simp at he
        · intro he; simp at he
        · intro hle _; exact absurd hle hbad
        · intro _ _ _ he; simp at he
  rw [if_neg c2]
  by_cases c3 : sys.opcode = 0x0A00 ∨ sys.opcode = 0x0000
  · rw [if_pos c3]
    exact failsCleanly_ok _ _
  rw [if_neg c3]
  exact failsCleanly_same _ _

theorem failsCleanly_call (nnn : Nat) (sys : System) : FailsCleanly sys (call nnn sys) := by
  unfold call
  rcases push_cases sys.stack sys.programCounter with ⟨s, h⟩ | h | h
  · rw [h]
    exact failsCleanly_ok _ _
  · rw [h]
    exact failsCleanly_same _ _
  · rw [h]
    exact failsCleanly_same _ _

theorem failsCleanly_draw (sys : System) (r : Res Unit × System) (hr : DrawRes r.1)
    (hop : sys.opcode &&& 0xF000 = 0xD000) : FailsCleanly sys (thenAdvance r) := by
  unfold FailsCleanly
  rw [thenAdvance_fst]
  unfold DrawRes at hr
  refine ⟨?_, ?_, ?_, ?_⟩
  · intro e he
    rcases hr with h | h | h <;> rw [h] at he <;> simp at he
  · intro he
    rcases hr with h | h | h <;> rw [h] at he <;> simp at he
  · intro _ he
    rcases hr with h | h | h <;> rw [h] at he <;> simp at he
  · intro _ _ hF
    rw [hop] at hF
    exact absurd hF (by decide)

theorem failsCleanly_consumeKey (x : Nat) (skip : Bool) (sys : System) :
    FailsCleanly sys (consumeKey x skip sys) := by
  have hr := consumeKey_res x skip sys
  refine ⟨?_, ?_, ?_, ?_⟩
  · intro e he
    rcases hr with h | h <;> rw [h] at he <;> simp at he
  · intro he
    rcases hr with h | h <;> rw [h] at he <;> simp at he
  · intro _ he
    rcases hr with h | h <;> rw [h] at he <;> simp at he
  · intro _ _ _ he
    rcases hr with h | h <;> rw [h] at he <;> simp at he

theorem failsCleanly_switchE (op x : Nat) (sys : System) :
    FailsCleanly sys (switchE op x sys) := by
  unfold switchE
  split_ifs <;> first
    | exact failsCleanly_ok _ _
    | exact failsCleanly_same _ _
    | exact failsCleanly_consumeKey _ _ _

theorem failsCleanly_waitKey (env : Env) (x : Nat) (sys : System) :
    FailsCleanly sys (waitKey env x sys) := by
  unfold waitKey
  cases env.events with
  | nil => exact failsCleanly_same _ _
  | cons ev rest =>
    simp only
    by_cases hk : ev.isKey = true
    · rw [if_pos hk]
      cases env.INPUT_MAP ev.ch with
      | none => exact failsCleanly_same _ _
      | some val => exact failsCleanly_ok _ _
    · rw [if_neg hk]
      exact failsCleanly_same _ _

theorem failsCleanly_mem (sys : System) (r : Res Unit × System) (hr : MemRes r.1)
    (hfirst : sys.memory.length ≤ sys.iregister → sys.iregister < 65536 → r.2 = sys) :
    FailsCleanly sys (thenAdvance r) := by
  unfold FailsCleanly
  rw [thenAdvance_fst]
  unfold MemRes at hr
  refine ⟨?_, ?_, ?_, ?_⟩
  · intro e he
    rcases hr with h | h <;> rw [h] at he <;> simp at he
  · intro he
    rcases hr with h | h <;> rw [h] at he <;> simp at he
  · intro _ he
    rcases hr with h | h <;> rw [h] at he <;> simp at he
  · intro hlen hI _ he
    rw [thenAdvance_snd r (by intro u hu; rw [hu] at he; simp at he)]
    exact hfirst hlen hI

theorem storeBCD_first (x : Nat) (sys : System) (hlen : sys.memory.length ≤ sys.iregister) :
    (storeBCD x sys).2 = sys := by
  unfold storeBCD
  rw [if_neg (by omega)]

theorem storeRegisters_first (x : Nat) (sys : System)
    (hlen : sys.memory.length ≤ sys.iregister) (hI : sys.iregister < 65536) :
    (storeRegisters (List.range (x + 1)) sys).2 = sys := by
  rw [List.range_succ_eq_map, storeRegisters]
  simp only [Nat.add_zero]
  rw [Nat.mod_eq_of_lt hI, if_neg (by omega)]

theorem loadRegisters_first (x : Nat) (sys : System)
    (hlen : sys.memory.length ≤ sys.iregister) (hI : sys.iregister < 65536) :
    (loadRegisters (List.range (x + 1)) sys).2 = sys := by
  rw [List.range_succ_eq_map, loadRegisters]
  simp only [Nat.add_zero]
  rw [Nat.mod_eq_of_lt hI, if_neg (by omega)]

theorem failsCleanly_switchF (env : Env) (op x : Nat) (sys : System) :
    FailsCleanly sys (switchF env op x sys) := by
  unfold switchF
  split_ifs
  · exact failsCleanly_ok _ _
  · exact failsCleanly_waitKey _ _ _
  · exact failsCleanly_ok _ _
  · exact failsCleanly_ok _ _
  · exact failsCleanly_ok _ _
  · exact failsCleanly_ok _ _
  · exact failsCleanly_mem sys _ (storeBCD_res x sys) (fun h _ => storeBCD_first x sys h)
  · exact failsCleanly_mem sys _ (storeRegisters_res _ sys)
      (fun h hI => storeRegisters_first x sys h hI)
  · exact failsCleanly_mem sys _ (loadRegisters_res _ sys)
      (fun h hI => loadRegisters_first x sys h hI)
  · exact failsCleanly_same _ _

theorem failsCleanly_parse (env : Env) (sys : System) :
    FailsCleanly sys (parseInstruction env sys) :=
  parse_cases (FailsCleanly sys) env sys
    (fun s => failsCleanly_ok sys s)
    (fun _ => failsCleanly_switch0 env sys)
    (fun _ => failsCleanly_call _ sys)
    (fun _ => failsCleanly_switch8 _ _ _ sys)
    (fun h => failsCleanly_draw sys _ (drawRows_res env _ _ _ _) h)
    (fun _ => failsCleanly_switchE _ _ sys)
    (fun _ => failsCleanly_switchF env _ _ sys)
    (fun _ => failsCleanly_same sys _)

/-- C10 (as amended): for every machine state and every opcode, the machine state after
`parseInstruction` is exactly the state before the call (registers, memory, I, PC, stack,
display and every other field) whenever the call returns an Invalid-operation, stack-full
or stack-empty error; whenever it panics on a key index; whenever it panics on a stack
index, the stack index lying within the stack's slice before the call; and whenever an
opcode of class F panics on a memory index with the I-register already outside the memory
before the call. -/
theorem failure_leaves_state_unchanged (env : Env) (sys : System) :
    (∀ e, (parseInstruction env sys).1 = Res.error e → e ≠ Err.flush →
      (parseInstruction env sys).2 = sys) ∧
    ((parseInstruction env sys).1 = Res.fault Fault.keyIndex →
      (parseInstruction env sys).2 = sys) ∧
    (sys.stack.index ≤ sys.stack.memory.length →
      (parseInstruction env sys).1 = Res.fault Fault.stackIndex →
      (parseInstruction env sys).2 = sys) ∧
    (sys.memory.length ≤ sys.iregister → sys.iregister < 65536 →
      sys.opcode &&& 0xF000 = 0xF000 →
      (parseInstruction env sys).1 = Res.fault Fault.memoryIndex →
      (parseInstruction env sys).2 = sys) :=
  failsCleanly_parse env sys

/-- Witness for C10 (as amended): the unassigned word 0x8008 returns Invalid operation, and
SKP V0 (0xE09E) with V0 = 200 panics on the key index; both leave the machine as it was. -/
theorem failure_leaves_state_unchanged_witness :
    ((parseInstruction quietEnv { machineWith regsCarry 0 with opcode := 0x8008 }).1
        = Res.error (Err.invalidOperation 0x8008) ∧
      Err.invalidOperation 0x8008 ≠ Err.flush ∧
      (parseInstruction quietEnv { machineWith regsCarry 0 with opcode := 0x8008 }).2
        = { machineWith regsCarry 0 with opcode := 0x8008 }) ∧
    ((parseInstruction quietEnv { machineWith regsCarry 0 with opcode := 0xE09E }).1
        = Res.fault Fault.keyIndex ∧
      (parseInstruction quietEnv { machineWith regsCarry 0 with opcode := 0xE09E }).2
        = { machineWith regsCarry 0 with opcode := 0xE09E }) :=
  ⟨⟨by decide, by decide,
      (failure_leaves_state_unchanged quietEnv
        { machineWith regsCarry 0 with opcode := 0x8008 }).1 (Err.invalidOperation 0x8008)
        (by decide) (by decide)⟩,
    ⟨by decide,
      (failure_leaves_state_unchanged quietEnv
        { machineWith regsCarry 0 with opcode := 0xE09E }).2.1 (by decide)⟩⟩

theorem bcd_at_last_byte (env : Env) (sys : System) (hlen : sys.memory.length = 4096)
    (hI : sys.iregister = 0xFFF) (hop : sys.opcode = 0xF033) :
    parseInstruction env sys
      = (Res.fault Fault.memoryIndex,
          { sys with memory := sys.memory.set 0xFFF (sys.reg 0 / 100) }) := by
  have d1 : (0xF033 &&& 0xF000 : Nat) = 0xF000 := by decide
  have d2 : ((0xF033 &&& 0x0F00) >>> 8 : Nat) = 0 := by decide
  have d3 : (0xF033 &&& 0x00FF : Nat) = 0x33 := by decide
  unfold parseInstruction
  simp only [hop, d1, d2]
  simp [switchF, d3, storeBCD, thenAdvance, hlen, hI, hop]

/-- C10 fails as stated: with I = 0xFFF and V0 = 200, LD B,V0 (opcode 0xF033) stores the
hundreds digit 2 in memory[0xFFF] and then panics on memory[0x1000]; the call has failed
and memory is no longer what it was. -/
theorem bcd_store_fails_after_first_write :
    (machineWith regsCarry 0xFFF).wf ∧
    (execOpcode quietEnv (machineWith regsCarry 0xFFF) 0xF033).1
      = Res.fault Fault.memoryIndex ∧
    (machineWith regsCarry 0xFFF).memory[0xFFF]? = some 0 ∧
    (execOpcode quietEnv (machineWith regsCarry 0xFFF) 0xF033).2.memory[0xFFF]? = some 2 ∧
    (execOpcode quietEnv (machineWith regsCarry 0xFFF) 0xF033).2.memory
      ≠ (machineWith regsCarry 0xFFF).memory := by
  have hexec := bcd_at_last_byte quietEnv
    { machineWith regsCarry 0xFFF with opcode := 0xF033 } (List.length_replicate _ _) rfl rfl
  have h0 : (machineWith regsCarry 0xFFF).memory[0xFFF]? = some 0 := by
    show (List.replicate 4096 0)[0xFFF]? = some 0
    rw [List.getElem?_replicate]
    decide
  have h2 : (execOpcode quietEnv (machineWith regsCarry 0xFFF) 0xF033).2.memory[0xFFF]?
      = some 2 := by
    unfold execOpcode
    rw [hexec]
    show ((List.replicate 4096 0).set 0xFFF (200 / 100))[0xFFF]? = some 2
    rw [List.getElem?_set_self (by rw [List.length_replicate]; decide)]
  refine ⟨machineWith_wf _ _ (by decide) (by decide) (by decide), ?_, h0, h2, ?_⟩
  · unfold execOpcode
    rw [hexec]
  · intro heq
    rw [heq, h0] at h2
    exact absurd h2 (by decide)

/-! ## Decoding the fields of an opcode word -/

theorem shiftRight_and (a b k : Nat) : (a &&& b) >>> k = (a >>> k) &&& (b >>> k) := by
  apply Nat.eq_of_testBit_eq
  intro i
  simp

theorem mask_n (op : Nat) : op &&& 0x000F = op % 16 :=
  Nat.and_pow_two_sub_one_eq_mod op 4

theorem mask_kk (op : Nat) : op &&& 0x00FF = op % 256 :=
  Nat.and_pow_two_sub_one_eq_mod op 8

theorem mask_nnn (op : Nat) : op &&& 0x0FFF = op % 4096 :=
  Nat.and_pow_two_sub_one_eq_mod op 12

theorem mask_x (op : Nat) : (op &&& 0x0F00) >>> 8 = op / 256 % 16 := by
  rw [shiftRight_and, Nat.shiftRight_eq_div_pow]
  have h : (0x0F00 >>> 8 : Nat) = 2 ^ 4 - 1 := by decide
  rw [h, Nat.and_pow_two_sub_one_eq_mod]

theorem mask_y (op : Nat) : (op &&& 0x00F0) >>> 4 = op / 16 % 16 := by
  rw [shiftRight_and, Nat.shiftRight_eq_div_pow]
  have h : (0x00F0 >>> 4 : Nat) = 2 ^ 4 - 1 := by decide
  rw [h, Nat.and_pow_two_sub_one_eq_mod]

theorem mask_class (op : Nat) : op &&& 0xF000 = 4096 * (op / 4096 % 16) := by
  have h1 : (op &&& 0xF000) >>> 12 = op / 4096 % 16 := by
    rw [shiftRight_and, Nat.shiftRight_eq_div_pow]
    have h : (0xF000 >>> 12 : Nat) = 2 ^ 4 - 1 := by decide
    rw [h, Nat.and_pow_two_sub_one_eq_mod]
  have h2 : (op &&& 0xF000) % 4096 = 0 := by
    have h : (op &&& 0xF000) &&& (2 ^ 12 - 1) = 0 := by
      rw [Nat.and_assoc]
      have h0 : (0xF000 &&& (2 ^ 12 - 1) : Nat) = 0 := by decide
      rw [h0, Nat.and_zero]
    rw [Nat.and_pow_two_sub_one_eq_mod] at h
    exact h
  rw [Nat.shiftRight_eq_div_pow] at h1
  omega

theorem parse_classF (env : Env) (sys : System) (h : sys.opcode / 4096 % 16 = 15) :
    parseInstruction env sys = switchF env sys.opcode (sys.opcode / 256 % 16) sys := by
  unfold parseInstruction
  simp only [mask_class, mask_x, h]
  simp

/-! ## Memory lemmas -/

theorem getD_set_self (l : List Nat) (i v : Nat) (h : i < l.length) :
    (l.set i v).getD i 0 = v := by
  simp [List.getD_eq_getElem?_getD, List.getElem?_set, h]

theorem getD_set_ne (l : List Nat) (i j v : Nat) (h : i ≠ j) :
    (l.set i v).getD j 0 = l.getD j 0 := by
  simp [List.getD_eq_getElem?_getD, List.getElem?_set, h]

/-! ## Fx33: the BCD store -/

theorem storeBCD_ok (x : Nat) (sys : System) (hI : sys.iregister + 2 < sys.memory.length)
    (hlen : sys.memory.length ≤ 65536) :
    storeBCD x sys = (Res.ok (), { sys with memory :=
      (((sys.memory.set sys.iregister (sys.reg x / 100)).set (sys.iregister + 1)
        ((sys.reg x / 10) % 10)).set (sys.iregister + 2) ((sys.reg x % 100) % 10)) }) := by
  unfold storeBCD
  have h1 : (sys.iregister + 1) % 65536 = sys.iregister + 1 := Nat.mod_eq_of_lt (by omega)
  have h2 : (sys.iregister + 2) % 65536 = sys.iregister + 2 := Nat.mod_eq_of_lt (by omega)
  simp only [h1, h2, List.length_set]
  rw [if_pos (by omega), if_pos (by omega), if_pos (by omega)]
  rfl

/-- C14: for every machine state with I + 2 <= 0xFFF and every x, with v the value of Vx:
executing Fx33 succeeds and leaves in memory[I], memory[I+1], memory[I+2] three decimal
digits d0, d1, d2 (each at most 9) with 100*d0 + 10*d1 + d2 = v; every other memory byte,
the whole register file and I are unchanged. -/
theorem bcd_store_writes_three_digits (env : Env) (sys : System) (x : Nat)
    (hwf : sys.wf) (hx : x < 16) (hI : sys.iregister + 2 ≤ 0xFFF) :
    (execOpcode env sys (0xF033 + 0x100 * x)).1 = Res.ok () ∧
    (execOpcode env sys (0xF033 + 0x100 * x)).2.mem sys.iregister ≤ 9 ∧
    (execOpcode env sys (0xF033 + 0x100 * x)).2.mem (sys.iregister + 1) ≤ 9 ∧
    (execOpcode env sys (0xF033 + 0x100 * x)).2.mem (sys.iregister + 2) ≤ 9 ∧
    100 * (execOpcode env sys (0xF033 + 0x100 * x)).2.mem sys.iregister
      + 10 * (execOpcode env sys (0xF033 + 0x100 * x)).2.mem (sys.iregister + 1)
      + (execOpcode env sys (0xF033 + 0x100 * x)).2.mem (sys.iregister + 2) = sys.reg x ∧
    (∀ a, a ≠ sys.iregister → a ≠ sys.iregister + 1 → a ≠ sys.iregister + 2 →
      (execOpcode env sys (0xF033 + 0x100 * x)).2.mem a = sys.mem a) ∧
    (execOpcode env sys (0xF033 + 0x100 * x)).2.registers = sys.registers ∧
    (execOpcode env sys (0xF033 + 0x100 * x)).2.iregister = sys.iregister := by
  have hv : sys.reg x < 256 := reg_lt_of_bytes sys hwf.2.2.1 x
  have hlen : sys.memory.length = 4096 := hwf.2.2.2.1
  have hexec : execOpcode env sys (0xF033 + 0x100 * x)
      = (Res.ok (), ({ sys with
          opcode := 0xF033 + 0x100 * x
          memory := (((sys.memory.set sys.iregister (sys.reg x / 100)).set (sys.iregister + 1)
            ((sys.reg x / 10) % 10)).set (sys.iregister + 2)
              ((sys.reg x % 100) % 10)) } : System).incrementPC false) := by
    unfold execOpcode
    rw [parse_classF env _ (by show (0xF033 + 0x100 * x) / 4096 % 16 = 15; omega)]
    have hxx : (0xF033 + 0x100 * x) / 256 % 16 = x := by omega
    have hkk : (0xF033 + 0x100 * x) % 256 = 0x33 := by omega
    unfold switchF
    simp only [mask_kk, hxx, hkk]
    simp only [show ¬ ((0x33 : Nat) = 0x07) by decide, show ¬ ((0x33 : Nat) = 0x0A) by decide,
      show ¬ ((0x33 : Nat) = 0x15) by decide, show ¬ ((0x33 : Nat) = 0x18) by decide,
      show ¬ ((0x33 : Nat) = 0x1E) by decide, show ¬ ((0x33 : Nat) = 0x29) by decide,
      if_false, if_true]
    rw [storeBCD_ok x _ (by show sys.iregister + 2 < sys.memory.length; omega)
      (by show sys.memory.length ≤ 65536; omega)]
    rfl
  rw [hexec]
  have hm : ∀ a, (({ sys with
          opcode := 0xF033 + 0x100 * x
          memory := (((sys.memory.set sys.iregister (sys.reg x / 100)).set (sys.iregister + 1)
            ((sys.reg x / 10) % 10)).set (sys.iregister + 2)
              ((sys.reg x % 100) % 10)) } : System).incrementPC false).mem a
      = (((sys.memory.set sys.iregister (sys.reg x / 100)).set (sys.iregister + 1)
            ((sys.reg x / 10) % 10)).set (sys.iregister + 2) ((sys.reg x % 100) % 10)).getD a 0 :=
    fun _ => rfl
  have e0 : (((sys.memory.set sys.iregister (sys.reg x / 100)).set (sys.iregister + 1)
      ((sys.reg x / 10) % 10)).set (sys.iregister + 2) ((sys.reg x % 100) % 10)).getD
        sys.iregister 0 = sys.reg x / 100 := by
    rw [getD_set_ne _ _ _ _ (by omega), getD_set_ne _ _ _ _ (by omega),
      getD_set_self _ _ _ (by omega)]
  have e1 : (((sys.memory.set sys.iregister (sys.reg x / 100)).set (sys.iregister + 1)
      ((sys.reg x / 10) % 10)).set (sys.iregister + 2) ((sys.reg x % 100) % 10)).getD
        (sys.iregister + 1) 0 = (sys.reg x / 10) % 10 := by
    rw [getD_set_ne _ _ _ _ (by omega),
      getD_set_self _ _ _ (by rw [List.length_set]; omega)]
  have e2 : (((sys.memory.set sys.iregister (sys.reg x / 100)).set (sys.iregister + 1)
      ((sys.reg x / 10) % 10)).set (sys.iregister + 2) ((sys.reg x % 100) % 10)).getD
        (sys.iregister + 2) 0 = (sys.reg x % 100) % 10 := by
    rw [getD_set_self _ _ _ (by rw [List.length_set, List.length_set]; omega)]
  refine ⟨rfl, ?_, ?_, ?_, ?_, ?_, rfl, rfl⟩
  · rw [hm, e0]; omega
  · rw [hm, e1]; omega
  · rw [hm, e2]; omega
  · rw [hm, hm, hm, e0, e1, e2]; omega
  · intro a h0 h1 h2
    rw [hm, getD_set_ne _ _ _ _ (Ne.symm h2), getD_set_ne _ _ _ _ (Ne.symm h1),
      getD_set_ne _ _ _ _ (Ne.symm h0)]
    rfl

/-- Witness for C14: V0 = 200 and I = 0x300, opcode 0xF033. -/
theorem bcd_store_writes_three_digits_witness :
    100 * (execOpcode quietEnv (machineWith regsCarry 0x300) (0xF033 + 0x100 * 0)).2.mem
        (machineWith regsCarry 0x300).iregister
      + 10 * (execOpcode quietEnv (machineWith regsCarry 0x300) (0xF033 + 0x100 * 0)).2.mem
        ((machineWith regsCarry 0x300).iregister + 1)
      + (execOpcode quietEnv (machineWith regsCarry 0x300) (0xF033 + 0x100 * 0)).2.mem
        ((machineWith regsCarry 0x300).iregister + 2) = (machineWith regsCarry 0x300).reg 0 :=
  (bcd_store_writes_three_digits quietEnv (machineWith regsCarry 0x300) 0
    (machineWith_wf _ _ (by decide) (by decide) (by decide)) (by decide)
    (by decide)).2.2.2.2.1

/-! ## Fx55 and Fx65: register block store and load -/

theorem storeRegisters_spec (l : List Nat) : ∀ s : System,
    (∀ i ∈ l, s.iregister + i < s.memory.length) → s.memory.length ≤ 65536 →
    ∃ m : List Nat, storeRegisters l s = (Res.ok (), { s with memory := m }) ∧
      m.length = s.memory.length ∧
      ∀ a, m.getD a 0 = if s.iregister ≤ a ∧ a - s.iregister ∈ l then s.reg (a - s.iregister)
        else s.memory.getD a 0 := by
  induction l with
  | nil =>
    intro s _ _
    exact ⟨s.memory, rfl, rfl, fun a => by simp⟩
  | cons i rest ih =>
    intro s hin hlen
    have hi : s.iregister + i < s.memory.length := hin i (List.mem_cons_self _ _)
    have hmod : (s.iregister + i) % 65536 = s.iregister + i := Nat.mod_eq_of_lt (by omega)
    obtain ⟨m, hm1, hm2, hm3⟩ :=
      ih { s with memory := s.memory.set (s.iregister + i) (s.reg i) }
        (by
          intro j hj
          show s.iregister + j < (s.memory.set (s.iregister + i) (s.reg i)).length
          rw [List.length_set]
          exact hin j (List.mem_cons_of_mem _ hj))
        (by
          show (s.memory.set (s.iregister + i) (s.reg i)).length ≤ 65536
          rw [List.length_set]; exact hlen)
    refine ⟨m, ?_, ?_, ?_⟩
    · rw [storeRegisters]
      simp only [hmod]
      rw [if_pos hi]
      exact hm1
    · rw [hm2]
      exact List.length_set _ _ _
    · intro a
      rw [hm3 a]
      show (if s.iregister ≤ a ∧ a - s.iregister ∈ rest then s.reg (a - s.iregister)
        else (s.memory.set (s.iregister + i) (s.reg i)).getD a 0) = _
      by_cases ha : a = s.iregister + i
      · have hai : a - s.iregister = i := by omega
        have hle : s.iregister ≤ a := by omega
        have hbig : s.iregister ≤ a ∧ a - s.iregister ∈ i :: rest :=
          ⟨hle, by rw [hai]; exact List.mem_cons_self _ _⟩
        rw [if_pos hbig]
        by_cases hr : s.iregister ≤ a ∧ a - s.iregister ∈ rest
        · rw [if_pos hr]
        · rw [if_neg hr, ha, getD_set_self _ _ _ hi]
          have : s.iregister + i - s.iregister = i := by omega
          rw [this]
      · rw [getD_set_ne _ _ _ _ (Ne.symm ha)]
        by_cases hc : s.iregister ≤ a ∧ a - s.iregister ∈ rest
        · have hbig : s.iregister ≤ a ∧ a - s.iregister ∈ i :: rest :=
            ⟨hc.1, List.mem_cons_of_mem _ hc.2⟩
          rw [if_pos hc, if_pos hbig]
        · have hbig : ¬ (s.iregister ≤ a ∧ a - s.iregister ∈ i :: rest) := by
            rintro ⟨hle, hmem⟩
            rcases List.mem_cons.mp hmem with h | h
            · exact ha (by omega)
            · exact hc ⟨hle, h⟩
          rw [if_neg hc, if_neg hbig]

theorem loadRegisters_spec (l : List Nat) : ∀ s : System,
    (∀ i ∈ l, s.iregister + i < s.memory.length ∧ i < s.registers.length) →
    s.memory.length ≤ 65536 →
    ∃ regs : List Nat, loadRegisters l s = (Res.ok (), { s with registers := regs }) ∧
      regs.length = s.registers.length ∧
      ∀ j, regs.getD j 0 = if j ∈ l then s.memory.getD (s.iregister + j) 0
        else s.registers.getD j 0 := by
  induction l with
  | nil =>
    intro s _ _
    exact ⟨s.registers, rfl, rfl, fun a => by simp⟩
  | cons i rest ih =>
    intro s hin hlen
    obtain ⟨hi, hir⟩ := hin i (List.mem_cons_self _ _)
    have hmod : (s.iregister + i) % 65536 = s.iregister + i := Nat.mod_eq_of_lt (by omega)
    obtain ⟨regs, hm1, hm2, hm3⟩ :=
      ih (s.setReg i (s.memory.getD (s.iregister + i) 0))
        (by
          intro j hj
          obtain ⟨h1, h2⟩ := hin j (List.mem_cons_of_mem _ hj)
          refine ⟨h1, ?_⟩
          rw [length_setReg]
          exact h2)
        hlen
    refine ⟨regs, ?_, ?_, ?_⟩
    · rw [loadRegisters]
      simp only [hmod]
      rw [if_pos hi]
      exact hm1
    · rw [hm2]
      exact length_setReg _ _ _
    · intro j
      rw [hm3 j]
      show (if j ∈ rest then s.memory.getD (s.iregister + j) 0
        else (s.registers.set i (s.memory.getD (s.iregister + i) 0)).getD j 0) = _
      by_cases hji : j = i
      · subst hji
        have hbig : j ∈ j :: rest := List.mem_cons_self _ _
        rw [if_pos hbig]
        by_cases hr : j ∈ rest
        · rw [if_pos hr]
        · rw [if_neg hr, getD_set_self _ _ _ hir]
      · rw [getD_set_ne _ _ _ _ (Ne.symm hji)]
        by_cases hr : j ∈ rest
        · have hbig : j ∈ i :: rest := List.mem_cons_of_mem _ hr
          rw [if_pos hr, if_pos hbig]
        · have hbig : ¬ j ∈ i :: rest := by
            intro hmem
            rcases List.mem_cons.mp hmem with h | h
            · exact hji h
            · exact hr h
          rw [if_neg hr, if_neg hbig]

theorem store_core (env : Env) (t : System) (x : Nat) (hlen : t.memory.length = 4096)
    (hx : x < 16) (hI : t.iregister + x ≤ 0xFFF) (hop : t.opcode = 0xF055 + 0x100 * x) :
    ∃ m : List Nat,
      parseInstruction env t = (Res.ok (), ({ t with memory := m } : System).incrementPC false) ∧
      m.length = 4096 ∧
      ∀ a, m.getD a 0 = if t.iregister ≤ a ∧ a - t.iregister < x + 1 then t.reg (a - t.iregister)
        else t.memory.getD a 0 := by
  obtain ⟨m, hm1, hm2, hm3⟩ := storeRegisters_spec (List.range (x + 1)) t
    (by intro i hi; rw [List.mem_range] at hi; omega) (by omega)
  refine ⟨m, ?_, by rw [hm2, hlen], ?_⟩
  · rw [parse_classF env t (by rw [hop]; omega)]
    have hxx : t.opcode / 256 % 16 = x := by rw [hop]; omega
    have hkk : t.opcode % 256 = 0x55 := by rw [hop]; omega
    unfold switchF
    simp only [mask_kk, hxx, hkk]
    simp only [show ¬ ((0x55 : Nat) = 0x07) by decide, show ¬ ((0x55 : Nat) = 0x0A) by decide,
      show ¬ ((0x55 : Nat) = 0x15) by decide, show ¬ ((0x55 : Nat) = 0x18) by decide,
      show ¬ ((0x55 : Nat) = 0x1E) by decide, show ¬ ((0x55 : Nat) = 0x29) by decide,
      show ¬ ((0x55 : Nat) = 0x33) by decide, if_false, if_true]
    rw [hm1]
    rfl
  · intro a
    rw [hm3 a]
    simp only [List.mem_range]

theorem load_core (env : Env) (t : System) (x : Nat) (hlen : t.memory.length = 4096)
    (hregs : t.registers.length = 16)
    (hx : x < 16) (hI : t.iregister + x ≤ 0xFFF) (hop : t.opcode = 0xF065 + 0x100 * x) :
    ∃ regs : List Nat,
      parseInstruction env t
        = (Res.ok (), ({ t with registers := regs } : System).incrementPC false) ∧
      regs.length = 16 ∧
      ∀ j, regs.getD j 0 = if j < x + 1 then t.memory.getD (t.iregister + j) 0
        else t.registers.getD j 0 := by
  obtain ⟨regs, hm1, hm2, hm3⟩ := loadRegisters_spec (List.range (x + 1)) t
    (by intro i hi; rw [List.mem_range] at hi; omega) (by omega)
  refine ⟨regs, ?_, by rw [hm2, hregs], ?_⟩
  · rw [parse_classF env t (by rw [hop]; omega)]
    have hxx : t.opcode / 256 % 16 = x := by rw [hop]; omega
    have hkk : t.opcode % 256 = 0x65 := by rw [hop]; omega
    unfold switchF
    simp only [mask_kk, hxx, hkk]
    simp only [show ¬ ((0x65 : Nat) = 0x07) by decide, show ¬ ((0x65 : Nat) = 0x0A) by decide,
      show ¬ ((0x65 : Nat) = 0x15) by decide, show ¬ ((0x65 : Nat) = 0x18) by decide,
      show ¬ ((0x65 : Nat) = 0x1E) by decide, show ¬ ((0x65 : Nat) = 0x29) by decide,
      show ¬ ((0x65 : Nat) = 0x33) by decide, show ¬ ((0x65 : Nat) = 0x55) by decide,
      if_false, if_true]
    rw [hm1]
    rfl
  · intro j
    rw [hm3 j]
    simp only [List.mem_range]

/-- C15: for every machine state with I + x <= 0xFFF: Fx55 succeeds, sets
memory[I+i] = Vi for every i in 0..x inclusive and changes no other memory byte, no
register and not I; Fx65 succeeds, sets Vi = memory[I+i] for every i in 0..x inclusive and
changes no register above x, no memory byte and not I; and Fx55 followed by Fx65 with the
same x leaves every register with the value it had before the pair. -/
theorem register_block_store_and_load (env : Env) (sys : System) (x : Nat)
    (hwf : sys.wf) (hx : x < 16) (hI : sys.iregister + x ≤ 0xFFF) :
    ((execOpcode env sys (0xF055 + 0x100 * x)).1 = Res.ok () ∧
      (∀ i, i ≤ x → (execOpcode env sys (0xF055 + 0x100 * x)).2.mem (sys.iregister + i)
        = sys.reg i) ∧
      (∀ a, (a < sys.iregister ∨ sys.iregister + x < a) →
        (execOpcode env sys (0xF055 + 0x100 * x)).2.mem a = sys.mem a) ∧
      (execOpcode env sys (0xF055 + 0x100 * x)).2.registers = sys.registers ∧
      (execOpcode env sys (0xF055 + 0x100 * x)).2.iregister = sys.iregister) ∧
    ((execOpcode env sys (0xF065 + 0x100 * x)).1 = Res.ok () ∧
      (∀ i, i ≤ x → (execOpcode env sys (0xF065 + 0x100 * x)).2.reg i
        = sys.mem (sys.iregister + i)) ∧
      (∀ j, x < j → (execOpcode env sys (0xF065 + 0x100 * x)).2.reg j = sys.reg j) ∧
      (execOpcode env sys (0xF065 + 0x100 * x)).2.memory = sys.memory ∧
      (execOpcode env sys (0xF065 + 0x100 * x)).2.iregister = sys.iregister) ∧
    ((execOpcode env (execOpcode env sys (0xF055 + 0x100 * x)).2 (0xF065 + 0x100 * x)).1
        = Res.ok () ∧
      ∀ j, (execOpcode env (execOpcode env sys (0xF055 + 0x100 * x)).2
        (0xF065 + 0x100 * x)).2.reg j = sys.reg j) := by
  have hlen : sys.memory.length = 4096 := hwf.2.2.2.1
  have hregs : sys.registers.length = 16 := hwf.2.1
  obtain ⟨m, hm1, hm2, hm3⟩ :=
    store_core env { sys with opcode := 0xF055 + 0x100 * x } x hlen hx hI rfl
  obtain ⟨regs, hr1, hr2, hr3⟩ :=
    load_core env { sys with opcode := 0xF065 + 0x100 * x } x hlen hregs hx hI rfl
  have hs : execOpcode env sys (0xF055 + 0x100 * x)
      = (Res.ok (), ({ sys with opcode := 0xF055 + 0x100 * x, memory := m } :
          System).incrementPC false) := hm1
  have hl : execOpcode env sys (0xF065 + 0x100 * x)
      = (Res.ok (), ({ sys with opcode := 0xF065 + 0x100 * x, registers := regs } :
          System).incrementPC false) := hr1
  obtain ⟨regs2, hp1, hp2, hp3⟩ :=
    load_core env
      ({ sys with opcode := 0xF065 + 0x100 * x, memory := m,
                  programCounter := (sys.programCounter + 2) % 65536 } : System)
      x hm2 hregs hx hI rfl
  have hp : execOpcode env (({ sys with opcode := 0xF055 + 0x100 * x, memory := m } :
      System).incrementPC false) (0xF065 + 0x100 * x)
      = (Res.ok (),
          ({ sys with opcode := 0xF065 + 0x100 * x, memory := m,
                      programCounter := (sys.programCounter + 2) % 65536,
                      registers := regs2 } : System).incrementPC false) := hp1
  have hm3' : ∀ a, m.getD a 0 = if sys.iregister ≤ a ∧ a - sys.iregister < x + 1
      then sys.reg (a - sys.iregister) else sys.memory.getD a 0 := hm3
  have hr3' : ∀ j, regs.getD j 0 = if j < x + 1 then sys.memory.getD (sys.iregister + j) 0
      else sys.registers.getD j 0 := hr3
  have hp3' : ∀ j, regs2.getD j 0 = if j < x + 1 then m.getD (sys.iregister + j) 0
      else sys.registers.getD j 0 := hp3
  rw [hs, hl, hp]
  refine ⟨⟨rfl, ?_, ?_, rfl, rfl⟩, ⟨rfl, ?_, ?_, rfl, rfl⟩, ⟨rfl, ?_⟩⟩
  · intro i hi
    show m.getD (sys.iregister + i) 0 = sys.reg i
    rw [hm3', if_pos (by omega)]
    have : sys.iregister + i - sys.iregister = i := by omega
    rw [this]
  · intro a ha
    show m.getD a 0 = sys.memory.getD a 0
    rw [hm3', if_neg (by omega)]
  · intro i hi
    show regs.getD i 0 = sys.memory.getD (sys.iregister + i) 0
    rw [hr3', if_pos (by omega)]
  · intro j hj
    show regs.getD j 0 = sys.registers.getD j 0
    rw [hr3', if_neg (by omega)]
  · intro j
    show regs2.getD j 0 = sys.registers.getD j 0
    rw [hp3']
    by_cases hj : j < x + 1
    · rw [if_pos hj, hm3', if_pos (by omega)]
      have : sys.iregister + j - sys.iregister = j := by omega
      rw [this]
      rfl
    · rw [if_neg hj]

/-- Witness for C15: V0 = 200, V1 = 100, I = 0x300, x = 1 (opcodes 0xF155 and 0xF165). -/
theorem register_block_store_and_load_witness :
    (execOpcode quietEnv (machineWith regsCarry 0x300) (0xF055 + 0x100 * 1)).2.mem
        ((machineWith regsCarry 0x300).iregister + 1) = (machineWith regsCarry 0x300).reg 1 ∧
    (execOpcode quietEnv (execOpcode quietEnv (machineWith regsCarry 0x300)
        (0xF055 + 0x100 * 1)).2 (0xF065 + 0x100 * 1)).2.reg 0
      = (machineWith regsCarry 0x300).reg 0 :=
  have h := register_block_store_and_load quietEnv (machineWith regsCarry 0x300) 1
    (machineWith_wf _ _ (by decide) (by decide) (by decide)) (by decide) (by decide)
  ⟨h.1.2.1 1 (by decide), h.2.2.2 0⟩

/-! ## The register-comparison skips -/

theorem parse_3xkk (env : Env) (t : System) (x kk : Nat) (hx : x < 16) (hkk : kk < 256)
    (hop : t.opcode = 0x3000 + 0x100 * x + kk) :
    parseInstruction env t = (Res.ok (), t.incrementPC (decide (t.reg x = kk))) := by
  have hc : t.opcode / 4096 % 16 = 3 := by rw [hop]; omega
  have hxx : t.opcode / 256 % 16 = x := by rw [hop]; omega
  have hk : t.opcode % 256 = kk := by rw [hop]; omega
  unfold parseInstruction
  simp only [mask_class, mask_x, mask_kk, hc, hxx, hk, Nat.mod_eq_of_lt hkk]
  by_cases h : t.reg x = kk <;> simp [h]

theorem parse_4xkk (env : Env) (t : System) (x kk : Nat) (hx : x < 16) (hkk : kk < 256)
    (hop : t.opcode = 0x4000 + 0x100 * x + kk) :
    parseInstruction env t = (Res.ok (), t.incrementPC (decide (t.reg x ≠ kk))) := by
  have hc : t.opcode / 4096 % 16 = 4 := by rw [hop]; omega
  have hxx : t.opcode / 256 % 16 = x := by rw [hop]; omega
  have hk : t.opcode % 256 = kk := by rw [hop]; omega
  unfold parseInstruction
  simp only [mask_class, mask_x, mask_kk, hc, hxx, hk, Nat.mod_eq_of_lt hkk]
  by_cases h : t.reg x = kk <;> simp [h]

theorem parse_5xy0 (env : Env) (t : System) (x y : Nat) (hx : x < 16) (hy : y < 16)
    (hop : t.opcode = 0x5000 + 0x100 * x + 0x10 * y) :
    parseInstruction env t = (Res.ok (), t.incrementPC (decide (t.reg x = t.reg y))) := by
  have hc : t.opcode / 4096 % 16 = 5 := by rw [hop]; omega
  have hxx : t.opcode / 256 % 16 = x := by rw [hop]; omega
  have hyy : t.opcode / 16 % 16 = y := by rw [hop]; omega
  unfold parseInstruction
  simp only [mask_class, mask_x, mask_y, hc, hxx, hyy]
  by_cases h : t.reg x = t.reg y <;> simp [h]

theorem parse_9xy0 (env : Env) (t : System) (x y : Nat) (hx : x < 16) (hy : y < 16)
    (hop : t.opcode = 0x9000 + 0x100 * x + 0x10 * y) :
    parseInstruction env t = (Res.ok (), t.incrementPC (decide (t.reg x ≠ t.reg y))) := by
  have hc : t.opcode / 4096 % 16 = 9 := by rw [hop]; omega
  have hxx : t.opcode / 256 % 16 = x := by rw [hop]; omega
  have hyy : t.opcode / 16 % 16 = y := by rw [hop]; omega
  unfold parseInstruction
  simp only [mask_class, mask_x, mask_y, hc, hxx, hyy]
  by_cases h : t.reg x = t.reg y <;> simp [h]

/-- C16: for every machine state and operands, each register-comparison skip succeeds and
changes nothing but the program counter (registers, memory, I, stack, display and every
other field keep their values), which becomes PC + 4 when the condition holds and PC + 2
otherwise, in 16-bit arithmetic: 3xkk skips iff Vx = kk, 4xkk iff Vx != kk, 5xy0 iff
Vx = Vy, 9xy0 iff Vx != Vy. -/
theorem skips_advance_by_four_or_two (env : Env) (sys : System) (x y kk : Nat)
    (hx : x < 16) (hy : y < 16) (hkk : kk < 256) :
    execOpcode env sys (0x3000 + 0x100 * x + kk)
      = (Res.ok (), { sys with
          opcode := 0x3000 + 0x100 * x + kk
          programCounter := (sys.programCounter + (if sys.reg x = kk then 4 else 2)) % 65536 }) ∧
    execOpcode env sys (0x4000 + 0x100 * x + kk)
      = (Res.ok (), { sys with
          opcode := 0x4000 + 0x100 * x + kk
          programCounter := (sys.programCounter + (if sys.reg x ≠ kk then 4 else 2)) % 65536 }) ∧
    execOpcode env sys (0x5000 + 0x100 * x + 0x10 * y)
      = (Res.ok (), { sys with
          opcode := 0x5000 + 0x100 * x + 0x10 * y
          programCounter :=
            (sys.programCounter + (if sys.reg x = sys.reg y then 4 else 2)) % 65536 }) ∧
    execOpcode env sys (0x9000 + 0x100 * x + 0x10 * y)
      = (Res.ok (), { sys with
          opcode := 0x9000 + 0x100 * x + 0x10 * y
          programCounter :=
            (sys.programCounter + (if sys.reg x ≠ sys.reg y then 4 else 2)) % 65536 }) ∧
    (sys.programCounter + 4 < 65536 →
      (execOpcode env sys (0x3000 + 0x100 * x + kk)).2.programCounter
        = sys.programCounter + (if sys.reg x = kk then 4 else 2) ∧
      (execOpcode env sys (0x4000 + 0x100 * x + kk)).2.programCounter
        = sys.programCounter + (if sys.reg x ≠ kk then 4 else 2) ∧
      (execOpcode env sys (0x5000 + 0x100 * x + 0x10 * y)).2.programCounter
        = sys.programCounter + (if sys.reg x = sys.reg y then 4 else 2) ∧
      (execOpcode env sys (0x9000 + 0x100 * x + 0x10 * y)).2.programCounter
        = sys.programCounter + (if sys.reg x ≠ sys.reg y then 4 else 2)) := by
  have h3 : execOpcode env sys (0x3000 + 0x100 * x + kk)
      = (Res.ok (), { sys with
          opcode := 0x3000 + 0x100 * x + kk
          programCounter := (sys.programCounter + (if sys.reg x = kk then 4 else 2)) % 65536 }) := by
    unfold execOpcode
    rw [parse_3xkk env _ x kk hx hkk rfl]
    by_cases h : sys.reg x = kk <;> simp [System.incrementPC, System.reg, h]
  have h4 : execOpcode env sys (0x4000 + 0x100 * x + kk)
      = (Res.ok (), { sys with
          opcode := 0x4000 + 0x100 * x + kk
          programCounter := (sys.programCounter + (if sys.reg x ≠ kk then 4 else 2)) % 65536 }) := by
    unfold execOpcode
    rw [parse_4xkk env _ x kk hx hkk rfl]
    by_cases h : sys.reg x = kk <;> simp [System.incrementPC, System.reg, h]
  have h5 : execOpcode env sys (0x5000 + 0x100 * x + 0x10 * y)
      = (Res.ok (), { sys with
          opcode := 0x5000 + 0x100 * x + 0x10 * y
          programCounter :=
            (sys.programCounter + (if sys.reg x = sys.reg y then 4 else 2)) % 65536 }) := by
    unfold execOpcode
    rw [parse_5xy0 env _ x y hx hy rfl]
    by_cases h : sys.reg x = sys.reg y <;> simp [System.incrementPC, System.reg, h]
  have h9 : execOpcode env sys (0x9000 + 0x100 * x + 0x10 * y)
      = (Res.ok (), { sys with
          opcode := 0x9000 + 0x100 * x + 0x10 * y
          programCounter :=
            (sys.programCounter + (if sys.reg x ≠ sys.reg y then 4 else 2)) % 65536 }) := by
    unfold execOpcode
    rw [parse_9xy0 env _ x y hx hy rfl]
    by_cases h : sys.reg x = sys.reg y <;> simp [System.incrementPC, System.reg, h]
  refine ⟨h3, h4, h5, h9, ?_⟩
  intro hpc
  rw [h3, h4, h5, h9]
  refine ⟨?_, ?_, ?_, ?_⟩
  · show (sys.programCounter + (if sys.reg x = kk then 4 else 2)) % 65536 = _
    apply Nat.mod_eq_of_lt
    split <;> omega
  · show (sys.programCounter + (if sys.reg x ≠ kk then 4 else 2)) % 65536 = _
    apply Nat.mod_eq_of_lt
    split <;> omega
  · show (sys.programCounter + (if sys.reg x = sys.reg y then 4 else 2)) % 65536 = _
    apply Nat.mod_eq_of_lt
    split <;> omega
  · show (sys.programCounter + (if sys.reg x ≠ sys.reg y then 4 else 2)) % 65536 = _
    apply Nat.mod_eq_of_lt
    split <;> omega

/-- Witness for C16: V0 = 200, V1 = 100, PC = 0x200; SE V0,200 (0x30C8) skips and
SE V0,V1 (0x5010) does not. -/
theorem skips_advance_by_four_or_two_witness :
    (machineWith regsCarry 0).programCounter + 4 < 65536 ∧
    (execOpcode quietEnv (machineWith regsCarry 0) (0x3000 + 0x100 * 0 + 200)).2.programCounter
      = (machineWith regsCarry 0).programCounter
        + (if (machineWith regsCarry 0).reg 0 = 200 then 4 else 2) ∧
    (execOpcode quietEnv (machineWith regsCarry 0) (0x5000 + 0x100 * 0 + 0x10 * 1)).2.programCounter
      = (machineWith regsCarry 0).programCounter
        + (if (machineWith regsCarry 0).reg 0 = (machineWith regsCarry 0).reg 1 then 4 else 2) :=
  have h := (skips_advance_by_four_or_two quietEnv (machineWith regsCarry 0) 0 1 200
    (by decide) (by decide) (by decide)).2.2.2.2 (by decide)
  ⟨by decide, h.1, h.2.2.1⟩

/-! ## Halt, return and call -/

theorem parse_class0 (env : Env) (sys : System) (h : sys.opcode / 4096 % 16 = 0) :
    parseInstruction env sys = switch0 env sys.opcode sys := by
  unfold parseInstruction
  simp only [mask_class, h]
  simp

theorem parse_class2 (env : Env) (sys : System) (h : sys.opcode / 4096 % 16 = 2) :
    parseInstruction env sys = call (sys.opcode % 4096) sys := by
  unfold parseInstruction
  simp only [mask_class, mask_nnn, h]
  simp

/-- C17 (as amended): for every machine state, executing the halt instruction (opcode
0x0000 or 0x0A00) succeeds, sends the halt signal and then advances the program counter by
2 (in 16-bit arithmetic); registers, memory, I, stack, display and every other field are
unchanged. -/
theorem halt_signals_and_advances (env : Env) (sys : System) :
    execOpcode env sys 0x0000
      = (Res.ok (), { sys with
          opcode := 0x0000
          halt := sys.halt ++ [true]
          programCounter := (sys.programCounter + 2) % 65536 }) ∧
    execOpcode env sys 0x0A00
      = (Res.ok (), { sys with
          opcode := 0x0A00
          halt := sys.halt ++ [true]
          programCounter := (sys.programCounter + 2) % 65536 }) := by
  constructor
  · unfold execOpcode
    rw [parse_class0 env _ (by show (0x0000 : Nat) / 4096 % 16 = 0; decide)]
    simp [switch0, System.incrementPC]
  · unfold execOpcode
    rw [parse_class0 env _ (by show (0x0A00 : Nat) / 4096 % 16 = 0; decide)]
    simp [switch0, System.incrementPC]

/-- C17 fails as stated: on a machine with PC = 0x200 the halt word 0x0000 succeeds, sends
the halt signal and leaves PC = 0x202, not 0x200. -/
theorem halt_moves_program_counter :
    (machineWith regsCarry 0).programCounter = 0x200 ∧
    (execOpcode quietEnv (machineWith regsCarry 0) 0x0000).1 = Res.ok () ∧
    (execOpcode quietEnv (machineWith regsCarry 0) 0x0000).2.halt = [true] ∧
    (execOpcode quietEnv (machineWith regsCarry 0) 0x0000).2.programCounter = 0x202 ∧
    (execOpcode quietEnv (machineWith regsCarry 0) 0x0000).2.programCounter
      ≠ (machineWith regsCarry 0).programCounter := by
  decide

/-- C18 (as amended): for every machine state whose stack holds at least one address
(0 < index <= len(memory)), executing 00EE (RET) succeeds and leaves the program counter at
the address that was on top of the stack plus 2 (in 16-bit arithmetic), that address
removed from the stack (index decremented, its slot zeroed), and registers, memory, I and
every other field unchanged; when the stack is empty RET returns the stack-empty error and
changes nothing. -/
theorem ret_resumes_after_popped_address (env : Env) (sys : System) :
    (0 < sys.stack.index → sys.stack.index ≤ sys.stack.memory.length →
      sys.stack.peek.1 = Res.ok (sys.stack.memory.getD (sys.stack.index - 1) 0) ∧
      execOpcode env sys 0x00EE
        = (Res.ok (), { sys with
            opcode := 0x00EE
            stack := { sys.stack with
              memory := sys.stack.memory.set (sys.stack.index - 1) 0
              index := sys.stack.index - 1 }
            programCounter :=
              (sys.stack.memory.getD (sys.stack.index - 1) 0 + 2) % 65536 })) ∧
    (sys.stack.index = 0 →
      execOpcode env sys 0x00EE = (Res.error Err.stackEmpty, { sys with opcode := 0x00EE })) := by
  constructor
  · intro hpos hle
    have h0 : sys.stack.index ≠ 0 := by omega
    have hlt : sys.stack.index - 1 < sys.stack.memory.length := by omega
    constructor
    · simp [Stack.peek, h0, hlt]
    · unfold execOpcode
      rw [parse_class0 env _ (by show (0x00EE : Nat) / 4096 % 16 = 0; decide)]
      simp [switch0, Stack.pop, h0, hlt, System.incrementPC]
  · intro h0
    unfold execOpcode
    rw [parse_class0 env _ (by show (0x00EE : Nat) / 4096 % 16 = 0; decide)]
    simp [switch0, Stack.pop, h0]

/-- Witness for C18 (as amended): the stack holds 0x200 and 0x300; RET leaves PC = 0x302. -/
theorem ret_resumes_after_popped_address_witness :
    (0 < machineReturning.stack.index ∧
      machineReturning.stack.index ≤ machineReturning.stack.memory.length) ∧
    machineReturning.stack.peek.1
      = Res.ok (machineReturning.stack.memory.getD (machineReturning.stack.index - 1) 0) ∧
    execOpcode quietEnv machineReturning 0x00EE
      = (Res.ok (), { machineReturning with
          opcode := 0x00EE
          stack := { machineReturning.stack with
            memory := machineReturning.stack.memory.set (machineReturning.stack.index - 1) 0
            index := machineReturning.stack.index - 1 }
          programCounter :=
            (machineReturning.stack.memory.getD (machineReturning.stack.index - 1) 0 + 2)
              % 65536 }) :=
  ⟨by decide,
    ((ret_resumes_after_popped_address quietEnv machineReturning).1 (by decide) (by decide)).1,
    ((ret_resumes_after_popped_address quietEnv machineReturning).1 (by decide) (by decide)).2⟩

/-- C18 fails as stated: with 0x300 on top of the stack, RET succeeds and leaves
PC = 0x302, not the popped address 0x300. -/
theorem ret_lands_past_popped_address :
    machineReturning.stack.peek.1 = Res.ok 0x300 ∧
    (execOpcode quietEnv machineReturning 0x00EE).1 = Res.ok () ∧
    (execOpcode quietEnv machineReturning 0x00EE).2.programCounter = 0x302 ∧
    (execOpcode quietEnv machineReturning 0x00EE).2.programCounter ≠ 0x300 := by
  decide

/-- C20: for every machine state with PC = p whose stack is not full
(index < capacity <= len(memory), slots at positions >= index zero) and every 12-bit
address nnn: 2nnn (CALL) succeeds, sets PC = nnn and makes p the top of the stack; 00EE
(RET) executed immediately afterwards succeeds and leaves PC = p + 2 (in 16-bit
arithmetic) with the stack, registers, memory, I and every other field exactly as before
the CALL.  When the stack is full (index = capacity), CALL returns the stack-full error and
leaves PC, the stack and every other field unchanged. -/
theorem call_then_ret_resumes_after_call (env : Env) (sys : System) (nnn : Nat)
    (hnnn : nnn < 4096) :
    (sys.stack.index < sys.stack.capacity → sys.stack.capacity ≤ sys.stack.memory.length →
      (∀ i, sys.stack.index ≤ i → i < sys.stack.memory.length → sys.stack.memory.getD i 0 = 0) →
      execOpcode env sys (0x2000 + nnn)
        = (Res.ok (), { sys with
            opcode := 0x2000 + nnn
            stack := { sys.stack with
              memory := sys.stack.memory.set sys.stack.index sys.programCounter
              index := sys.stack.index + 1 }
            programCounter := nnn }) ∧
      (execOpcode env sys (0x2000 + nnn)).2.stack.peek.1 = Res.ok sys.programCounter ∧
      execOpcode env (execOpcode env sys (0x2000 + nnn)).2 0x00EE
        = (Res.ok (), { sys with
            opcode := 0x00EE
            programCounter := (sys.programCounter + 2) % 65536 }) ∧
      (sys.programCounter + 2 < 65536 →
        (execOpcode env (execOpcode env sys (0x2000 + nnn)).2 0x00EE).2.programCounter
          = sys.programCounter + 2)) ∧
    (sys.stack.index = sys.stack.capacity →
      execOpcode env sys (0x2000 + nnn)
        = (Res.error Err.stackFull, { sys with opcode := 0x2000 + nnn })) := by
  have hc : (0x2000 + nnn) / 4096 % 16 = 2 := by omega
  have hn : (0x2000 + nnn) % 4096 = nnn := by omega
  constructor
  · intro hidx hcap hzero
    have hlt : sys.stack.index < sys.stack.memory.length := by omega
    have hne : sys.stack.index ≠ sys.stack.capacity := by omega
    have hcall : execOpcode env sys (0x2000 + nnn)
        = (Res.ok (), { sys with
            opcode := 0x2000 + nnn
            stack := { sys.stack with
              memory := sys.stack.memory.set sys.stack.index sys.programCounter
              index := sys.stack.index + 1 }
            programCounter := nnn }) := by
      unfold execOpcode
      rw [parse_class2 env _ hc]
      simp [call, hn, push_ok sys.stack sys.programCounter hne hlt]
    have hret : execOpcode env (execOpcode env sys (0x2000 + nnn)).2 0x00EE
        = (Res.ok (), { sys with
            opcode := 0x00EE
            programCounter := (sys.programCounter + 2) % 65536 }) := by
      rw [hcall]
      unfold execOpcode
      rw [parse_class0 env _ (by show (0x00EE : Nat) / 4096 % 16 = 0; decide)]
      simp [switch0, System.incrementPC,
        pop_after_push sys.stack sys.programCounter hlt (hzero sys.stack.index (Nat.le_refl _) hlt)]
    refine ⟨hcall, ?_, hret, ?_⟩
    · rw [hcall]
      simp [Stack.peek, List.getD_eq_getElem?_getD, List.getElem?_set, hlt]
    · intro hpc
      rw [hret]
      exact Nat.mod_eq_of_lt hpc
  · intro hfull
    unfold execOpcode
    rw [parse_class2 env _ hc]
    simp [call, Stack.push, hfull]

/-- Witness for C20: CALL 0x345 (0x2345) then RET on a machine with PC = 0x200 and an empty
stack of capacity 3. -/
theorem call_then_ret_resumes_after_call_witness :
    (machineCalling.stack.index < machineCalling.stack.capacity ∧
      machineCalling.stack.capacity ≤ machineCalling.stack.memory.length ∧
      machineCalling.programCounter + 2 < 65536) ∧
    (execOpcode quietEnv machineCalling (0x2000 + 0x345)).2.stack.peek.1
      = Res.ok machineCalling.programCounter ∧
    (execOpcode quietEnv (execOpcode quietEnv machineCalling (0x2000 + 0x345)).2
        0x00EE).2.programCounter = machineCalling.programCounter + 2 :=
  have h := (call_then_ret_resumes_after_call quietEnv machineCalling 0x345 (by decide)).1
    (by decide) (by decide) (by decide)
  ⟨by decide, h.2.1, h.2.2.2 (by decide)⟩

/-! ## Unknown opcodes -/

/-- Case analysis on the outer switch of `parseInstruction` by the class digit of the
opcode word. -/
theorem parse_cases_class (P : Res Unit × System → Prop) (env : Env) (sys : System)
    (hok : ∀ s, sys.opcode / 4096 % 16 ∈ [1, 3, 4, 5, 6, 7, 9, 10, 11, 12] → P (Res.ok (), s))
    (h0 : sys.opcode / 4096 % 16 = 0 → P (switch0 env sys.opcode sys))
    (h2 : sys.opcode / 4096 % 16 = 2 → P (call (sys.opcode % 4096) sys))
    (h8 : sys.opcode / 4096 % 16 = 8 →
      P (switch8 sys.opcode (sys.opcode / 256 % 16) (sys.opcode / 16 % 16) sys))
    (hD : sys.opcode / 4096 % 16 = 13 →
      P (thenAdvance (drawRows env (sys.opcode / 256 % 16) (sys.opcode / 16 % 16)
        (List.range (sys.opcode % 16)) (sys.setReg 0xF 0))))
    (hE : sys.opcode / 4096 % 16 = 14 → P (switchE sys.opcode (sys.opcode / 256 % 16) sys))
    (hF : sys.opcode / 4096 % 16 = 15 → P (switchF env sys.opcode (sys.opcode / 256 % 16) sys)) :
    P (parseInstruction env sys) := by
  have hlt : sys.opcode / 4096 % 16 < 16 := Nat.mod_lt _ (by decide)
  unfold parseInstruction
  simp only [mask_class, mask_x, mask_y, mask_n, mask_nnn]
  by_cases c0 : 4096 * (sys.opcode / 4096 % 16) = 0x0
  · rw [if_pos c0]
    exact h0 (by omega)
  rw [if_neg c0]
  by_cases c1 : 4096 * (sys.opcode / 4096 % 16) = 0x1000
  · rw [if_pos c1]
    exact hok _ (by rw [show sys.opcode / 4096 % 16 = 1 by omega]; decide)
  rw [if_neg c1]
  by_cases c2 : 4096 * (sys.opcode / 4096 % 16) = 0x2000
  · rw [if_pos c2]
    exact h2 (by omega)
  rw [if_neg c2]
  by_cases c3 : 4096 * (sys.opcode / 4096 % 16) = 0x3000
  · rw [if_pos c3]
    split <;> exact hok _ (by rw [show sys.opcode / 4096 % 16 = 3 by omega]; decide)
  rw [if_neg c3]
  by_cases c4 : 4096 * (sys.opcode / 4096 % 16) = 0x4000
  · rw [if_pos c4]
    split <;> exact hok _ (by rw [show sys.opcode / 4096 % 16 = 4 by omega]; decide)
  rw [if_neg c4]
  by_cases c5 : 4096 * (sys.opcode / 4096 % 16) = 0x5000
  · rw [if_pos c5]
    split <;> exact hok _ (by rw [show sys.opcode / 4096 % 16 = 5 by omega]; decide)
  rw [if_neg c5]
  by_cases c6 : 4096 * (sys.opcode / 4096 % 16) = 0x6000
  · rw [if_pos c6]
    exact hok _ (by rw [show sys.opcode / 4096 % 16 = 6 by omega]; decide)
  rw [if_neg c6]
  by_cases c7 : 4096 * (sys.opcode / 4096 % 16) = 0x7000
  · rw [if_pos c7]
    exact hok _ (by rw [show sys.opcode / 4096 % 16 = 7 by omega]; decide)
  rw [if_neg c7]
  by_cases c8 : 4096 * (sys.opcode / 4096 % 16) = 0x8000
  · rw [if_pos c8]
    exact h8 (by omega)
  rw [if_neg c8]
  by_cases c9 : 4096 * (sys.opcode / 4096 % 16) = 0x9000
  · rw [if_pos c9]
    split <;> exact hok _ (by rw [show sys.opcode / 4096 % 16 = 9 by omega]; decide)
  rw [if_neg c9]
  by_cases c10 : 4096 * (sys.opcode / 4096 % 16) = 0xa000
  · rw [if_pos c10]
    exact hok _ (by rw [show sys.opcode / 4096 % 16 = 10 by omega]; decide)
  rw [if_neg c10]
  by_cases c11 : 4096 * (sys.opcode / 4096 % 16) = 0xb000
  · rw [if_pos c11]
    exact hok _ (by rw [show sys.opcode / 4096 % 16 = 11 by omega]; decide)
  rw [if_neg c11]
  by_cases c12 : 4096 * (sys.opcode / 4096 % 16) = 0xc000
  · rw [if_pos c12]
    exact hok _ (by rw [show sys.opcode / 4096 % 16 = 12 by omega]; decide)
  rw [if_neg c12]
  by_cases c13 : 4096 * (sys.opcode / 4096 % 16) = 0xd000
  · rw [if_pos c13]
    exact hD (by omega)
  rw [if_neg c13]
  by_cases c14 : 4096 * (sys.opcode / 4096 % 16) = 0xe000
  · rw [if_pos c14]
    exact hE (by omega)
  rw [if_neg c14]
  by_cases c15 : 4096 * (sys.opcode / 4096 % 16) = 0xf000
  · rw [if_pos c15]
    exact hF (by omega)
  rw [if_neg c15]
  omega

theorem unrecognised_iff (op : Nat) (h : op < 65536) :
    UnrecognisedWord op ↔
      (op / 4096 % 16 = 0 ∧ op ≠ 0x00E0 ∧ op ≠ 0x00EE ∧ op ≠ 0x0000 ∧ op ≠ 0x0A00) ∨
      (op / 4096 % 16 = 8 ∧ (op % 16 = 8 ∨ op % 16 = 9 ∨ op % 16 = 10 ∨ op % 16 = 11 ∨
        op % 16 = 12 ∨ op % 16 = 13 ∨ op % 16 = 15)) ∨
      (op / 4096 % 16 = 14 ∧ op % 256 ≠ 0x9E ∧ op % 256 ≠ 0xA1) ∨
      (op / 4096 % 16 = 15 ∧ op % 256 ≠ 0x07 ∧ op % 256 ≠ 0x0A ∧ op % 256 ≠ 0x15 ∧
        op % 256 ≠ 0x18 ∧ op % 256 ≠ 0x1E ∧ op % 256 ≠ 0x29 ∧ op % 256 ≠ 0x33 ∧
        op % 256 ≠ 0x55 ∧ op % 256 ≠ 0x65) := by
  unfold UnrecognisedWord
  simp only [List.mem_cons, List.mem_singleton, List.not_mem_nil, or_false, not_or]
  omega

theorem dc_not_invalid (sys : System) (r : Res Unit × System)
    (hU : ¬ UnrecognisedWord sys.opcode) (hr : NotInvalid r.1) : DecodeContract sys r :=
  ⟨⟨fun ⟨w, hw⟩ => absurd hw (hr w), fun h => absurd h hU⟩, fun h => absurd h hU⟩

theorem dc_invalid (sys : System) (hU : UnrecognisedWord sys.opcode) :
    DecodeContract sys (Res.error (Err.invalidOperation sys.opcode), sys) :=
  ⟨⟨fun _ => hU, fun _ => ⟨sys.opcode, rfl⟩⟩, fun _ => rfl⟩

theorem notInvalid_ok : NotInvalid (Res.ok ()) := by
  intro w h; simp at h

theorem notInvalid_hang : NotInvalid (Res.hang : Res Unit) := by
  intro w h; simp at h

theorem notInvalid_fault (f : Fault) : NotInvalid (Res.fault f : Res Unit) := by
  intro w h; simp at h

theorem notInvalid_of_drawRes (r : Res Unit) (h : DrawRes r) : NotInvalid r := by
  rcases h with h | h | h <;> rw [h]
  · exact notInvalid_ok
  · exact notInvalid_fault _
  · exact notInvalid_fault _

theorem notInvalid_of_memRes (r : Res Unit) (h : MemRes r) : NotInvalid r := by
  rcases h with h | h <;> rw [h]
  · exact notInvalid_ok
  · exact notInvalid_fault _

theorem notInvalid_consumeKey (x : Nat) (skip : Bool) (sys : System) :
    NotInvalid (consumeKey x skip sys).1 := by
  rcases consumeKey_res x skip sys with h | h <;> rw [h]
  · exact notInvalid_ok
  · exact notInvalid_fault _

theorem notInvalid_waitKey (env : Env) (x : Nat) (sys : System) :
    NotInvalid (waitKey env x sys).1 := by
  unfold waitKey
  cases env.events with
  | nil => exact notInvalid_hang
  | cons ev rest =>
    simp only
    by_cases hk : ev.isKey = true
    · rw [if_pos hk]
      cases env.INPUT_MAP ev.ch with
      | none => exact notInvalid_hang
      | some val => exact notInvalid_ok
    · rw [if_neg hk]
      exact notInvalid_hang

theorem dc_switch0 (env : Env) (sys : System) (hop : sys.opcode < 65536)
    (hc : sys.opcode / 4096 % 16 = 0) : DecodeContract sys (switch0 env sys.opcode sys) := by
  unfold switch0
  by_cases c1 : sys.opcode = 0x00E0
  · rw [if_pos c1]
    apply dc_not_invalid sys _ (by rw [unrecognised_iff _ hop]; omega)
    simp only []
    split
    · intro w h; simp at h
    · exact notInvalid_ok
  rw [if_neg c1]
  by_cases c2 : sys.opcode = 0x00EE
  · rw [if_pos c2]
    apply dc_not_invalid sys _ (by rw [unrecognised_iff _ hop]; omega)
    rcases pop_cases sys.stack with h | ⟨a, s, h⟩ | ⟨h, -⟩
    · rw [h]; intro w hw; simp at hw
    · rw [h]; exact notInvalid_ok
    · cases hq : sys.stack.pop with
      | mk r s =>
        rw [hq] at h
        simp only at h
        subst h
        exact notInvalid_fault _
  rw [if_neg c2]
  by_cases c3 : sys.opcode = 0x0A00 ∨ sys.opcode = 0x0000
  · rw [if_pos c3]
    exact dc_not_invalid sys _ (by rw [unrecognised_iff _ hop]; omega) notInvalid_ok
  rw [if_neg c3]
  exact dc_invalid sys (by rw [unrecognised_iff _ hop]; omega)

theorem dc_call (nnn : Nat) (sys : System) (hop : sys.opcode < 65536)
    (hc : sys.opcode / 4096 % 16 = 2) : DecodeContract sys (call nnn sys) := by
  apply dc_not_invalid sys _ (by rw [unrecognised_iff _ hop]; omega)
  unfold call
  rcases push_cases sys.stack sys.programCounter with ⟨s, h⟩ | h | h
  · rw [h]; exact notInvalid_ok
  · rw [h]; intro w hw; simp at hw
  · rw [h]; exact notInvalid_fault _

theorem dc_switch8 (x y : Nat) (sys : System) (hop : sys.opcode < 65536)
    (hc : sys.opcode / 4096 % 16 = 8) : DecodeContract sys (switch8 sys.opcode x y sys) := by
  unfold switch8
  simp only [mask_n]
  by_cases c0 : sys.opcode % 16 = 0x0
  · rw [if_pos c0]
    exact dc_not_invalid sys _ (by rw [unrecognised_iff _ hop]; omega) notInvalid_ok
  rw [if_neg c0]
  by_cases c1 : sys.opcode % 16 = 0x1
  · rw [if_pos c1]
    exact dc_not_invalid sys _ (by rw [unrecognised_iff _ hop]; omega) notInvalid_ok
  rw [if_neg c1]
  by_cases c2 : sys.opcode % 16 = 0x2
  · rw [if_pos c2]
    exact dc_not_invalid sys _ (by rw [unrecognised_iff _ hop]; omega) notInvalid_ok
  rw [if_neg c2]
  by_cases c3 : sys.opcode % 16 = 0x3
  · rw [if_pos c3]
    exact dc_not_invalid sys _ (by rw [unrecognised_iff _ hop]; omega) notInvalid_ok
  rw [if_neg c3]
  by_cases c4 : sys.opcode % 16 = 0x4
  · rw [if_pos c4]
    exact dc_not_invalid sys _ (by rw [unrecognised_iff _ hop]; omega) notInvalid_ok
  rw [if_neg c4]
  by_cases c5 : sys.opcode % 16 = 0x5
  · rw [if_pos c5]
    exact dc_not_invalid sys _ (by rw [unrecognised_iff _ hop]; omega) notInvalid_ok
  rw [if_neg c5]
  by_cases c6 : sys.opcode % 16 = 0x6
  · rw [if_pos c6]
    exact dc_not_invalid sys _ (by rw [unrecognised_iff _ hop]; omega) notInvalid_ok
  rw [if_neg c6]
  by_cases c7 : sys.opcode % 16 = 0x7
  · rw [if_pos c7]
    exact dc_not_invalid sys _ (by rw [unrecognised_iff _ hop]; omega) notInvalid_ok
  rw [if_neg c7]
  by_cases c14 : sys.opcode % 16 = 0xe
  · rw [if_pos c14]
    exact dc_not_invalid sys _ (by rw [unrecognised_iff _ hop]; omega) notInvalid_ok
  rw [if_neg c14]
  exact dc_invalid sys (by rw [unrecognised_iff _ hop]; omega)

theorem dc_switchE (x : Nat) (sys : System) (hop : sys.opcode < 65536)
    (hc : sys.opcode / 4096 % 16 = 14) : DecodeContract sys (switchE sys.opcode x sys) := by
  unfold switchE
  simp only [mask_kk]
  by_cases c1 : sys.opcode % 256 = 0x009E
  · rw [if_pos c1]
    apply dc_not_invalid sys _ (by rw [unrecognised_iff _ hop]; omega)
    split
    · split
      · exact notInvalid_consumeKey _ _ _
      · exact notInvalid_ok
    · exact notInvalid_fault _
  rw [if_neg c1]
  by_cases c2 : sys.opcode % 256 = 0x00A1
  · rw [if_pos c2]
    apply dc_not_invalid sys _ (by rw [unrecognised_iff _ hop]; omega)
    split
    · split
      · exact notInvalid_consumeKey _ _ _
      · exact notInvalid_ok
    · exact notInvalid_fault _
  rw [if_neg c2]
  exact dc_invalid sys (by rw [unrecognised_iff _ hop]; omega)

theorem dc_switchF (env : Env) (x : Nat) (sys : System) (hop : sys.opcode < 65536)
    (hc : sys.opcode / 4096 % 16 = 15) : DecodeContract sys (switchF env sys.opcode x sys) := by
  unfold switchF
  simp only [mask_kk]
  by_cases c0 : sys.opcode % 256 = 0x0007
  · rw [if_pos c0]
    exact dc_not_invalid sys _ (by rw [unrecognised_iff _ hop]; omega) notInvalid_ok
  rw [if_neg c0]
  by_cases c1 : sys.opcode % 256 = 0x000A
  · rw [if_pos c1]
    exact dc_not_invalid sys _ (by rw [unrecognised_iff _ hop]; omega) (notInvalid_waitKey _ _ _)
  rw [if_neg c1]
  by_cases c2 : sys.opcode % 256 = 0x0015
  · rw [if_pos c2]
    exact dc_not_invalid sys _ (by rw [unrecognised_iff _ hop]; omega) notInvalid_ok
  rw [if_neg c2]
  by_cases c3 : sys.opcode % 256 = 0x0018
  · rw [if_pos c3]
    exact dc_not_invalid sys _ (by rw [unrecognised_iff _ hop]; omega) notInvalid_ok
  rw [if_neg c3]
  by_cases c4 : sys.opcode % 256 = 0x001E
  · rw [if_pos c4]
    exact dc_not_invalid sys _ (by rw [unrecognised_iff _ hop]; omega) notInvalid_ok
  rw [if_neg c4]
  by_cases c5 : sys.opcode % 256 = 0x0029
  · rw [if_pos c5]
    exact dc_not_invalid sys _ (by rw [unrecognised_iff _ hop]; omega) notInvalid_ok
  rw [if_neg c5]
  by_cases c6 : sys.opcode % 256 = 0x0033
  · rw [if_pos c6]
    exact dc_not_invalid sys _ (by rw [unrecognised_iff _ hop]; omega) (by rw [thenAdvance_fst]; exact notInvalid_of_memRes _ (storeBCD_res _ _))
  rw [if_neg c6]
  by_cases c7 : sys.opcode % 256 = 0x0055
  · rw [if_pos c7]
    exact dc_not_invalid sys _ (by rw [unrecognised_iff _ hop]; omega) (by rw [thenAdvance_fst]; exact notInvalid_of_memRes _ (storeRegisters_res _ _))
  rw [if_neg c7]
  by_cases c8 : sys.opcode % 256 = 0x0065
  · rw [if_pos c8]
    exact dc_not_invalid sys _ (by rw [unrecognised_iff _ hop]; omega) (by rw [thenAdvance_fst]; exact notInvalid_of_memRes _ (loadRegisters_res _ _))
  rw [if_neg c8]
  exact dc_invalid sys (by rw [unrecognised_iff _ hop]; omega)

theorem dc_parse (env : Env) (sys : System) (hop : sys.opcode < 65536) :
    DecodeContract sys (parseInstruction env sys) :=
  parse_cases_class (DecodeContract sys) env sys
    (fun s hmem => dc_not_invalid sys _
      (by
        rw [unrecognised_iff _ hop]
        simp only [List.mem_cons, List.mem_singleton, List.not_mem_nil, or_false] at hmem
        omega)
      notInvalid_ok)
    (fun h => dc_switch0 env sys hop h)
    (fun h => dc_call _ sys hop h)
    (fun h => dc_switch8 _ _ sys hop h)
    (fun h => dc_not_invalid sys _ (by rw [unrecognised_iff _ hop]; omega)
      (by rw [thenAdvance_fst]; exact notInvalid_of_drawRes _ (drawRows_res env _ _ _ _)))
    (fun h => dc_switchE _ sys hop h)
    (fun h => dc_switchF env _ sys hop h)

/-- C11: for every machine state and every 16-bit opcode word, `parseInstruction` returns
an Invalid-operation error if and only if the word is unrecognised (0nnn other than 00E0,
00EE, 0000, 0A00; 8xyN with N in {8,9,A,B,C,D,F}; Exkk with kk not in {9E, A1}; Fxkk with
kk not in {07, 0A, 15, 18, 1E, 29, 33, 55, 65}); in that case the error names the word and
the whole machine state (registers, memory, I, PC, stack, display, timers, keys) is
unchanged. -/
theorem invalid_operation_iff_unrecognised (env : Env) (sys : System)
    (hop : sys.opcode < 65536) :
    ((∃ w, (parseInstruction env sys).1 = Res.error (Err.invalidOperation w))
      ↔ UnrecognisedWord sys.opcode) ∧
    (UnrecognisedWord sys.opcode →
      parseInstruction env sys = (Res.error (Err.invalidOperation sys.opcode), sys)) :=
  dc_parse env sys hop

/-- Witness for C11: the word 0x8008 (class 8, N = 8) is unrecognised and returns Invalid
operation with the machine unchanged. -/
theorem invalid_operation_iff_unrecognised_witness :
    ({ machineWith regsCarry 0 with opcode := 0x8008 } : System).opcode < 65536 ∧
    UnrecognisedWord ({ machineWith regsCarry 0 with opcode := 0x8008 } : System).opcode ∧
    parseInstruction quietEnv { machineWith regsCarry 0 with opcode := 0x8008 }
      = (Res.error (Err.invalidOperation
          ({ machineWith regsCarry 0 with opcode := 0x8008 } : System).opcode),
        { machineWith regsCarry 0 with opcode := 0x8008 }) :=
  ⟨by decide, by unfold UnrecognisedWord; decide,
    (invalid_operation_iff_unrecognised quietEnv
      { machineWith regsCarry 0 with opcode := 0x8008 } (by decide)).2
      (by unfold UnrecognisedWord; decide)⟩

/-! ## Fx0A: waiting for a key -/

theorem waitKeyIter_unrecognised (env : Env) (x : Nat) (ev : Event) (sys : System)
    (h : ev.isKey = false ∨ env.INPUT_MAP ev.ch = none) :
    ∀ fuel, waitKeyIter env x ev fuel sys = none := by
  intro fuel
  induction fuel with
  | zero => rfl
  | succ n ih =>
    rw [waitKeyIter]
    rcases h with h | h
    · simp [h, ih]
    · by_cases hk : ev.isKey = true
      · simp [hk, h, ih]
      · simp [hk, ih]

theorem waitKey_hangs_iff (env : Env) (x : Nat) (ev : Event) (rest : List Event)
    (sys : System) (hev : env.events = ev :: rest) :
    (waitKey env x sys).1 = Res.hang ↔ ∀ fuel, waitKeyIter env x ev fuel sys = none := by
  unfold waitKey
  rw [hev]
  simp only
  by_cases hk : ev.isKey = true
  · rw [if_pos hk]
    cases hm : env.INPUT_MAP ev.ch with
    | none =>
      simp only [true_iff]
      exact waitKeyIter_unrecognised env x ev sys (Or.inr hm)
    | some val =>
      constructor
      · intro h
        simp at h
      · intro h
        have h1 := h 1
        simp [waitKeyIter, hk, hm] at h1
  · rw [if_neg hk]
    simp only [true_iff]
    exact waitKeyIter_unrecognised env x ev sys (Or.inl (by simpa using hk))

/-- C19, evaluated on the code: the input delivers a non-key event and then the key 'a',
which the input map recognises.  LD V0,K (opcode 0xF00A) polls the first event only; its
loop tests that same event on every iteration, so for every amount of fuel the loop has
not been left, the call never returns, and V0 and PC keep their values. -/
theorem key_wait_never_polls_again :
    noisyEnv.events = [{ isKey := false, ch := 0 }, { isKey := true, ch := 97 }] ∧
    noisyEnv.INPUT_MAP 97 = some 0xA ∧
    (execOpcode noisyEnv (machineWith regsCarry 0) 0xF00A).1 = Res.hang ∧
    (∀ fuel, waitKeyIter noisyEnv 0 { isKey := false, ch := 0 } fuel
      { machineWith regsCarry 0 with opcode := 0xF00A } = none) ∧
    (execOpcode noisyEnv (machineWith regsCarry 0) 0xF00A).2.reg 0 = 200 ∧
    (execOpcode noisyEnv (machineWith regsCarry 0) 0xF00A).2.programCounter = 0x200 :=
  ⟨rfl, by decide, by decide,
    waitKeyIter_unrecognised noisyEnv 0 _ _ (Or.inl rfl), by decide, by decide⟩


/-! ## DRW: sprite drawing (C12, C13) -/

/-! ## DRW: pixels and the sprite bits -/

theorem bits_length (v : Nat) : (bits v).length = 8 := by
  simp [bits]

theorem bits_getD (v b : Nat) (hb : b < 8) : (bits v).getD b false = v.testBit (7 - b) := by
  unfold bits
  rw [List.getD_eq_getElem?_getD, List.getElem?_map, List.getElem?_range hb]
  rfl

theorem pixel_setPixel (s : System) (r c : Nat) (v : Bool) (hr : r < s.display.length)
    (hc : c < (s.display.getD r []).length) (r2 c2 : Nat) :
    (s.setPixel r c v).pixel r2 c2 = if r2 = r ∧ c2 = c then v else s.pixel r2 c2 := by
  unfold System.setPixel System.pixel
  simp only [List.getD_eq_getElem?_getD, List.getElem?_set]
  by_cases h1 : r = r2
  · subst h1
    simp only [hr, if_true, Option.getD_some, true_and]
    by_cases h2 : c = c2
    · subst h2
      simp only [List.getD_eq_getElem?_getD] at hc
      simp [hc]
    · have h2' : ¬ c2 = c := fun h => h2 h.symm
      simp [h2, h2']
  · have h1' : ¬ r2 = r := fun h => h1 h.symm
    simp [h1, h1']

theorem dispOK_setPixel (s : System) (r c : Nat) (v : Bool) (h : DispOK s) :
    DispOK (s.setPixel r c v) := by
  obtain ⟨h1, h2⟩ := h
  unfold System.setPixel
  refine ⟨by simp [h1], ?_⟩
  intro r2 hr2
  simp only [List.getD_eq_getElem?_getD, List.getElem?_set]
  by_cases hrr : r = r2
  · subst hrr
    have hlt : r < s.display.length := by rw [h1]; exact hr2
    have := h2 r hr2
    simp only [List.getD_eq_getElem?_getD, List.getElem?_eq_getElem hlt,
      Option.getD_some] at this
    simp [hlt, this]
  · have := h2 r2 hr2
    simp only [List.getD_eq_getElem?_getD] at this
    simp [hrr, this]

theorem dispOK_of_wf (sys : System) (hwf : sys.wf) : DispOK sys := by
  obtain ⟨-, -, -, -, -, -, -, -, hd1, hd2, -⟩ := hwf
  refine ⟨hd1, ?_⟩
  intro r hr
  have hlt : r < sys.display.length := by rw [hd1]; exact hr
  rw [List.getD_eq_getElem?_getD, List.getElem?_eq_getElem hlt]
  exact hd2 _ (List.getElem_mem _)

theorem drawStep_refl (s : System) (hd : DispOK s) : DrawStep s s :=
  ⟨rfl, rfl, rfl, fun _ _ => rfl, Or.inl rfl, hd⟩

theorem drawStep_trans (s t u : System) (h1 : DrawStep s t) (h2 : DrawStep t u) :
    DrawStep s u := by
  obtain ⟨a1, a2, a3, a4, a5, a6⟩ := h1
  obtain ⟨b1, b2, b3, b4, b5, b6⟩ := h2
  refine ⟨b1.trans a1, b2.trans a2, b3.trans a3, fun j hj => (b4 j hj).trans (a4 j hj), ?_, b6⟩
  rcases b5 with h | h
  · rw [h]; exact a5
  · exact Or.inr h

theorem drawPixel_facts (env : Env) (x yAdjusted : Nat) (toDrawBits : List Bool) (b : Nat)
    (s : System) (hterm : TerminalCovers env) (hd : DispOK s) (hy : yAdjusted < 32)
    (hlen : s.registers.length = 16) :
    ∃ s1, drawPixel env x yAdjusted toDrawBits b s = (Res.ok (), s1) ∧ DrawStep s s1 ∧
      (∀ r c, s1.pixel r c = if r = yAdjusted ∧ c = (s.reg x + b) % 64
        then (s.pixel r c != toDrawBits.getD b false) else s.pixel r c) ∧
      (s1.reg 0xF = 1 ↔ s.reg 0xF = 1 ∨
        (toDrawBits.getD b false = true ∧ s.pixel yAdjusted ((s.reg x + b) % 64) = true)) := by
  have hxa : (if (s.reg x + b) % 65536 ≥ DISPLAY_WIDTH
      then (s.reg x + b) % 65536 % DISPLAY_WIDTH else (s.reg x + b) % 65536)
      = (s.reg x + b) % 64 := by
    unfold DISPLAY_WIDTH
    split <;> omega
  have hcol : (s.reg x + b) % 64 < DISPLAY_WIDTH := by
    unfold DISPLAY_WIDTH; omega
  have hrow : yAdjusted < DISPLAY_HEIGHT := hy
  have hcell := hterm yAdjusted ((s.reg x + b) % 64) hrow hcol
  have hrl : yAdjusted < s.display.length := by rw [hd.1]; exact hrow
  have hcl : (s.reg x + b) % 64 < (s.display.getD yAdjusted []).length := by
    rw [hd.2 yAdjusted hrow]; exact hcol
  unfold drawPixel
  simp only [hxa]
  rw [if_pos hcell]
  by_cases hcoll : (toDrawBits.getD b false && s.pixel yAdjusted ((s.reg x + b) % 64)) = true
  · rw [if_pos hcoll]
    have hb1 : toDrawBits.getD b false = true := by
      simp only [Bool.and_eq_true] at hcoll; exact hcoll.1
    have hp1 : s.pixel yAdjusted ((s.reg x + b) % 64) = true := by
      simp only [Bool.and_eq_true] at hcoll; exact hcoll.2
    refine ⟨_, rfl, ?_, ?_, ?_⟩
    · refine ⟨rfl, rfl, ?_, ?_, ?_, ?_⟩
      · show (s.registers.set 0xF 1).length = _
        exact List.length_set _ _ _
      · intro j hj
        show (s.setReg 0xF 1).reg j = s.reg j
        exact reg_setReg_ne _ _ _ _ (Ne.symm hj)
      · right
        show (s.setReg 0xF 1).reg 0xF = 1
        exact reg_setReg_self _ _ _ (by omega)
      · exact dispOK_setPixel _ _ _ _ hd
    · intro r c
      rw [pixel_setPixel (s.setReg 0xF 1) _ _ _ hrl hcl]
      by_cases hrc : r = yAdjusted ∧ c = (s.reg x + b) % 64
      · rw [if_pos hrc, if_pos hrc, hrc.1, hrc.2]
        rfl
      · rw [if_neg hrc, if_neg hrc]
        rfl
    · constructor
      · intro _
        exact Or.inr ⟨hb1, hp1⟩
      · intro _
        show (s.setReg 0xF 1).reg 0xF = 1
        exact reg_setReg_self _ _ _ (by omega)
  · rw [if_neg hcoll]
    refine ⟨_, rfl, ?_, ?_, ?_⟩
    · exact ⟨rfl, rfl, rfl, fun _ _ => rfl, Or.inl rfl, dispOK_setPixel _ _ _ _ hd⟩
    · intro r c
      rw [pixel_setPixel _ _ _ _ hrl hcl]
      by_cases hrc : r = yAdjusted ∧ c = (s.reg x + b) % 64
      · rw [if_pos hrc, if_pos hrc, hrc.1, hrc.2]
      · rw [if_neg hrc, if_neg hrc]
    · constructor
      · intro h
        exact Or.inl h
      · intro h
        rcases h with h | ⟨h1, h2⟩
        · exact h
        · exact absurd (by rw [h1, h2]; rfl) hcoll

theorem drawRow_spec (env : Env) (x yAdjusted : Nat) (toDrawBits : List Bool)
    (hterm : TerminalCovers env) (hxF : x ≠ 0xF) (hy : yAdjusted < 32) (offs : List Nat) :
    ∀ s : System, DispOK s → s.registers.length = 16 → (∀ b ∈ offs, b < 8) → offs.Nodup →
    ∃ t, drawRow env x yAdjusted toDrawBits offs s = (Res.ok (), t) ∧ DrawStep s t ∧
      (∀ r c, (r = yAdjusted ∧ ∃ b ∈ offs, c = (s.reg x + b) % 64 ∧
          toDrawBits.getD b false = true) → t.pixel r c = !s.pixel r c) ∧
      (∀ r c, ¬ (r = yAdjusted ∧ ∃ b ∈ offs, c = (s.reg x + b) % 64 ∧
          toDrawBits.getD b false = true) → t.pixel r c = s.pixel r c) ∧
      (t.reg 0xF = 1 ↔ s.reg 0xF = 1 ∨ ∃ b ∈ offs, toDrawBits.getD b false = true ∧
          s.pixel yAdjusted ((s.reg x + b) % 64) = true) := by
  induction offs with
  | nil =>
    intro s hd _ _ _
    refine ⟨s, rfl, drawStep_refl s hd, ?_, ?_, ?_⟩
    · rintro r c ⟨-, b, hb, -⟩
      exact absurd hb (List.not_mem_nil _)
    · intro r c _
      rfl
    · constructor
      · intro h; exact Or.inl h
      · rintro (h | ⟨b, hb, -⟩)
        · exact h
        · exact absurd hb (List.not_mem_nil _)
  | cons b rest ih =>
    intro s hd hlen hlt hnd
    obtain ⟨s1, he1, hs1, hp1, hf1⟩ :=
      drawPixel_facts env x yAdjusted toDrawBits b s hterm hd hy hlen
    have hb8 : b < 8 := hlt b (List.mem_cons_self _ _)
    have hrest8 : ∀ b2 ∈ rest, b2 < 8 := fun b2 h2 => hlt b2 (List.mem_cons_of_mem _ h2)
    have hnotin : b ∉ rest := (List.nodup_cons.mp hnd).1
    have hx1 : s1.reg x = s.reg x := hs1.2.2.2.1 x hxF
    obtain ⟨t, he2, hs2, htog, hsame, hflag⟩ :=
      ih s1 hs1.2.2.2.2.2 (hs1.2.2.1.trans hlen) hrest8 (List.nodup_cons.mp hnd).2
    have hcolne : ∀ b2 ∈ rest, (s.reg x + b2) % 64 ≠ (s.reg x + b) % 64 := by
      intro b2 h2
      have h28 := hrest8 b2 h2
      have hne : b2 ≠ b := fun h => hnotin (h ▸ h2)
      omega
    refine ⟨t, ?_, drawStep_trans s s1 t hs1 hs2, ?_, ?_, ?_⟩
    · rw [drawRow, he1]
      exact he2
    · rintro r c ⟨hr, b2, hb2, hc, hbit⟩
      rcases List.mem_cons.mp hb2 with h | h
      · subst h
        have hnone : ¬ (r = yAdjusted ∧ ∃ b3 ∈ rest, c = (s1.reg x + b3) % 64 ∧
            toDrawBits.getD b3 false = true) := by
          rintro ⟨-, b3, hb3, hc3, -⟩
          rw [hx1] at hc3
          exact hcolne b3 hb3 (hc3.symm.trans hc)
        rw [hsame r c hnone, hp1 r c, if_pos ⟨hr, hc⟩, hbit]
        cases s.pixel r c <;> rfl
      · have hhit : r = yAdjusted ∧ ∃ b3 ∈ rest, c = (s1.reg x + b3) % 64 ∧
            toDrawBits.getD b3 false = true := ⟨hr, b2, h, by rw [hx1]; exact hc, hbit⟩
        rw [htog r c hhit, hp1 r c, if_neg]
        rintro ⟨-, hc2⟩
        exact hcolne b2 h (hc.symm.trans hc2)
    · intro r c hno
      have hnone : ¬ (r = yAdjusted ∧ ∃ b3 ∈ rest, c = (s1.reg x + b3) % 64 ∧
          toDrawBits.getD b3 false = true) := by
        rintro ⟨hr, b3, hb3, hc3, hbit3⟩
        rw [hx1] at hc3
        exact hno ⟨hr, b3, List.mem_cons_of_mem _ hb3, hc3, hbit3⟩
      rw [hsame r c hnone, hp1 r c]
      by_cases hrc : r = yAdjusted ∧ c = (s.reg x + b) % 64
      · rw [if_pos hrc]
        have hbit : toDrawBits.getD b false = false := by
          cases hb : toDrawBits.getD b false
          · rfl
          · exact absurd ⟨hrc.1, b, List.mem_cons_self _ _, hrc.2, hb⟩ hno
        rw [hbit]
        cases s.pixel r c <;> rfl
      · rw [if_neg hrc]
    · rw [hflag, hf1, hx1]
      constructor
      · rintro ((h | ⟨h1, h2⟩) | ⟨b3, hb3, hbit3, hpix3⟩)
        · exact Or.inl h
        · exact Or.inr ⟨b, List.mem_cons_self _ _, h1, h2⟩
        · refine Or.inr ⟨b3, List.mem_cons_of_mem _ hb3, hbit3, ?_⟩
          rw [hp1, if_neg] at hpix3
          · exact hpix3
          · rintro ⟨-, hc⟩
            exact hcolne b3 hb3 hc
      · rintro (h | ⟨b3, hb3, hbit3, hpix3⟩)
        · exact Or.inl (Or.inl h)
        · rcases List.mem_cons.mp hb3 with h | h
          · subst h
            exact Or.inl (Or.inr ⟨hbit3, hpix3⟩)
          · refine Or.inr ⟨b3, h, hbit3, ?_⟩
            rw [hp1, if_neg]
            · exact hpix3
            · rintro ⟨-, hc⟩
              exact hcolne b3 h hc

theorem drawnBit_of_drawStep (s t : System) (h : DrawStep s t) (row b : Nat) :
    drawnBit t row b = drawnBit s row b := by
  unfold drawnBit System.mem
  rw [h.1, h.2.1]

theorem drawRows_spec (env : Env) (x y : Nat) (hterm : TerminalCovers env)
    (hxF : x ≠ 0xF) (hyF : y ≠ 0xF) (rows : List Nat) :
    ∀ s : System, DispOK s → s.registers.length = 16 → s.memory.length = 4096 →
    (∀ row ∈ rows, row < 16 ∧ s.iregister + row < 4096) → rows.Nodup →
    ∃ t, drawRows env x y rows s = (Res.ok (), t) ∧ DrawStep s t ∧
      (∀ r c, (∃ row ∈ rows, ∃ b, b < 8 ∧ r = (s.reg y + row) % 32 ∧
          c = (s.reg x + b) % 64 ∧ drawnBit s row b = true) → t.pixel r c = !s.pixel r c) ∧
      (∀ r c, ¬ (∃ row ∈ rows, ∃ b, b < 8 ∧ r = (s.reg y + row) % 32 ∧
          c = (s.reg x + b) % 64 ∧ drawnBit s row b = true) → t.pixel r c = s.pixel r c) ∧
      (t.reg 0xF = 1 ↔ s.reg 0xF = 1 ∨ ∃ row ∈ rows, ∃ b, b < 8 ∧ drawnBit s row b = true ∧
          s.pixel ((s.reg y + row) % 32) ((s.reg x + b) % 64) = true) := by
  induction rows with
  | nil =>
    intro s hd _ _ _ _
    refine ⟨s, rfl, drawStep_refl s hd, ?_, ?_, ?_⟩
    · rintro r c ⟨row, hrow, -⟩
      exact absurd hrow (List.not_mem_nil _)
    · intro r c _
      rfl
    · constructor
      · intro h; exact Or.inl h
      · rintro (h | ⟨row, hrow, -⟩)
        · exact h
        · exact absurd hrow (List.not_mem_nil _)
  | cons row rest ih =>
    intro s hd hlen hmem hin hnd
    obtain ⟨hrow16, hrowI⟩ := hin row (List.mem_cons_self _ _)
    have hrest : ∀ r2 ∈ rest, r2 < 16 ∧ s.iregister + r2 < 4096 :=
      fun r2 h2 => hin r2 (List.mem_cons_of_mem _ h2)
    have hnotin : row ∉ rest := (List.nodup_cons.mp hnd).1
    have hya : (if (s.reg y + row) % 65536 ≥ DISPLAY_HEIGHT
        then (s.reg y + row) % 65536 % DISPLAY_HEIGHT else (s.reg y + row) % 65536)
        = (s.reg y + row) % 32 := by
      unfold DISPLAY_HEIGHT
      split <;> omega
    have haddr : (s.iregister + row) % 65536 = s.iregister + row := Nat.mod_eq_of_lt (by omega)
    obtain ⟨s1, he1, hs1, htog1, hsame1, hflag1⟩ :=
      drawRow_spec env x ((s.reg y + row) % 32) (bits (s.memory.getD (s.iregister + row) 0))
        hterm hxF (by omega) (List.range (bits (s.memory.getD (s.iregister + row) 0)).length)
        s hd hlen
        (by intro b hb; rw [bits_length, List.mem_range] at hb; exact hb)
        (List.nodup_range _)
    have hx1 : s1.reg x = s.reg x := hs1.2.2.2.1 x hxF
    have hy1 : s1.reg y = s.reg y := hs1.2.2.2.1 y hyF
    have hbit1 : ∀ r2 b, drawnBit s1 r2 b = drawnBit s r2 b := drawnBit_of_drawStep s s1 hs1
    obtain ⟨t, he2, hs2, htog, hsame, hflag⟩ :=
      ih s1 hs1.2.2.2.2.2 (hs1.2.2.1.trans hlen) (by rw [hs1.1]; exact hmem)
        (by intro r2 h2; rw [hs1.2.1]; exact hrest r2 h2) (List.nodup_cons.mp hnd).2
    simp only [hx1, hy1, hbit1] at htog hsame hflag
    have hrowne : ∀ r2 ∈ rest, (s.reg y + r2) % 32 ≠ (s.reg y + row) % 32 := by
      intro r2 h2
      have h216 := (hrest r2 h2).1
      have hne : r2 ≠ row := fun h => hnotin (h ▸ h2)
      omega
    have hfirst : ∀ r c, (∃ b, b < 8 ∧ r = (s.reg y + row) % 32 ∧ c = (s.reg x + b) % 64 ∧
        drawnBit s row b = true) → s1.pixel r c = !s.pixel r c := by
      rintro r c ⟨b, hb, hr, hc, hbit⟩
      exact htog1 r c ⟨hr, b, by rw [bits_length, List.mem_range]; exact hb, hc, hbit⟩
    have hfirstno : ∀ r c, ¬ (∃ b, b < 8 ∧ r = (s.reg y + row) % 32 ∧
        c = (s.reg x + b) % 64 ∧ drawnBit s row b = true) → s1.pixel r c = s.pixel r c := by
      intro r c hno
      apply hsame1 r c
      rintro ⟨hr, b, hb, hc, hbit⟩
      rw [bits_length, List.mem_range] at hb
      exact hno ⟨b, hb, hr, hc, hbit⟩
    have hotherrow : ∀ r2 ∈ rest, ∀ c, s1.pixel ((s.reg y + r2) % 32) c
        = s.pixel ((s.reg y + r2) % 32) c := by
      intro r2 h2 c
      apply hfirstno
      rintro ⟨b, -, hr, -⟩
      exact hrowne r2 h2 hr
    refine ⟨t, ?_, drawStep_trans s s1 t hs1 hs2, ?_, ?_, ?_⟩
    · rw [drawRows]
      simp only [hya, haddr]
      rw [if_pos (by rw [hmem]; exact hrowI), he1]
      exact he2
    · rintro r c ⟨r2, hr2, b, hb, hr, hc, hbit⟩
      rcases List.mem_cons.mp hr2 with h | h
      · subst h
        have hnone : ¬ (∃ r3 ∈ rest, ∃ b3, b3 < 8 ∧ r = (s.reg y + r3) % 32 ∧
            c = (s.reg x + b3) % 64 ∧ drawnBit s r3 b3 = true) := by
          rintro ⟨r3, hr3, b3, -, hr', -⟩
          exact hrowne r3 hr3 (hr'.symm.trans hr)
        rw [hsame r c hnone]
        exact hfirst r c ⟨b, hb, hr, hc, hbit⟩
      · rw [htog r c ⟨r2, h, b, hb, hr, hc, hbit⟩, hr, hotherrow r2 h c]
    · intro r c hno
      have hnone : ¬ (∃ r3 ∈ rest, ∃ b3, b3 < 8 ∧ r = (s.reg y + r3) % 32 ∧
          c = (s.reg x + b3) % 64 ∧ drawnBit s r3 b3 = true) := by
        rintro ⟨r3, hr3, rest3⟩
        exact hno ⟨r3, List.mem_cons_of_mem _ hr3, rest3⟩
      rw [hsame r c hnone]
      apply hfirstno
      rintro ⟨b, hb, hr, hc, hbit⟩
      exact hno ⟨row, List.mem_cons_self _ _, b, hb, hr, hc, hbit⟩
    · rw [hflag, hflag1]
      constructor
      · rintro ((h | ⟨b, hb, hbit, hpix⟩) | ⟨r3, hr3, b3, hb3, hbit3, hpix3⟩)
        · exact Or.inl h
        · rw [bits_length, List.mem_range] at hb
          exact Or.inr ⟨row, List.mem_cons_self _ _, b, hb, hbit, hpix⟩
        · rw [hotherrow r3 hr3] at hpix3
          exact Or.inr ⟨r3, List.mem_cons_of_mem _ hr3, b3, hb3, hbit3, hpix3⟩
      · rintro (h | ⟨r3, hr3, b3, hb3, hbit3, hpix3⟩)
        · exact Or.inl (Or.inl h)
        · rcases List.mem_cons.mp hr3 with h | h
          · subst h
            exact Or.inl (Or.inr ⟨b3, by rw [bits_length, List.mem_range]; exact hb3,
              hbit3, hpix3⟩)
          · refine Or.inr ⟨r3, h, b3, hb3, hbit3, ?_⟩
            rw [hotherrow r3 h]
            exact hpix3

theorem parse_classD (env : Env) (sys : System) (h : sys.opcode / 4096 % 16 = 13) :
    parseInstruction env sys
      = thenAdvance (drawRows env (sys.opcode / 256 % 16) (sys.opcode / 16 % 16)
          (List.range (sys.opcode % 16)) (sys.setReg 0xF 0)) := by
  unfold parseInstruction
  simp only [mask_class, mask_x, mask_y, mask_n, h]
  simp

theorem draw_core (env : Env) (t : System) (x y n : Nat) (hterm : TerminalCovers env)
    (hd : DispOK t) (hlen : t.registers.length = 16) (hmem : t.memory.length = 4096)
    (hx : x < 16) (hy : y < 16) (hn : n < 16) (hxF : x ≠ 0xF) (hyF : y ≠ 0xF)
    (hI : t.iregister + n ≤ 4096) (hop : t.opcode = 0xD000 + 0x100 * x + 0x10 * y + n) :
    ∃ u, parseInstruction env t = (Res.ok (), u) ∧
      u.memory = t.memory ∧ u.iregister = t.iregister ∧ u.registers.length = 16 ∧
      (∀ j, j ≠ 0xF → u.reg j = t.reg j) ∧ DispOK u ∧
      (∀ r c, LitAt t x y n r c → u.pixel r c = !t.pixel r c) ∧
      (∀ r c, ¬ LitAt t x y n r c → u.pixel r c = t.pixel r c) ∧
      (u.reg 0xF = 1 ↔ ∃ row, row < n ∧ ∃ b, b < 8 ∧ drawnBit t row b = true ∧
        t.pixel ((t.reg y + row) % 32) ((t.reg x + b) % 64) = true) ∧
      (u.reg 0xF = 0 ∨ u.reg 0xF = 1) := by
  have hxx : t.opcode / 256 % 16 = x := by rw [hop]; omega
  have hyy : t.opcode / 16 % 16 = y := by rw [hop]; omega
  have hnn : t.opcode % 16 = n := by rw [hop]; omega
  have hx0 : (t.setReg 0xF 0).reg x = t.reg x := reg_setReg_ne _ _ _ _ (Ne.symm hxF)
  have hy0 : (t.setReg 0xF 0).reg y = t.reg y := reg_setReg_ne _ _ _ _ (Ne.symm hyF)
  have hf0 : (t.setReg 0xF 0).reg 0xF = 0 := reg_setReg_self _ _ _ (by omega)
  have hp0 : ∀ r c, (t.setReg 0xF 0).pixel r c = t.pixel r c := fun _ _ => rfl
  have hb0 : ∀ row b, drawnBit (t.setReg 0xF 0) row b = drawnBit t row b := fun _ _ => rfl
  obtain ⟨u, he, hs, htog, hsame, hflag⟩ :=
    drawRows_spec env x y hterm hxF hyF (List.range n) (t.setReg 0xF 0) hd
      (by rw [length_setReg]; exact hlen) hmem
      (by
        intro row hrow
        rw [List.mem_range] at hrow
        exact ⟨by omega, by show t.iregister + row < 4096; omega⟩)
      (List.nodup_range n)
  simp only [hx0, hy0, hf0, hp0, hb0, List.mem_range] at htog hsame hflag
  refine ⟨u.incrementPC false, ?_, hs.1, hs.2.1, ?_, ?_, hs.2.2.2.2.2, ?_, ?_, ?_, ?_⟩
  · rw [parse_classD env t (by rw [hop]; omega), hxx, hyy, hnn, he]
    rfl
  · show u.registers.length = 16
    rw [hs.2.2.1, length_setReg]
    exact hlen
  · intro j hj
    show u.reg j = t.reg j
    rw [hs.2.2.2.1 j hj]
    exact reg_setReg_ne _ _ _ _ (Ne.symm hj)
  · intro r c hlit
    exact htog r c hlit
  · intro r c hno
    exact hsame r c hno
  · show u.reg 0xF = 1 ↔ _
    rw [hflag]
    constructor
    · rintro (h | h)
      · exact absurd h (by decide)
      · exact h
    · intro h
      exact Or.inr h
  · show u.reg 0xF = 0 ∨ u.reg 0xF = 1
    rcases hs.2.2.2.2.1 with h | h
    · left; rw [h, hf0]
    · right; exact h

theorem drawnBit_eq_spriteBit (s : System) (row b : Nat) (hb : b < 8) :
    drawnBit s row b = spriteBit s row b :=
  bits_getD _ b hb

theorem display_ext (a b : System) (ha : DispOK a) (hb : DispOK b)
    (h : ∀ r c, a.pixel r c = b.pixel r c) : a.display = b.display := by
  apply List.ext_getElem (ha.1.trans hb.1.symm)
  intro r h1 h2
  have hr : r < DISPLAY_HEIGHT := by rw [← ha.1]; exact h1
  have la := ha.2 r hr
  have lb := hb.2 r hr
  rw [List.getD_eq_getElem?_getD, List.getElem?_eq_getElem h1, Option.getD_some] at la
  rw [List.getD_eq_getElem?_getD, List.getElem?_eq_getElem h2, Option.getD_some] at lb
  apply List.ext_getElem (la.trans lb.symm)
  intro c hc1 hc2
  have hp := h r c
  unfold System.pixel at hp
  simp only [List.getD_eq_getElem?_getD, List.getElem?_eq_getElem h1,
    List.getElem?_eq_getElem h2, Option.getD_some, List.getElem?_eq_getElem hc1,
    List.getElem?_eq_getElem hc2] at hp
  exact hp

theorem quietEnv_covers : TerminalCovers quietEnv := by
  intro row col hr hc
  show (80 * row + col) % 65536 < 3200
  unfold DISPLAY_HEIGHT at hr
  unfold DISPLAY_WIDTH at hc
  rw [Nat.mod_eq_of_lt (by omega)]
  omega

/-! ## DRW on a terminal too small for the display -/

theorem drawPixel_fault (env : Env) (x yAdjusted : Nat) (toDrawBits : List Bool) (s : System)
    (hrx : s.reg x < 64) (hoff : s.pixel yAdjusted (s.reg x) = false)
    (hcell : ¬ ((env.termWidth % 65536) * yAdjusted + s.reg x) % 65536 < env.cellCount) :
    drawPixel env x yAdjusted toDrawBits 0 s
      = (Res.fault Fault.cellIndex,
          s.setPixel yAdjusted (s.reg x) (toDrawBits.getD 0 false)) := by
  have hxa : (if (s.reg x + 0) % 65536 ≥ DISPLAY_WIDTH
      then (s.reg x + 0) % 65536 % DISPLAY_WIDTH else (s.reg x + 0) % 65536) = s.reg x := by
    unfold DISPLAY_WIDTH
    split <;> omega
  unfold drawPixel
  simp only [hxa, hoff, Bool.and_false, Bool.false_eq_true, if_false, if_neg hcell]
  cases toDrawBits.getD 0 false <;> rfl

theorem drawRows_fault (env : Env) (x y : Nat) (rest : List Nat) (s : System)
    (hI : s.iregister < s.memory.length) (hI16 : s.iregister < 65536)
    (hry : s.reg y < 32) (hrx : s.reg x < 64)
    (hoff : s.pixel (s.reg y) (s.reg x) = false)
    (hcell : ¬ ((env.termWidth % 65536) * s.reg y + s.reg x) % 65536 < env.cellCount) :
    drawRows env x y (0 :: rest) s
      = (Res.fault Fault.cellIndex,
          s.setPixel (s.reg y) (s.reg x) ((s.mem s.iregister).testBit 7)) := by
  have hya : (if (s.reg y + 0) % 65536 ≥ DISPLAY_HEIGHT
      then (s.reg y + 0) % 65536 % DISPLAY_HEIGHT else (s.reg y + 0) % 65536) = s.reg y := by
    unfold DISPLAY_HEIGHT
    split <;> omega
  have haddr : (s.iregister + 0) % 65536 = s.iregister := Nat.mod_eq_of_lt (by omega)
  have hrange : List.range (bits (s.memory.getD s.iregister 0)).length
      = 0 :: List.map Nat.succ (List.range 7) := by
    rw [bits_length]
    exact List.range_succ_eq_map 7
  have hbit : (bits (s.memory.getD s.iregister 0)).getD 0 false
      = (s.mem s.iregister).testBit 7 := bits_getD _ 0 (by decide)
  rw [drawRows]
  simp only [hya, haddr, if_pos hI, hrange]
  rw [drawRow, drawPixel_fault env x (s.reg y) _ s hrx hoff hcell, hbit]

theorem draw_faults_at_first_cell (env : Env) (t : System) (x y n : Nat)
    (hx : x < 16) (hy : y < 16) (hn : n < 16) (hn0 : 0 < n)
    (hop : t.opcode = 0xD000 + 0x100 * x + 0x10 * y + n)
    (hI : t.iregister < t.memory.length) (hI16 : t.iregister < 65536)
    (hry : (t.setReg 0xF 0).reg y < 32) (hrx : (t.setReg 0xF 0).reg x < 64)
    (hoff : (t.setReg 0xF 0).pixel ((t.setReg 0xF 0).reg y) ((t.setReg 0xF 0).reg x) = false)
    (hcell : ¬ ((env.termWidth % 65536) * (t.setReg 0xF 0).reg y
      + (t.setReg 0xF 0).reg x) % 65536 < env.cellCount) :
    parseInstruction env t
      = (Res.fault Fault.cellIndex,
          (t.setReg 0xF 0).setPixel ((t.setReg 0xF 0).reg y) ((t.setReg 0xF 0).reg x)
            ((t.mem t.iregister).testBit 7)) := by
  have hclass : t.opcode / 4096 % 16 = 13 := by rw [hop]; omega
  have hxx : t.opcode / 256 % 16 = x := by rw [hop]; omega
  have hyy : t.opcode / 16 % 16 = y := by rw [hop]; omega
  have hnn : t.opcode % 16 = n := by rw [hop]; omega
  obtain ⟨m, hm⟩ : ∃ m, n = m + 1 := ⟨n - 1, by omega⟩
  rw [parse_classD env t hclass, hxx, hyy, hnn, hm, List.range_succ_eq_map,
    drawRows_fault env x y _ (t.setReg 0xF 0) hI hI16 hry hrx hoff hcell]
  rfl

/-! ## The sample sprite machine -/

theorem machineSprite_wf : machineSprite.wf := by
  have h := machineWith_wf regsWrap 0x300 (by decide) (by decide) (by decide)
  refine ⟨h.1, h.2.1, h.2.2.1, ?_, ?_, h.2.2.2.2.2⟩
  · show (((List.replicate 4096 0).set 0x300 0xFF).set 0x301 0x81).length = 4096
    rw [List.length_set, List.length_set, List.length_replicate]
  · intro b hb
    rcases List.mem_or_eq_of_mem_set hb with h1 | h1
    · rcases List.mem_or_eq_of_mem_set h1 with h2 | h2
      · rw [List.eq_of_mem_replicate h2]
        decide
      · rw [h2]
        decide
    · rw [h1]
      decide

theorem machineSprite_row0 : machineSprite.mem 0x300 = 0xFF := by
  show (((List.replicate 4096 0).set 0x300 0xFF).set 0x301 0x81).getD 0x300 0 = 0xFF
  rw [getD_set_ne _ 0x301 0x300 _ (by decide),
    getD_set_self _ _ _ (by rw [List.length_replicate]; decide)]

theorem machineSprite_row1 : machineSprite.mem 0x301 = 0x81 := by
  show (((List.replicate 4096 0).set 0x300 0xFF).set 0x301 0x81).getD 0x301 0 = 0x81
  rw [getD_set_self _ _ _ (by rw [List.length_set, List.length_replicate]; decide)]

theorem machineSprite_blank (r c : Nat) : machineSprite.pixel r c = false := by
  show ((List.replicate 32 (List.replicate 64 false)).getD r []).getD c false = false
  simp only [List.getD_eq_getElem?_getD, List.getElem?_replicate]
  split
  · simp only [Option.getD_some, List.getElem?_replicate]
    split <;> rfl
  · rfl

theorem machineSprite_bit00 : spriteBit machineSprite 0 0 = true := by
  show (machineSprite.mem 0x300).testBit 7 = true
  rw [machineSprite_row0]
  decide

theorem machineSprite_bit01 : spriteBit machineSprite 0 1 = true := by
  show (machineSprite.mem 0x300).testBit 6 = true
  rw [machineSprite_row0]
  decide

theorem machineSprite_bit11 : spriteBit machineSprite 1 1 = false := by
  show (machineSprite.mem 0x301).testBit 6 = false
  rw [machineSprite_row1]
  decide

theorem machineSprite_bit17 : spriteBit machineSprite 1 7 = true := by
  show (machineSprite.mem 0x301).testBit 0 = true
  rw [machineSprite_row1]
  decide

theorem machineSprite_small_terminal :
    execOpcode smallTerminal machineSprite 0xD012
      = (Res.fault Fault.cellIndex,
          (({ machineSprite with opcode := 0xD012 } : System).setReg 0xF 0).setPixel 30 60
            true) := by
  have h := draw_faults_at_first_cell smallTerminal
    ({ machineSprite with opcode := 0xD012 } : System) 0 1 2
    (by decide) (by decide) (by decide) (by decide) rfl
    (by
      show 0x300 < (((List.replicate 4096 0).set 0x300 0xFF).set 0x301 0x81).length
      rw [List.length_set, List.length_set, List.length_replicate]
      decide)
    (by show (0x300 : Nat) < 65536; decide)
    (by decide) (by decide) (machineSprite_blank _ _) (by decide)
  have hb : (({ machineSprite with opcode := 0xD012 } : System).mem
      ({ machineSprite with opcode := 0xD012 } : System).iregister).testBit 7 = true := by
    show (machineSprite.mem 0x300).testBit 7 = true
    rw [machineSprite_row0]
    decide
  rw [hb] at h
  exact h

theorem machineSprite_first_draw_lights :
    (execOpcode quietEnv machineSprite (0xD000 + 0x100 * 0 + 0x10 * 1 + 2)).2.pixel 30 60
      = true := by
  obtain ⟨u, he, -, -, -, -, -, htog, -⟩ :=
    draw_core quietEnv ({ machineSprite with opcode := 0xD000 + 0x100 * 0 + 0x10 * 1 + 2 } : System)
      0 1 2 quietEnv_covers (dispOK_of_wf machineSprite machineSprite_wf) machineSprite_wf.2.1
      machineSprite_wf.2.2.2.1 (by decide) (by decide) (by decide) (by decide) (by decide)
      (by decide) rfl
  have hexec : execOpcode quietEnv machineSprite (0xD000 + 0x100 * 0 + 0x10 * 1 + 2)
      = (Res.ok (), u) := he
  rw [hexec]
  have hl := htog 30 60 ⟨0, by decide, 0, by decide, rfl, rfl, by
    rw [drawnBit_eq_spriteBit _ _ _ (by decide)]
    exact machineSprite_bit00⟩
  rw [hl]
  show (!machineSprite.pixel 30 60) = true
  rw [machineSprite_blank]
  rfl

/-- C12: for every machine state with x and y other than 0xF and I + n <= 4096, on a
terminal whose cell buffer covers the display, executing Dxyn succeeds; for every row
r < n and bit position b < 8 (b = 0 the most significant bit of memory[I+r]) the pixel at
row (Vy + r) mod 32, column (Vx + b) mod 64 becomes its old value XOR that bit; every pixel
outside these positions is unchanged; and VF afterwards is 1 if and only if some set sprite
bit landed on a pixel that was on before the instruction, and 0 otherwise. -/
theorem draw_xors_sprite_and_flags_collision (env : Env) (sys : System) (x y n : Nat)
    (hwf : sys.wf) (hterm : TerminalCovers env) (hx : x < 16) (hy : y < 16) (hn : n < 16)
    (hxF : x ≠ 0xF) (hyF : y ≠ 0xF) (hI : sys.iregister + n ≤ 4096) :
    (execOpcode env sys (0xD000 + 0x100 * x + 0x10 * y + n)).1 = Res.ok () ∧
    (∀ row b, row < n → b < 8 →
      (execOpcode env sys (0xD000 + 0x100 * x + 0x10 * y + n)).2.pixel
          ((sys.reg y + row) % 32) ((sys.reg x + b) % 64)
        = (sys.pixel ((sys.reg y + row) % 32) ((sys.reg x + b) % 64) != spriteBit sys row b)) ∧
    (∀ r c, (¬ ∃ row b, row < n ∧ b < 8 ∧ r = (sys.reg y + row) % 32 ∧
        c = (sys.reg x + b) % 64) →
      (execOpcode env sys (0xD000 + 0x100 * x + 0x10 * y + n)).2.pixel r c = sys.pixel r c) ∧
    ((execOpcode env sys (0xD000 + 0x100 * x + 0x10 * y + n)).2.reg 0xF = 1 ↔
      ∃ row b, row < n ∧ b < 8 ∧ spriteBit sys row b = true ∧
        sys.pixel ((sys.reg y + row) % 32) ((sys.reg x + b) % 64) = true) ∧
    ((execOpcode env sys (0xD000 + 0x100 * x + 0x10 * y + n)).2.reg 0xF = 0 ∨
      (execOpcode env sys (0xD000 + 0x100 * x + 0x10 * y + n)).2.reg 0xF = 1) := by
  obtain ⟨u, he, -, -, -, -, -, htog, hsame, hflag, h01⟩ :=
    draw_core env { sys with opcode := 0xD000 + 0x100 * x + 0x10 * y + n } x y n hterm
      (dispOK_of_wf sys hwf) hwf.2.1 hwf.2.2.2.1 hx hy hn hxF hyF hI rfl
  have hexec : execOpcode env sys (0xD000 + 0x100 * x + 0x10 * y + n) = (Res.ok (), u) := he
  have htog2 : ∀ r c, LitAt sys x y n r c → u.pixel r c = !sys.pixel r c := htog
  have hsame2 : ∀ r c, ¬ LitAt sys x y n r c → u.pixel r c = sys.pixel r c := hsame
  have hflag2 : u.reg 0xF = 1 ↔ ∃ row, row < n ∧ ∃ b, b < 8 ∧ drawnBit sys row b = true ∧
      sys.pixel ((sys.reg y + row) % 32) ((sys.reg x + b) % 64) = true := hflag
  rw [hexec]
  refine ⟨rfl, ?_, ?_, ?_, h01⟩
  · intro row b hrow hb
    show u.pixel _ _ = _
    cases hbit : spriteBit sys row b
    · have hno : ¬ LitAt sys x y n ((sys.reg y + row) % 32) ((sys.reg x + b) % 64) := by
        rintro ⟨row2, hrow2, b2, hb2, hr, hc, hbit2⟩
        have e1 : row2 = row := by omega
        have e2 : b2 = b := by omega
        subst e1 e2
        rw [drawnBit_eq_spriteBit _ _ _ hb, hbit] at hbit2
        exact absurd hbit2 (by decide)
      rw [hsame2 _ _ hno]
      cases sys.pixel ((sys.reg y + row) % 32) ((sys.reg x + b) % 64) <;> rfl
    · have hyes : LitAt sys x y n ((sys.reg y + row) % 32) ((sys.reg x + b) % 64) :=
        ⟨row, hrow, b, hb, rfl, rfl, by rw [drawnBit_eq_spriteBit _ _ _ hb]; exact hbit⟩
      rw [htog2 _ _ hyes]
      cases sys.pixel ((sys.reg y + row) % 32) ((sys.reg x + b) % 64) <;> rfl
  · intro r c hno
    show u.pixel r c = _
    apply hsame2
    rintro ⟨row, hrow, b, hb, hr, hc, -⟩
    exact hno ⟨row, b, hrow, hb, hr, hc⟩
  · show u.reg 0xF = 1 ↔ _
    rw [hflag2]
    constructor
    · rintro ⟨row, hrow, b, hb, hbit, hpix⟩
      exact ⟨row, b, hrow, hb, by rw [← drawnBit_eq_spriteBit _ _ _ hb]; exact hbit, hpix⟩
    · rintro ⟨row, b, hrow, hb, hbit, hpix⟩
      exact ⟨row, hrow, b, hb, by rw [drawnBit_eq_spriteBit _ _ _ hb]; exact hbit, hpix⟩

/-- Witness for C12: V0 = 60, V1 = 30, n = 2 (opcode 0xD012) with sprite bytes 0xFF, 0x81 on
a blank display and an 80x40 terminal.  Row 0 bit 0 turns on row 30, column 60; row 1 bit 7
wraps to row 31, column 3 and turns it on; row 1 bit 1 is clear, so row 31, column 61 stays
off; row 29, column 60 lies outside the sprite; no collision, so VF = 0. -/
theorem draw_xors_sprite_and_flags_collision_witness :
    (execOpcode quietEnv machineSprite (0xD000 + 0x100 * 0 + 0x10 * 1 + 2)).1 = Res.ok () ∧
    (execOpcode quietEnv machineSprite (0xD000 + 0x100 * 0 + 0x10 * 1 + 2)).2.pixel 30 60
      = true ∧
    (execOpcode quietEnv machineSprite (0xD000 + 0x100 * 0 + 0x10 * 1 + 2)).2.pixel 31 3
      = true ∧
    (execOpcode quietEnv machineSprite (0xD000 + 0x100 * 0 + 0x10 * 1 + 2)).2.pixel 31 61
      = false ∧
    (execOpcode quietEnv machineSprite (0xD000 + 0x100 * 0 + 0x10 * 1 + 2)).2.pixel 29 60
      = false ∧
    (execOpcode quietEnv machineSprite (0xD000 + 0x100 * 0 + 0x10 * 1 + 2)).2.reg 0xF = 0 := by
  have h := draw_xors_sprite_and_flags_collision quietEnv machineSprite 0 1 2
    machineSprite_wf quietEnv_covers
    (by decide) (by decide) (by decide) (by decide) (by decide) (by decide)
  have p00 := h.2.1 0 0 (by decide) (by decide)
  have p17 := h.2.1 1 7 (by decide) (by decide)
  have p11 := h.2.1 1 1 (by decide) (by decide)
  have pout := h.2.2.1 29 60 (by
    rintro ⟨row, b, h1, h2, h3, h4⟩
    have e1 : machineSprite.reg 1 = 30 := rfl
    rw [e1] at h3
    omega)
  rw [machineSprite_blank, machineSprite_bit00] at p00
  rw [machineSprite_blank, machineSprite_bit17] at p17
  rw [machineSprite_blank, machineSprite_bit11] at p11
  rw [machineSprite_blank] at pout
  refine ⟨h.1, p00, p17, p11, pout, ?_⟩
  rcases h.2.2.2.2 with h0 | h1
  · exact h0
  · obtain ⟨row, b, -, -, -, hp⟩ := h.2.2.2.1.mp h1
    rw [machineSprite_blank] at hp
    exact absurd hp (by decide)

/-- Counterexample to C12 as stated: on an 80x24 terminal, with V0 = 60, V1 = 30,
I = 0x300, sprite bytes 0xFF and 0x81 and a blank display (so x, y are not 0xF and
I + n <= 4096), opcode 0xD012 stops with an out-of-range cell index at its first pixel.
Bit 1 of the first sprite byte is set and the pixel at row 30, column 61 was off, yet that
pixel is still off afterwards, so it was not XORed with its sprite bit. -/
theorem draw_stops_at_first_cell_on_small_terminal :
    machineSprite.iregister + 2 ≤ 4096 ∧
    (execOpcode smallTerminal machineSprite 0xD012).1 = Res.fault Fault.cellIndex ∧
    (machineSprite.reg 1 + 0) % 32 = 30 ∧ (machineSprite.reg 0 + 1) % 64 = 61 ∧
    spriteBit machineSprite 0 1 = true ∧
    machineSprite.pixel 30 61 = false ∧
    (execOpcode smallTerminal machineSprite 0xD012).2.pixel 30 61 = false := by
  rw [machineSprite_small_terminal]
  refine ⟨by decide, rfl, by decide, by decide, machineSprite_bit01,
    machineSprite_blank 30 61, ?_⟩
  show (System.setPixel _ 30 60 true).pixel 30 61 = false
  rw [pixel_setPixel _ 30 60 true (by decide) (by decide) 30 61, if_neg (by decide)]
  exact machineSprite_blank 30 61

/-- C13: for every machine state with x and y other than 0xF and I + n <= 4096, on a
terminal whose cell buffer covers the display, executing the same Dxyn twice in succession
succeeds both times and leaves the display buffer exactly as it was before the first draw;
when the display started all-off and the sprite has at least one set bit, VF is 0 after the
first draw and 1 after the second. -/
theorem draw_twice_restores_display (env : Env) (sys : System) (x y n : Nat)
    (hwf : sys.wf) (hterm : TerminalCovers env) (hx : x < 16) (hy : y < 16) (hn : n < 16)
    (hxF : x ≠ 0xF) (hyF : y ≠ 0xF) (hI : sys.iregister + n ≤ 4096) :
    (execOpcode env sys (0xD000 + 0x100 * x + 0x10 * y + n)).1 = Res.ok () ∧
    (execOpcode env (execOpcode env sys (0xD000 + 0x100 * x + 0x10 * y + n)).2
      (0xD000 + 0x100 * x + 0x10 * y + n)).1 = Res.ok () ∧
    (execOpcode env (execOpcode env sys (0xD000 + 0x100 * x + 0x10 * y + n)).2
      (0xD000 + 0x100 * x + 0x10 * y + n)).2.display = sys.display ∧
    ((∀ r c, sys.pixel r c = false) →
      (∃ row b, row < n ∧ b < 8 ∧ spriteBit sys row b = true) →
      (execOpcode env sys (0xD000 + 0x100 * x + 0x10 * y + n)).2.reg 0xF = 0 ∧
      (execOpcode env (execOpcode env sys (0xD000 + 0x100 * x + 0x10 * y + n)).2
        (0xD000 + 0x100 * x + 0x10 * y + n)).2.reg 0xF = 1) := by
  obtain ⟨u, he, hm, hi, hl, hr, hdu, htog, hsame, hflag, h01⟩ :=
    draw_core env { sys with opcode := 0xD000 + 0x100 * x + 0x10 * y + n } x y n hterm
      (dispOK_of_wf sys hwf) hwf.2.1 hwf.2.2.2.1 hx hy hn hxF hyF hI rfl
  have hexec : execOpcode env sys (0xD000 + 0x100 * x + 0x10 * y + n) = (Res.ok (), u) := he
  have hm' : u.memory = sys.memory := hm
  have hi' : u.iregister = sys.iregister := hi
  have hr' : ∀ j, j ≠ 0xF → u.reg j = sys.reg j := hr
  have htog' : ∀ r c, LitAt sys x y n r c → u.pixel r c = !sys.pixel r c := htog
  have hsame' : ∀ r c, ¬ LitAt sys x y n r c → u.pixel r c = sys.pixel r c := hsame
  have hflag' : u.reg 0xF = 1 ↔ ∃ row, row < n ∧ ∃ b, b < 8 ∧ drawnBit sys row b = true ∧
      sys.pixel ((sys.reg y + row) % 32) ((sys.reg x + b) % 64) = true := hflag
  obtain ⟨v, he2, -, -, -, -, hdv, htog2, hsame2, hflag2, -⟩ :=
    draw_core env { u with opcode := 0xD000 + 0x100 * x + 0x10 * y + n } x y n hterm
      hdu hl (by show u.memory.length = 4096; rw [hm']; exact hwf.2.2.2.1) hx hy hn hxF hyF
      (by show u.iregister + n ≤ 4096; rw [hi']; exact hI) rfl
  have hexec2 : execOpcode env u (0xD000 + 0x100 * x + 0x10 * y + n) = (Res.ok (), v) := he2
  have hbit : ∀ row b, drawnBit u row b = drawnBit sys row b := by
    intro row b
    unfold drawnBit System.mem
    rw [hm', hi']
  have hlit : ∀ r c, LitAt u x y n r c ↔ LitAt sys x y n r c := by
    intro r c
    unfold LitAt
    simp only [hr' x hxF, hr' y hyF, hbit]
  have htog2' : ∀ r c, LitAt sys x y n r c → v.pixel r c = !u.pixel r c :=
    fun r c h => htog2 r c ((hlit r c).mpr h)
  have hsame2' : ∀ r c, ¬ LitAt sys x y n r c → v.pixel r c = u.pixel r c :=
    fun r c h => hsame2 r c (fun h2 => h ((hlit r c).mp h2))
  have hflag2' : v.reg 0xF = 1 ↔ ∃ row, row < n ∧ ∃ b, b < 8 ∧ drawnBit u row b = true ∧
      u.pixel ((u.reg y + row) % 32) ((u.reg x + b) % 64) = true := hflag2
  have hpix : ∀ r c, v.pixel r c = sys.pixel r c := by
    intro r c
    by_cases h : LitAt sys x y n r c
    · rw [htog2' r c h, htog' r c h]
      cases sys.pixel r c <;> rfl
    · rw [hsame2' r c h, hsame' r c h]
  rw [hexec, hexec2]
  refine ⟨rfl, rfl, ?_, ?_⟩
  · show v.display = sys.display
    exact display_ext v sys hdv (dispOK_of_wf sys hwf) hpix
  · intro hoff ⟨row, b, hrow, hb, hbitset⟩
    constructor
    · show u.reg 0xF = 0
      rcases h01 with h | h
      · exact h
      · obtain ⟨row2, -, b2, -, -, hp⟩ := hflag'.mp h
        rw [hoff] at hp
        exact absurd hp (by decide)
    · show v.reg 0xF = 1
      rw [hflag2']
      refine ⟨row, hrow, b, hb, ?_, ?_⟩
      · rw [hbit, drawnBit_eq_spriteBit _ _ _ hb]
        exact hbitset
      · rw [hr' x hxF, hr' y hyF,
          htog' _ _ ⟨row, hrow, b, hb, rfl, rfl,
            by rw [drawnBit_eq_spriteBit _ _ _ hb]; exact hbitset⟩, hoff]
        rfl

/-- Witness for C13: V0 = 60, V1 = 30, n = 2 (opcode 0xD012) with sprite bytes 0xFF, 0x81
drawn twice on a blank display and an 80x40 terminal.  The first draw turns the pixel at
row 30, column 60 on and leaves VF = 0; the second draw returns the display buffer to the
blank one and leaves VF = 1. -/
theorem draw_twice_restores_display_witness :
    (execOpcode quietEnv machineSprite (0xD000 + 0x100 * 0 + 0x10 * 1 + 2)).1 = Res.ok () ∧
    (execOpcode quietEnv machineSprite (0xD000 + 0x100 * 0 + 0x10 * 1 + 2)).2.pixel 30 60
      = true ∧
    (execOpcode quietEnv machineSprite (0xD000 + 0x100 * 0 + 0x10 * 1 + 2)).2.reg 0xF = 0 ∧
    (execOpcode quietEnv (execOpcode quietEnv machineSprite
        (0xD000 + 0x100 * 0 + 0x10 * 1 + 2)).2
      (0xD000 + 0x100 * 0 + 0x10 * 1 + 2)).1 = Res.ok () ∧
    (execOpcode quietEnv (execOpcode quietEnv machineSprite
        (0xD000 + 0x100 * 0 + 0x10 * 1 + 2)).2
      (0xD000 + 0x100 * 0 + 0x10 * 1 + 2)).2.display = machineSprite.display ∧
    (execOpcode quietEnv (execOpcode quietEnv machineSprite
        (0xD000 + 0x100 * 0 + 0x10 * 1 + 2)).2
      (0xD000 + 0x100 * 0 + 0x10 * 1 + 2)).2.reg 0xF = 1 := by
  have h := draw_twice_restores_display quietEnv machineSprite 0 1 2
    machineSprite_wf quietEnv_covers
    (by decide) (by decide) (by decide) (by decide) (by decide) (by decide)
  have hv := h.2.2.2 machineSprite_blank ⟨0, 0, by decide, by decide, machineSprite_bit00⟩
  exact ⟨h.1, machineSprite_first_draw_lights, hv.1, h.2.1, h.2.2.1, hv.2⟩

/-- Counterexample to C13 as stated: on an 80x24 terminal, with V0 = 60, V1 = 30,
I = 0x300, sprite bytes 0xFF and 0x81 and a blank display, the first 0xD012 stops with an
out-of-range cell index after it has turned the pixel at row 30, column 60 on, so the
display buffer is not the one the draw started from and no second draw follows. -/
theorem first_draw_fault_leaves_pixel_lit :
    machineSprite.iregister + 2 ≤ 4096 ∧
    (execOpcode smallTerminal machineSprite 0xD012).1 = Res.fault Fault.cellIndex ∧
    machineSprite.pixel 30 60 = false ∧
    (execOpcode smallTerminal machineSprite 0xD012).2.pixel 30 60 = true ∧
    (execOpcode smallTerminal machineSprite 0xD012).2.display ≠ machineSprite.display := by
  have hp : (execOpcode smallTerminal machineSprite 0xD012).2.pixel 30 60 = true := by
    rw [machineSprite_small_terminal]
    show (System.setPixel _ 30 60 true).pixel 30 60 = true
    rw [pixel_setPixel _ 30 60 true (by decide) (by decide) 30 60, if_pos ⟨rfl, rfl⟩]
  refine ⟨by decide, ?_, machineSprite_blank 30 60, hp, ?_⟩
  · rw [machineSprite_small_terminal]
  · intro hd
    have h2 : (execOpcode smallTerminal machineSprite 0xD012).2.pixel 30 60
        = machineSprite.pixel 30 60 := by
      unfold System.pixel
      rw [hd]
    rw [hp, machineSprite_blank] at h2
    exact absurd h2 (by decide)

end Chip8
